import Mathlib

/-!
# MEXC volume monitor: rolling history and anomaly detection

A shallow embedding of `volume-monitor-v2.js` (class `VolumeMonitor`); the two
methods `addVolumeToHistory` and `calculateAverageVolume` have the same text in
`volume-monitor.js`.  The methods of `volume-monitor.js` that differ are in the
namespace `V1`, the start-up script `index.js` is `Index.main`, and `formatVolume`
and `findLowCapContracts` of `futures-finder.js` are in `FuturesSymbolFinder`.

Modelling conventions.

* A JavaScript number is a `JSNum`: `NaN`, the two infinities, or a finite value
  held as an exact rational; the special values and the comparison rules for
  `NaN` are represented, the sign of zero is not.  The methods are given twice:
  first with exact arithmetic, then, in the namespace `IEEE`, with every sum,
  quotient and parsed literal rounded to binary64 (`roundToDouble`), which is
  what the engine computes.  Properties that depend on the rounding are stated
  for both.
* The plain objects `volumeHistory` and `marketTypes` are maps from own property
  names to values (`none` is `undefined`).  The namespace `Prototype` gives the
  methods that look a symbol up in them with the members inherited from
  `Object.prototype` taken into account; the two agree for every symbol that is
  not the name of such a member.
* Network calls are replaced by their results (`Responses`), one per
  `checkSymbol` call.  Console output is kept as the data it prints.
-/

namespace Smert

/-! ## JavaScript numbers -/

/-- A JavaScript number, without rounding: `NaN`, an infinity or a finite rational. -/
inductive JSNum where
  | nan
  | negInf
  | fin (q : ℚ)
  | posInf
  deriving DecidableEq

namespace JSNum

instance : OfNat JSNum n := ⟨fin n⟩

instance : Inhabited JSNum := ⟨nan⟩

/-- JavaScript `a + b` on numbers. -/
def add : JSNum → JSNum → JSNum
  | nan, _ => nan
  | _, nan => nan
  | posInf, negInf => nan
  | negInf, posInf => nan
  | posInf, _ => posInf
  | _, posInf => posInf
  | negInf, _ => negInf
  | _, negInf => negInf
  | fin a, fin b => fin (a + b)

/-- JavaScript `a / b` on numbers (a zero divisor is taken to be `+0`). -/
def div : JSNum → JSNum → JSNum
  | nan, _ => nan
  | _, nan => nan
  | posInf, posInf => nan
  | posInf, negInf => nan
  | negInf, posInf => nan
  | negInf, negInf => nan
  | posInf, fin b => if 0 ≤ b then posInf else negInf
  | negInf, fin b => if 0 ≤ b then negInf else posInf
  | fin _, posInf => fin 0
  | fin _, negInf => fin 0
  | fin a, fin b =>
      if b = 0 then (if a = 0 then nan else if 0 < a then posInf else negInf)
      else fin (a / b)

/-- JavaScript `a > b` on numbers: false as soon as one side is `NaN`. -/
def gt : JSNum → JSNum → Bool
  | nan, _ => false
  | _, nan => false
  | posInf, posInf => false
  | posInf, _ => true
  | _, posInf => false
  | negInf, _ => false
  | fin _, negInf => true
  | fin a, fin b => decide (b < a)

/-- JavaScript `a >= b` on numbers: false as soon as one side is `NaN`. -/
def ge : JSNum → JSNum → Bool
  | nan, _ => false
  | _, nan => false
  | posInf, _ => true
  | negInf, negInf => true
  | negInf, _ => false
  | fin _, posInf => false
  | fin _, negInf => true
  | fin a, fin b => decide (b ≤ a)

/-- JavaScript truthiness of a number: everything but `0` and `NaN`. -/
def truthy : JSNum → Bool
  | nan => false
  | fin q => decide (q ≠ 0)
  | _ => true

/-- The number is finite and not `NaN`. -/
def isFinite : JSNum → Bool
  | fin _ => true
  | _ => false

end JSNum

/-- The only exception the modelled code can raise by itself. -/
inductive JSError where
  | typeError
  deriving DecidableEq

/-! ## Monitor state -/

/-- The fields of a `VolumeMonitor` instance that the modelled methods read or write. -/
structure Monitor where
  symbols : List String
  volumeMultiplier : JSNum
  checkInterval : Int
  historySize : Int
  marketTypes : String → Option String
  bot : Bool
  volumeHistory : String → Option (List JSNum)

/-- The body of `addVolumeToHistory(symbol, volume)`: create the array when missing,
`push`, then `shift` once when the length exceeds `historySize`. -/
def addVolumeToHistory (m : Monitor) (symbol : String) (volume : JSNum) : Monitor :=
  let existing : List JSNum :=
    match m.volumeHistory symbol with
    | none => []
    | some history => history
  let pushed := existing ++ [volume]
  let kept := if (pushed.length : Int) > m.historySize then pushed.tail else pushed
  { m with volumeHistory := Function.update m.volumeHistory symbol (some kept) }

/-- The body of `calculateAverageVolume(symbol)`: reading `length` of a missing history
is a `TypeError`; an empty history gives `0`; otherwise the left fold of `+` from `0`
divided by the length. -/
def calculateAverageVolume (m : Monitor) (symbol : String) : Except JSError JSNum :=
  match m.volumeHistory symbol with
  | none => .error .typeError
  | some history =>
      if history.length = 0 then .ok 0
      else
        let sum := history.foldl (fun acc val => JSNum.add acc val) 0
        .ok (JSNum.div sum (.fin history.length))

/-- A run of `addVolumeToHistory` calls for one symbol, in the order given. -/
def pushAll (m : Monitor) (symbol : String) (volumes : List JSNum) : Monitor :=
  volumes.foldl (fun acc v => addVolumeToHistory acc symbol v) m

/-- The last `k` elements of a list. -/
def lastN (k : Nat) (l : List JSNum) : List JSNum := l.drop (l.length - k)

/-! ## Market type -/

/-- The body of `getMarketType(symbol)`: a truthy `marketTypes[symbol]` is returned as it is
(an empty string is falsy); otherwise `'futures'` when the symbol includes `'_'`, else
`'spot'`. -/
def getMarketType (m : Monitor) (symbol : String) : String :=
  let byFormat := if symbol.toList.contains '_' then "futures" else "spot"
  match m.marketTypes symbol with
  | some override => if override ≠ "" then override else byFormat
  | none => byFormat

/-! ## Values read from the exchange and `parseFloat` -/

/-- A value found in a response where a volume is expected. -/
inductive Raw where
  | undefined
  | num (n : JSNum)
  | str (s : String)
  deriving DecidableEq

/-- JavaScript truthiness of such a value. -/
def Raw.truthy : Raw → Bool
  | .undefined => false
  | .num n => n.truthy
  | .str s => decide (s ≠ "")

/-- White space and line terminators that `parseFloat` skips at the start. -/
def isStrWhiteSpace (c : Char) : Bool :=
  let n := c.toNat
  n = 0x09 || n = 0x0A || n = 0x0B || n = 0x0C || n = 0x0D || n = 0x20 || n = 0xA0 ||
  n = 0x1680 || (0x2000 ≤ n && n ≤ 0x200A) || n = 0x2028 || n = 0x2029 || n = 0x202F ||
  n = 0x205F || n = 0x3000 || n = 0xFEFF

/-- The value of a run of decimal digits. -/
def digitsValue (ds : List Char) : Nat :=
  ds.foldl (fun acc c => 10 * acc + (c.toNat - 48)) 0

/-- The exponent part at the start of the rest of a literal: `e` or `E`, an optional sign and
at least one digit; anything else leaves the exponent at `0`. -/
def exponentPart (rest : List Char) : Int :=
  let digitsOf (cs : List Char) : Option Nat :=
    let ds := cs.takeWhile Char.isDigit
    if ds.isEmpty then none else some (digitsValue ds)
  let signed (cs : List Char) : Int :=
    match cs with
    | '+' :: t => match digitsOf t with | some e => (e : Int) | none => 0
    | '-' :: t => match digitsOf t with | some e => -(e : Int) | none => 0
    | t => match digitsOf t with | some e => (e : Int) | none => 0
  match rest with
  | 'e' :: t => signed t
  | 'E' :: t => signed t
  | _ => 0

/-- The longest prefix that is an unsigned decimal literal, as a number; `none` when there is
no such prefix. -/
def parseUnsigned (cs : List Char) : Option JSNum :=
  if "Infinity".toList.isPrefixOf cs then some .posInf
  else
    let intDigits := cs.takeWhile Char.isDigit
    let afterInt := cs.dropWhile Char.isDigit
    let fracDigits :=
      match afterInt with
      | '.' :: t => t.takeWhile Char.isDigit
      | _ => []
    let afterFrac :=
      match afterInt with
      | '.' :: t => t.dropWhile Char.isDigit
      | _ => afterInt
    if intDigits.isEmpty && fracDigits.isEmpty then none
    else
      let mantissa : ℚ :=
        (digitsValue intDigits : ℚ)
          + (digitsValue fracDigits : ℚ) / (10 ^ fracDigits.length : ℕ)
      let e := exponentPart afterFrac
      let value : ℚ :=
        if 0 ≤ e then mantissa * (10 ^ e.toNat : ℕ) else mantissa / (10 ^ (-e).toNat : ℕ)
      some (.fin value)

/-- The function `parseFloat` on a string. -/
def parseFloatString (s : String) : JSNum :=
  let trimmed := s.toList.dropWhile isStrWhiteSpace
  match trimmed with
  | '-' :: t =>
      match parseUnsigned t with
      | some .posInf => .negInf
      | some (.fin q) => .fin (-q)
      | _ => .nan
  | '+' :: t => (parseUnsigned t).getD .nan
  | t => (parseUnsigned t).getD .nan

/-- The function `parseFloat`: the argument is converted to a string and read as a decimal
literal; a number is read back as itself and `undefined` gives `NaN`. -/
def parseFloat : Raw → JSNum
  | .undefined => .nan
  | .num n => n
  | .str s => parseFloatString s

/-! ## What the exchange answers -/

/-- A spot candle: `[openTime, open, high, low, close, volume, closeTime, quoteVolume]`. -/
abbrev Candle := List Raw

/-- The result of `getSpotKlines`. -/
inductive SpotKlines where
  /-- The request failed (the `catch` returns `null`) or the body is `null`. -/
  | null
  /-- A body that is not an array, such as an error object: it has no `length` and no
  `map`. -/
  | notArray
  /-- An array of candles, oldest first. -/
  | array (candles : List Candle)

/-- The result of `getFuturesKlines`. -/
inductive FuturesKlines where
  /-- The request failed, or the body is missing or has no truthy `success`. -/
  | null
  /-- The `data` object of a successful body; `amount` is `none` when the field is
  missing, otherwise the array of quote volumes (JSON numbers), oldest first. -/
  | data (amount : Option (List JSNum))

/-- The results of the requests one `checkSymbol` call can make. -/
structure Responses where
  /-- `quoteVolume` of the spot 24h ticker body; `none` when `getSpot24hTicker` returns `null`. -/
  spotTicker : Option Raw
  /-- `volume24` of the futures ticker data; `none` when `getFuturesTicker` returns `null`. -/
  futuresTicker : Option Raw
  spotKlines : SpotKlines
  futuresKlines : FuturesKlines
  /-- Whether `bot.sendMessage` rejects. -/
  sendFails : Bool

/-! ## Candle analysis -/

/-- The object returned by `analyzeSpotVolumes` and `analyzeFuturesVolumes`. -/
structure Analysis where
  currentVolume : JSNum
  avgPreviousVolume : JSNum
  volumes : List JSNum
  multiplier : JSNum

/-- The body of `analyzeSpotVolumes` after the request: `null` when there are no candles,
a `TypeError` when the body has no `map`; otherwise field 7 of every candle goes through
`parseFloat`, the last value is the current volume and the others are averaged.  The
default of `getLastD` is never used: the list is not empty there. -/
def analyzeSpotVolumes (klines : SpotKlines) : Except JSError (Option Analysis) :=
  match klines with
  | .null => .ok none
  | .notArray => .error .typeError
  | .array candles =>
      if candles.length = 0 then .ok none
      else
        let volumes := candles.map (fun candle => parseFloat (candle.getD 7 .undefined))
        let currentVolume := volumes.getLastD .nan
        let previousVolumes := volumes.dropLast
        let avgPreviousVolume :=
          JSNum.div (previousVolumes.foldl (fun a b => JSNum.add a b) 0)
            (.fin previousVolumes.length)
        .ok (some
          { currentVolume := currentVolume
            avgPreviousVolume := avgPreviousVolume
            volumes := volumes
            multiplier :=
              if avgPreviousVolume.gt 0 then JSNum.div currentVolume avgPreviousVolume else 0 })

/-- The body of `analyzeFuturesVolumes` after the request: `null` without data or with an
empty or missing `amount`; otherwise the last amount is the current volume and the others
are averaged.  The default of `getLastD` is never used: the list is not empty there. -/
def analyzeFuturesVolumes (klines : FuturesKlines) : Except JSError (Option Analysis) :=
  match klines with
  | .null => .ok none
  | .data amount =>
      let volumes := amount.getD []
      if volumes.length = 0 then .ok none
      else
        let currentVolume := volumes.getLastD .nan
        let previousVolumes := volumes.dropLast
        let avgPreviousVolume :=
          JSNum.div (previousVolumes.foldl (fun a b => JSNum.add a b) 0)
            (.fin previousVolumes.length)
        .ok (some
          { currentVolume := currentVolume
            avgPreviousVolume := avgPreviousVolume
            volumes := volumes
            multiplier :=
              if avgPreviousVolume.gt 0 then JSNum.div currentVolume avgPreviousVolume else 0 })

/-! ## Alerting -/

/-- The `data` argument of `sendTelegramAlert`. -/
structure AlertData where
  currentVolume : JSNum
  avgVolume : JSNum
  multiplier : JSNum
  deriving DecidableEq

/-- The text `value.toFixed(2) + suffix`, kept as its two parts. -/
structure Fixed2 where
  value : JSNum
  suffix : String
  deriving DecidableEq

/-- The body of `formatNumber(num)`, the same in `volume-monitor.js` and
`volume-monitor-v2.js`: millions with `M`, thousands with `K`, anything else as it is. -/
def formatNumber (num : JSNum) : Fixed2 :=
  if num.ge 1000000 then { value := JSNum.div num 1000000, suffix := "M" }
  else if num.ge 1000 then { value := JSNum.div num 1000, suffix := "K" }
  else { value := num, suffix := "" }

/-- The body of `formatVolume(volume)` of `futures-finder.js`, which has one more branch
than `formatNumber`: billions with `B`. -/
def FuturesSymbolFinder.formatVolume (volume : JSNum) : Fixed2 :=
  if volume.ge 1000000000 then { value := JSNum.div volume 1000000000, suffix := "B" }
  else if volume.ge 1000000 then { value := JSNum.div volume 1000000, suffix := "M" }
  else if volume.ge 1000 then { value := JSNum.div volume 1000, suffix := "K" }
  else { value := volume, suffix := "" }

/-- The parts the alert text is built from (the time stamp is left out).  The market line
exists only in the text of `volume-monitor-v2.js`; the two volumes are shown through
`formatNumber` and the multiplier of `data` through `toFixed(2)`. -/
structure AlertMessage where
  marketLabel : Option String
  symbol : String
  currentVolumeText : Fixed2
  avgVolumeText : Fixed2
  data : AlertData
  tradingUrl : String
  deriving DecidableEq

/-- What `sendTelegramAlert` did. -/
inductive Delivery where
  /-- No bot is configured: the method returns at once. -/
  | noBot
  /-- The message was sent. -/
  | sent (message : AlertMessage)
  /-- The send was rejected; the error is caught and logged inside the method. -/
  | failed (message : AlertMessage)
  deriving DecidableEq

/-- The body of `sendTelegramAlert(symbol, data)`. -/
def sendTelegramAlert (m : Monitor) (symbol : String) (data : AlertData)
    (sendFails : Bool) : Delivery :=
  if !m.bot then .noBot
  else
    let marketType := getMarketType m symbol
    let marketLabel := if marketType = "futures" then "FUTURES" else "SPOT"
    let tradingUrl :=
      if marketType = "futures" then "https://futures.mexc.com/exchange/" ++ symbol
      else "https://www.mexc.com/exchange/" ++ symbol
    let message : AlertMessage :=
      { marketLabel := some marketLabel
        symbol := symbol
        currentVolumeText := formatNumber data.currentVolume
        avgVolumeText := formatNumber data.avgVolume
        data := data
        tradingUrl := tradingUrl }
    if sendFails then .failed message else .sent message

/-! ## Checking one symbol -/

/-- The branch `checkSymbol` ends in once it has data. -/
inductive Verdict where
  /-- The anomaly branch: `sendTelegramAlert` was called with `data`. -/
  | anomaly (data : AlertData) (delivery : Delivery)
  /-- The normal branch, with the multiplier it prints. -/
  | normal (historicalMultiplier : JSNum)
  /-- The accumulation branch, with the progress `length/historySize` it prints. -/
  | accumulating (length : Nat) (historySize : Int)
  deriving DecidableEq

/-- Whether the verdict is the anomaly branch. -/
def Verdict.isAnomaly : Verdict → Bool
  | .anomaly _ _ => true
  | _ => false

/-- The multiplier the verdict holds, when the branch computed one. -/
def Verdict.multiplier? : Verdict → Option JSNum
  | .anomaly data _ => some data.multiplier
  | .normal k => some k
  | .accumulating _ _ => none

/-- What `checkSymbol` prints once it has data. -/
structure CheckReport where
  volume24h : JSNum
  currentVolume : JSNum
  avgPreviousVolume : JSNum
  avgHistoricalVolume : JSNum
  verdict : Verdict
  deriving DecidableEq

/-- How a `checkSymbol` call ends. -/
inductive CheckResult where
  /-- An exception left the method. -/
  | threw (e : JSError)
  /-- The method returns early because a request gave it nothing to work with. -/
  | noData
  /-- The method ran to its end. -/
  | checked (report : CheckReport)
  deriving DecidableEq

/-- Whether the call took the anomaly branch. -/
def CheckResult.isAnomaly : CheckResult → Bool
  | .checked report => report.verdict.isAnomaly
  | _ => false

/-- The result with the printed 24h volume replaced, to compare runs apart from it. -/
def CheckResult.setVolume24h (v : JSNum) : CheckResult → CheckResult
  | .checked report => .checked { report with volume24h := v }
  | other => other

/-- The verdict with the outcome of the send forgotten, to compare runs apart from it. -/
def Verdict.withoutDelivery : Verdict → Verdict
  | .anomaly data _ => .anomaly data .noBot
  | other => other

/-- The result with the outcome of the send forgotten. -/
def CheckResult.withoutDelivery : CheckResult → CheckResult
  | .checked report => .checked { report with verdict := report.verdict.withoutDelivery }
  | other => other

/-- The last statement of `checkSymbol`, the anomaly test: with `avgHistoricalVolume > 0`
the multiplier `currentVolume / avgHistoricalVolume` is compared with `volumeMultiplier`
and an alert is sent when it reaches it; otherwise the accumulation progress is printed.
`m1` is the monitor after the push. -/
def anomalyTest (m1 : Monitor) (symbol : String) (currentVolume avgHistoricalVolume : JSNum)
    (sendFails : Bool) : Verdict :=
  if avgHistoricalVolume.gt 0 then
    let historicalMultiplier := JSNum.div currentVolume avgHistoricalVolume
    if historicalMultiplier.ge m1.volumeMultiplier then
      let data : AlertData :=
        { currentVolume := currentVolume
          avgVolume := avgHistoricalVolume
          multiplier := historicalMultiplier }
      .anomaly data (sendTelegramAlert m1 symbol data sendFails)
    else .normal historicalMultiplier
  else
    .accumulating ((m1.volumeHistory symbol).getD []).length m1.historySize

/-- The body of `checkSymbol(symbol)`, given the answers of the exchange: the ticker and
the candles of the symbol's market, then the push, the average and the anomaly test. -/
def checkSymbol (m : Monitor) (symbol : String) (r : Responses) : CheckResult × Monitor :=
  let marketType := getMarketType m symbol
  let volume24h : JSNum :=
    if marketType = "futures" then
      match r.futuresTicker with
      | some volume24 => if volume24.truthy then parseFloat volume24 else 0
      | none => 0
    else
      match r.spotTicker with
      | some quoteVolume => parseFloat quoteVolume
      | none => 0
  let recentAnalysis :=
    if marketType = "futures" then analyzeFuturesVolumes r.futuresKlines
    else analyzeSpotVolumes r.spotKlines
  match recentAnalysis with
  | .error e => (.threw e, m)
  | .ok none => (.noData, m)
  | .ok (some analysis) =>
      let currentVolume := analysis.currentVolume
      let m1 := addVolumeToHistory m symbol currentVolume
      match calculateAverageVolume m1 symbol with
      | .error e => (.threw e, m1)
      | .ok avgHistoricalVolume =>
          (.checked
            { volume24h := volume24h
              currentVolume := currentVolume
              avgPreviousVolume := analysis.avgPreviousVolume
              avgHistoricalVolume := avgHistoricalVolume
              verdict :=
                anomalyTest m1 symbol currentVolume avgHistoricalVolume r.sendFails }, m1)

/-! ## The monitoring loop -/

/-- One run of the `for` loop of `monitorLoop` over the symbols that are left. -/
structure PassResult where
  /-- The `checkSymbol` calls made, in order, with how each ended. -/
  calls : List (String × CheckResult)
  /-- The exception that left the loop, if any. -/
  escaped : Option JSError
  monitor : Monitor

/-- The `for (const symbol of this.symbols)` loop: `checkSymbol` is awaited for each symbol
in turn and nothing catches what it throws.  `responses i` answers the call at position
`i`. -/
def monitorPass (responses : Nat → Responses) (m : Monitor) :
    List String → Nat → PassResult
  | [], _ => { calls := [], escaped := none, monitor := m }
  | symbol :: rest, i =>
      match checkSymbol m symbol (responses i) with
      | (.threw e, m1) => { calls := [(symbol, .threw e)], escaped := some e, monitor := m1 }
      | (result, m1) =>
          let later := monitorPass responses m1 rest (i + 1)
          { calls := (symbol, result) :: later.calls
            escaped := later.escaped
            monitor := later.monitor }

/-- What `monitorLoop` has done after a number of passes. -/
structure LoopResult where
  /-- The calls of each pass started so far, oldest pass first. -/
  passes : List (List (String × CheckResult))
  /-- The exception the promise of `monitorLoop` is rejected with, if any. -/
  rejected : Option JSError
  monitor : Monitor

/-- The `while (true)` loop of `monitorLoop`, cut after `cycles` passes; `responses c i`
answers the call at position `i` of pass `c`.  A pass that throws ends the loop. -/
def monitorLoop (responses : Nat → Nat → Responses) :
    (cycles : Nat) → (cycle : Nat) → Monitor → LoopResult
  | 0, _, m => { passes := [], rejected := none, monitor := m }
  | cycles + 1, cycle, m =>
      let pass := monitorPass (responses cycle) m m.symbols 0
      match pass.escaped with
      | some e => { passes := [pass.calls], rejected := some e, monitor := pass.monitor }
      | none =>
          let later := monitorLoop responses cycles (cycle + 1) pass.monitor
          { passes := pass.calls :: later.passes
            rejected := later.rejected
            monitor := later.monitor }

/-- The state of the process. -/
inductive ProcessState where
  | running
  | exited (code : Nat)
  deriving DecidableEq

/-- The body of `start()`, observed after at most `cycles` passes: a rejection of
`monitorLoop` is logged as a critical error and ends the process with status 1. -/
def start (responses : Nat → Nat → Responses) (cycles : Nat) (m : Monitor) :
    LoopResult × ProcessState :=
  let run := monitorLoop responses cycles 0 m
  match run.rejected with
  | some _ => (run, .exited 1)
  | none => (run, .running)

/-! ## Construction -/

/-- The fields of the `config` object the constructor reads; `none` is a missing field. -/
structure Config where
  symbols : Option (List String)
  volumeMultiplier : Option JSNum
  checkInterval : Option Int
  historySize : Option Int
  marketTypes : Option (String → Option String)
  telegramToken : Option String
  telegramChatId : Option String

/-- The body of the constructor: `||` replaces a missing or falsy setting by its default
(an array is truthy even when empty), a bot exists when both Telegram settings are truthy,
and every configured symbol gets an empty history. -/
def Monitor.new (config : Config) : Monitor :=
  let symbols := config.symbols.getD ["STABLEUSDT"]
  { symbols := symbols
    volumeMultiplier :=
      match config.volumeMultiplier with
      | some v => if v.truthy then v else 2
      | none => 2
    checkInterval :=
      match config.checkInterval with
      | some v => if v ≠ 0 then v else 60000
      | none => 60000
    historySize :=
      match config.historySize with
      | some v => if v ≠ 0 then v else 24
      | none => 24
    marketTypes := config.marketTypes.getD (fun _ => none)
    bot :=
      match config.telegramToken, config.telegramChatId with
      | some token, some chatId => decide (token ≠ "") && decide (chatId ≠ "")
      | _, _ => false
    volumeHistory :=
      symbols.foldl (fun history symbol => Function.update history symbol (some []))
        (fun _ => none) }

/-! ## The first monitor, `volume-monitor.js`

This is the monitor `index.js` launches.  It knows the spot market only; its constructor,
`calculateAverageVolume`, `addVolumeToHistory`, `formatNumber`, `monitorLoop` and `start`
have the text of the second monitor (the constructor without the `marketTypes` line). -/

/-- The constructor of `volume-monitor.js`. -/
def V1.new (config : Config) : Monitor :=
  { Monitor.new config with marketTypes := fun _ => none }

/-- The body of `analyzeRecentVolumes` of `volume-monitor.js` after the request.  The
default of `getLastD` is never used: the list is not empty there. -/
def V1.analyzeRecentVolumes (klines : SpotKlines) : Except JSError (Option Analysis) :=
  match klines with
  | .null => .ok none
  | .notArray => .error .typeError
  | .array candles =>
      if candles.length = 0 then .ok none
      else
        let volumes := candles.map (fun candle => parseFloat (candle.getD 7 .undefined))
        let currentVolume := volumes.getLastD .nan
        let previousVolumes := volumes.dropLast
        let avgPreviousVolume :=
          JSNum.div (previousVolumes.foldl (fun a b => JSNum.add a b) 0)
            (.fin previousVolumes.length)
        .ok (some
          { currentVolume := currentVolume
            avgPreviousVolume := avgPreviousVolume
            volumes := volumes
            multiplier :=
              if avgPreviousVolume.gt 0 then JSNum.div currentVolume avgPreviousVolume else 0 })

/-- The body of `sendTelegramAlert(symbol, data)` of `volume-monitor.js`. -/
def V1.sendTelegramAlert (m : Monitor) (symbol : String) (data : AlertData)
    (sendFails : Bool) : Delivery :=
  if !m.bot then .noBot
  else
    let message : AlertMessage :=
      { marketLabel := none
        symbol := symbol
        currentVolumeText := formatNumber data.currentVolume
        avgVolumeText := formatNumber data.avgVolume
        data := data
        tradingUrl := "https://www.mexc.com/exchange/" ++ symbol }
    if sendFails then .failed message else .sent message

/-- The last statement of `checkSymbol` of `volume-monitor.js`, the anomaly test. -/
def V1.anomalyTest (m1 : Monitor) (symbol : String)
    (currentVolume avgHistoricalVolume : JSNum) (sendFails : Bool) : Verdict :=
  if avgHistoricalVolume.gt 0 then
    let historicalMultiplier := JSNum.div currentVolume avgHistoricalVolume
    if historicalMultiplier.ge m1.volumeMultiplier then
      let data : AlertData :=
        { currentVolume := currentVolume
          avgVolume := avgHistoricalVolume
          multiplier := historicalMultiplier }
      .anomaly data (V1.sendTelegramAlert m1 symbol data sendFails)
    else .normal historicalMultiplier
  else
    .accumulating ((m1.volumeHistory symbol).getD []).length m1.historySize

/-- The body of `checkSymbol(symbol)` of `volume-monitor.js`: it returns at once when the
24h ticker request gave nothing, and again when the candle analysis is `null`; then the
push, the average and the anomaly test. -/
def V1.checkSymbol (m : Monitor) (symbol : String) (r : Responses) : CheckResult × Monitor :=
  match r.spotTicker with
  | none => (.noData, m)
  | some quoteVolume =>
      let volume24h := parseFloat quoteVolume
      match V1.analyzeRecentVolumes r.spotKlines with
      | .error e => (.threw e, m)
      | .ok none => (.noData, m)
      | .ok (some analysis) =>
          let currentVolume := analysis.currentVolume
          let m1 := addVolumeToHistory m symbol currentVolume
          match calculateAverageVolume m1 symbol with
          | .error e => (.threw e, m1)
          | .ok avgHistoricalVolume =>
              (.checked
                { volume24h := volume24h
                  currentVolume := currentVolume
                  avgPreviousVolume := analysis.avgPreviousVolume
                  avgHistoricalVolume := avgHistoricalVolume
                  verdict :=
                    V1.anomalyTest m1 symbol currentVolume avgHistoricalVolume
                      r.sendFails }, m1)

/-! ## The entry point, `index.js` -/

/-- The configuration `index.js` uses when there is no `config.js`; the two Telegram
literals of the source are non-empty strings and are not spelled out here. -/
def Index.defaultConfig : Config :=
  { symbols := some ["STABLEUSDT", "BTCUSDT"]
    volumeMultiplier := some 2
    checkInterval := some 60000
    historySize := some 24
    marketTypes := none
    telegramToken := some "(bot token)"
    telegramChatId := some "(chat id)" }

/-- How the entry point leaves its start-up. -/
inductive Startup where
  /-- The script called `process.exit(code)` before a monitor existed. -/
  | exited (code : Nat)
  /-- The monitor was constructed and `start()` was called on it. -/
  | started (monitor : Monitor)

/-- The body of `index.js`: the configuration is what `config.js` exports when the file
exists (`configFile`), otherwise the built-in one; a missing or empty `symbols` ends the
process with status 1; otherwise a `VolumeMonitor` of `volume-monitor.js` is constructed
and started. -/
def Index.main (configFile : Option Config) : Startup :=
  let config :=
    match configFile with
    | some loaded => loaded
    | none => Index.defaultConfig
  match config.symbols with
  | none => .exited 1
  | some symbols =>
      if symbols.length = 0 then .exited 1
      else .started (V1.new config)

/-! ## Example inputs -/

/-- The length of the stored history of a symbol (`0` when there is none). -/
def historyLength (m : Monitor) (symbol : String) : Nat :=
  ((m.volumeHistory symbol).getD []).length

/-- A spot candle with the given quote volume at index 7. -/
def spotCandle (quoteVolume : String) : Candle :=
  [.num 1700000000000, .str "1.0", .str "1.1", .str "0.9", .str "1.0", .str "50",
   .num 1700000300000, .str quoteVolume]

/-- Answers for a spot symbol whose candles carry the given quote volumes; the ticker
request fails and so would a send. -/
def spotResponses (quoteVolumes : List String) : Responses :=
  { spotTicker := none
    futuresTicker := none
    spotKlines := .array (quoteVolumes.map spotCandle)
    futuresKlines := .null
    sendFails := true }

/-- Answers for a futures symbol whose `amount` array is the given one. -/
def futuresResponses (amount : List JSNum) : Responses :=
  { spotTicker := none
    futuresTicker := none
    spotKlines := .null
    futuresKlines := .data (some amount)
    sendFails := true }

/-- A configuration with the given symbols, history size and threshold, and no Telegram
settings. -/
def exampleConfig (symbols : List String) (historySize : Int) (threshold : JSNum) : Config :=
  { symbols := some symbols
    volumeMultiplier := some threshold
    checkInterval := some 60000
    historySize := some historySize
    marketTypes := none
    telegramToken := none
    telegramChatId := none }

/-- A monitor that watches one symbol and already holds the given history for it. -/
def monitorWith (symbol : String) (history : List JSNum) (historySize : Int)
    (threshold : JSNum) : Monitor :=
  { Monitor.new (exampleConfig [symbol] historySize threshold) with
    volumeHistory := fun s => if s = symbol then some history else none }

/-- The exchange in the end-to-end scenario: a spot series whose last candle carries 100 in
the first three passes and 500 from the fourth on. -/
def scenarioResponses (cycle : Nat) (_position : Nat) : Responses :=
  spotResponses ["100", if cycle < 3 then "100" else "500"]

/-- Whether the candle request that `checkSymbol` makes for this symbol returns `null`. -/
def candlesUnavailable (m : Monitor) (symbol : String) (r : Responses) : Bool :=
  if getMarketType m symbol = "futures" then
    match r.futuresKlines with
    | .null => true
    | _ => false
  else
    match r.spotKlines with
    | .null => true
    | _ => false

/-- The recent volume series `checkSymbol` gets for this symbol, oldest first: field 7 of
the spot candles through `parseFloat`, or the futures `amount` array (empty when missing);
`none` when the request returns `null` or the spot body is not an array. -/
def volumeSeries (m : Monitor) (symbol : String) (r : Responses) : Option (List JSNum) :=
  if getMarketType m symbol = "futures" then
    match r.futuresKlines with
    | .null => none
    | .data amount => some (amount.getD [])
  else
    match r.spotKlines with
    | .null => none
    | .notArray => none
    | .array candles =>
        some (candles.map (fun candle => parseFloat (candle.getD 7 .undefined)))

/-- An exchange whose candle answer at position 0 of every pass is an object instead of an
array, and which answers every other call with a two-candle spot series. -/
def brokenFirstResponses (_cycle : Nat) (position : Nat) : Responses :=
  if position = 0 then
    { spotTicker := none
      futuresTicker := none
      spotKlines := .notArray
      futuresKlines := .null
      sendFails := true }
  else spotResponses ["100", "100"]

/-- An exchange whose requests all fail at position 0 of every pass, and which answers
every other call with a two-candle spot series. -/
def failedFirstResponses (_cycle : Nat) (position : Nat) : Responses :=
  if position = 0 then
    { spotTicker := none
      futuresTicker := none
      spotKlines := .null
      futuresKlines := .null
      sendFails := true }
  else spotResponses ["100", "100"]

/-- An exchange whose candle answer at position 1 of every pass is an object instead of an
array, and which answers every other call with a two-candle spot series. -/
def brokenSecondResponses (_cycle : Nat) (position : Nat) : Responses :=
  if position = 1 then
    { spotTicker := none
      futuresTicker := none
      spotKlines := .notArray
      futuresKlines := .null
      sendFails := true }
  else spotResponses ["100", "100"]

/-- A configuration with one symbol and thresholds outside the ranges the settings are
meant to have: a multiplier of 1/2, a check interval of -1000 and a history size of -5. -/
def invalidThresholdConfig : Config :=
  { symbols := some ["BTCUSDT"]
    volumeMultiplier := some (JSNum.fin (1 / 2))
    checkInterval := some (-1000)
    historySize := some (-5)
    marketTypes := none
    telegramToken := none
    telegramChatId := none }

/-- The number is a finite real that is not negative. -/
def JSNum.isNonNegReal : JSNum → Bool
  | .fin q => decide (0 ≤ q)
  | _ => false

/-- The `data` passed to `sendTelegramAlert`, when the verdict is the anomaly branch. -/
def Verdict.alertData? : Verdict → Option AlertData
  | .anomaly data _ => some data
  | _ => none

/-- The `data` passed to `sendTelegramAlert` by the call, if it raised an alert. -/
def CheckResult.alertData? : CheckResult → Option AlertData
  | .checked report => report.verdict.alertData?
  | _ => none

/-- The stored history of a symbol as a list (empty when there is none). -/
def historyOf (m : Monitor) (symbol : String) : List JSNum :=
  (m.volumeHistory symbol).getD []

/-! ## The contract finder, `futures-finder.js` -/

/-- JavaScript `a - b` on numbers. -/
def JSNum.sub : JSNum → JSNum → JSNum
  | .nan, _ => .nan
  | _, .nan => .nan
  | .posInf, .posInf => .nan
  | .negInf, .negInf => .nan
  | .posInf, _ => .posInf
  | _, .posInf => .negInf
  | .negInf, _ => .negInf
  | _, .negInf => .posInf
  | .fin a, .fin b => .fin (a - b)

/-- The expression `parseFloat(x) || 0`. -/
def parseFloatOrZero (x : Raw) : JSNum :=
  if (parseFloat x).truthy then parseFloat x else 0

/-- The method `sort(compare)` of an array.  The sort is stable and `a` stays before `b`
unless `compare(a, b) > 0`; it is written as an insertion sort, which is what every engine
returns when the comparator is a consistent ordering. -/
def jsSort {α : Type} (compare : α → α → JSNum) (xs : List α) : List α :=
  xs.insertionSort (fun a b => (compare a b).gt 0 = false)

/-- An element of the ticker list of the futures exchange: the fields the finder reads. -/
structure FuturesTickerRow where
  symbol : Raw
  volume24 : Raw
  riseFallRate : Raw
  lastPrice : Raw
  deriving DecidableEq

/-- An entry of the lists the finder builds. -/
structure Contract where
  symbol : Raw
  volume24 : JSNum
  riseFallRate : JSNum
  lastPrice : JSNum
  deriving DecidableEq

/-- The arrow function of the `map` step of the finder. -/
def FuturesSymbolFinder.toContract (t : FuturesTickerRow) : Contract :=
  { symbol := t.symbol
    volume24 := parseFloatOrZero t.volume24
    riseFallRate := parseFloatOrZero t.riseFallRate
    lastPrice := parseFloatOrZero t.lastPrice }

/-- What `findLowCapContracts` prints as table rows and what it returns. -/
structure FinderOutput where
  printedRows : List Contract
  returned : List Contract

/-- The body of `findLowCapContracts(minVolume = 100000, maxVolume = 1000000)` after the
ticker request, whose result is `tickers` (empty when the request failed): keep the
tickers with a truthy `symbol` and `volume24`, map them, keep the entries with
`minVolume <= volume24 <= maxVolume`, sort by `b.volume24 - a.volume24`; print the first 30
and return them all.  An omitted bound is `none`. -/
def FuturesSymbolFinder.findLowCapContracts (tickers : List FuturesTickerRow)
    (minVolume maxVolume : Option JSNum) : FinderOutput :=
  let minVolume := minVolume.getD 100000
  let maxVolume := maxVolume.getD 1000000
  let filtered :=
    jsSort (fun a b => JSNum.sub b.volume24 a.volume24)
      (((tickers.filter (fun t => t.symbol.truthy && t.volume24.truthy)).map
          FuturesSymbolFinder.toContract).filter
        (fun t => t.volume24.ge minVolume && maxVolume.ge t.volume24))
  { printedRows := filtered.take 30, returned := filtered }

/-- A ticker row with the given symbol and 24h volume. -/
def tickerRow (symbol volume24 : String) : FuturesTickerRow :=
  { symbol := .str symbol, volume24 := .str volume24, riseFallRate := .str "0.01",
    lastPrice := .str "1.5" }

/-- A small ticker list: one row out of range on each side, one without a volume, one with
a volume that is no number, and three rows in range, not in order. -/
def exampleTickers : List FuturesTickerRow :=
  [tickerRow "AAA_USDT" "200000", tickerRow "BBB_USDT" "5000000", tickerRow "CCC_USDT" "",
   tickerRow "DDD_USDT" "900000", tickerRow "EEE_USDT" "abc", tickerRow "FFF_USDT" "50",
   tickerRow "GGG_USDT" "450000.5"]

/-- The tickers the claim about `findLowCapContracts` speaks of: a ticker qualifies when it
has a symbol and a truthy `volume24` and its parsed `volume24`, the value
`parseFloat(volume24) || 0` its entry holds, lies in `[minVolume, maxVolume]`. -/
def FuturesSymbolFinder.qualifies (minVolume maxVolume : JSNum) (t : FuturesTickerRow) : Bool :=
  t.symbol.truthy && t.volume24.truthy &&
    ((parseFloatOrZero t.volume24).ge minVolume && maxVolume.ge (parseFloatOrZero t.volume24))

/-! ## Binary64 rounding

The definitions above compute with exact rationals.  A JavaScript engine rounds the result
of every arithmetic operation, and of every decimal literal it reads, to the nearest
binary64 value.  The namespace `IEEE` repeats the arithmetic methods of the monitor with
that rounding; the text of each is the one above with `+`, `/` and `parseFloat` replaced by
their rounded forms. -/

/-- The power `2 ^ e` for an integer exponent. -/
def pow2 (e : Int) : ℚ :=
  if 0 ≤ e then ((2 ^ e.toNat : ℕ) : ℚ) else 1 / ((2 ^ (-e).toNat : ℕ) : ℚ)

/-- The number of halvings that bring `n` below 2, at most `fuel` of them; with
`fuel = n` this is the position of the highest set bit of `n`. -/
def halvings : ℕ → ℕ → ℕ
  | 0, _ => 0
  | fuel + 1, n => if n < 2 then 0 else halvings fuel (n / 2) + 1

/-- The integer `e` with `2 ^ e ≤ a < 2 ^ (e + 1)`, for a positive `a`: the difference of
the bit positions of numerator and denominator, or one less. -/
def floorLog2 (a : ℚ) : Int :=
  let guess : Int := (halvings a.num.toNat a.num.toNat : Int) - (halvings a.den a.den : Int)
  if pow2 guess ≤ a then guess else guess - 1

/-- The integer nearest to a non-negative `x`; of two equally near ones, the even one. -/
def roundHalfEven (x : ℚ) : ℕ :=
  let below := x.num.toNat / x.den
  let rest := x - below
  if rest < 1 / 2 then below
  else if 1 / 2 < rest then below + 1
  else if below % 2 = 0 then below else below + 1

/-- The binary64 value nearest to a real number, ties to even: a significand of 53 bits,
the least exponent `-1022` (below it the spacing stays `2 ^ -1074`, so small values lose
bits and the smallest become `0`), and an infinity when the rounded magnitude reaches
`2 ^ 1024`. -/
def roundToDouble (q : ℚ) : JSNum :=
  if q = 0 then .fin 0
  else
    let a := if 0 < q then q else -q
    let quantum := pow2 (max (floorLog2 a) (-1022) - 52)
    let r := (roundHalfEven (a / quantum) : ℚ) * quantum
    if pow2 1024 ≤ r then (if 0 < q then .posInf else .negInf)
    else .fin (if 0 < q then r else -r)

/-- The relative error of one rounding to binary64 in its normal range is at most this,
`2 ^ -53`. -/
def unitRoundoff : ℚ := pow2 (-53)

/-- The bound on the multiplier in binary64 arithmetic with `n` samples in the history: `n`
enlarged by the relative error of the roundings on the way, the `n` additions and the two
divisions. -/
def multiplierCeiling (n : ℕ) : ℚ :=
  n * (1 + unitRoundoff) / (1 - unitRoundoff) ^ (n + 1)

/-- The number is `0` or a finite value between `2 ^ -500` and `2 ^ 500`.  Sums of up to
`2 ^ 40` such values, their means and the quotients the monitor takes of them are `0` or
stay between `2 ^ -1022` and `2 ^ 1023`, where a binary64 value has its full 53 bits. -/
def JSNum.isOrdinaryVolume : JSNum → Bool
  | .fin q => decide (q = 0 ∨ (pow2 (-500) ≤ q ∧ q ≤ pow2 500))
  | _ => false

/-- A number with its finite value rounded to binary64. -/
def JSNum.toDouble : JSNum → JSNum
  | .fin q => roundToDouble q
  | other => other

/-- JavaScript `a + b` on binary64 numbers: the exact sum, rounded. -/
def IEEE.add (a b : JSNum) : JSNum := (JSNum.add a b).toDouble

/-- JavaScript `a / b` on binary64 numbers: the exact quotient, rounded. -/
def IEEE.div (a b : JSNum) : JSNum := (JSNum.div a b).toDouble

/-- The function `parseFloat` with its result rounded to binary64. -/
def IEEE.parseFloat (x : Raw) : JSNum := (Smert.parseFloat x).toDouble

/-- The body of `calculateAverageVolume(symbol)` in binary64 arithmetic. -/
def IEEE.calculateAverageVolume (m : Monitor) (symbol : String) : Except JSError JSNum :=
  match m.volumeHistory symbol with
  | none => .error .typeError
  | some history =>
      if history.length = 0 then .ok 0
      else
        let sum := history.foldl (fun acc val => IEEE.add acc val) 0
        .ok (IEEE.div sum (.fin history.length))

/-- The body of `analyzeSpotVolumes` after the request, in binary64 arithmetic. -/
def IEEE.analyzeSpotVolumes (klines : SpotKlines) : Except JSError (Option Analysis) :=
  match klines with
  | .null => .ok none
  | .notArray => .error .typeError
  | .array candles =>
      if candles.length = 0 then .ok none
      else
        let volumes := candles.map (fun candle => IEEE.parseFloat (candle.getD 7 .undefined))
        let currentVolume := volumes.getLastD .nan
        let previousVolumes := volumes.dropLast
        let avgPreviousVolume :=
          IEEE.div (previousVolumes.foldl (fun a b => IEEE.add a b) 0)
            (.fin previousVolumes.length)
        .ok (some
          { currentVolume := currentVolume
            avgPreviousVolume := avgPreviousVolume
            volumes := volumes
            multiplier :=
              if avgPreviousVolume.gt 0 then IEEE.div currentVolume avgPreviousVolume else 0 })

/-- The body of `analyzeFuturesVolumes` after the request, in binary64 arithmetic; the
amounts are JSON numbers and so binary64 values already. -/
def IEEE.analyzeFuturesVolumes (klines : FuturesKlines) : Except JSError (Option Analysis) :=
  match klines with
  | .null => .ok none
  | .data amount =>
      let volumes := amount.getD []
      if volumes.length = 0 then .ok none
      else
        let currentVolume := volumes.getLastD .nan
        let previousVolumes := volumes.dropLast
        let avgPreviousVolume :=
          IEEE.div (previousVolumes.foldl (fun a b => IEEE.add a b) 0)
            (.fin previousVolumes.length)
        .ok (some
          { currentVolume := currentVolume
            avgPreviousVolume := avgPreviousVolume
            volumes := volumes
            multiplier :=
              if avgPreviousVolume.gt 0 then IEEE.div currentVolume avgPreviousVolume else 0 })

/-- The body of `formatNumber(num)` in binary64 arithmetic. -/
def IEEE.formatNumber (num : JSNum) : Fixed2 :=
  if num.ge 1000000 then { value := IEEE.div num 1000000, suffix := "M" }
  else if num.ge 1000 then { value := IEEE.div num 1000, suffix := "K" }
  else { value := num, suffix := "" }

/-- The body of `sendTelegramAlert(symbol, data)` in binary64 arithmetic. -/
def IEEE.sendTelegramAlert (m : Monitor) (symbol : String) (data : AlertData)
    (sendFails : Bool) : Delivery :=
  if !m.bot then .noBot
  else
    let marketType := getMarketType m symbol
    let marketLabel := if marketType = "futures" then "FUTURES" else "SPOT"
    let tradingUrl :=
      if marketType = "futures" then "https://futures.mexc.com/exchange/" ++ symbol
      else "https://www.mexc.com/exchange/" ++ symbol
    let message : AlertMessage :=
      { marketLabel := some marketLabel
        symbol := symbol
        currentVolumeText := IEEE.formatNumber data.currentVolume
        avgVolumeText := IEEE.formatNumber data.avgVolume
        data := data
        tradingUrl := tradingUrl }
    if sendFails then .failed message else .sent message

/-- The last statement of `checkSymbol`, the anomaly test, in binary64 arithmetic. -/
def IEEE.anomalyTest (m1 : Monitor) (symbol : String)
    (currentVolume avgHistoricalVolume : JSNum) (sendFails : Bool) : Verdict :=
  if avgHistoricalVolume.gt 0 then
    let historicalMultiplier := IEEE.div currentVolume avgHistoricalVolume
    if historicalMultiplier.ge m1.volumeMultiplier then
      let data : AlertData :=
        { currentVolume := currentVolume
          avgVolume := avgHistoricalVolume
          multiplier := historicalMultiplier }
      .anomaly data (IEEE.sendTelegramAlert m1 symbol data sendFails)
    else .normal historicalMultiplier
  else
    .accumulating ((m1.volumeHistory symbol).getD []).length m1.historySize

/-- The body of `checkSymbol(symbol)` in binary64 arithmetic. -/
def IEEE.checkSymbol (m : Monitor) (symbol : String) (r : Responses) :
    CheckResult × Monitor :=
  let marketType := getMarketType m symbol
  let volume24h : JSNum :=
    if marketType = "futures" then
      match r.futuresTicker with
      | some volume24 => if volume24.truthy then IEEE.parseFloat volume24 else 0
      | none => 0
    else
      match r.spotTicker with
      | some quoteVolume => IEEE.parseFloat quoteVolume
      | none => 0
  let recentAnalysis :=
    if marketType = "futures" then IEEE.analyzeFuturesVolumes r.futuresKlines
    else IEEE.analyzeSpotVolumes r.spotKlines
  match recentAnalysis with
  | .error e => (.threw e, m)
  | .ok none => (.noData, m)
  | .ok (some analysis) =>
      let currentVolume := analysis.currentVolume
      let m1 := addVolumeToHistory m symbol currentVolume
      match IEEE.calculateAverageVolume m1 symbol with
      | .error e => (.threw e, m1)
      | .ok avgHistoricalVolume =>
          (.checked
            { volume24h := volume24h
              currentVolume := currentVolume
              avgPreviousVolume := analysis.avgPreviousVolume
              avgHistoricalVolume := avgHistoricalVolume
              verdict :=
                IEEE.anomalyTest m1 symbol currentVolume avgHistoricalVolume r.sendFails },
            m1)

/-- Equality of the results of `calculateAverageVolume` can be decided. -/
instance : DecidableEq (Except JSError JSNum) := fun a b =>
  match a, b with
  | .ok x, .ok y =>
      if h : x = y then isTrue (congrArg Except.ok h)
      else isFalse (fun e => h (Except.ok.inj e))
  | .error x, .error y =>
      if h : x = y then isTrue (congrArg Except.error h)
      else isFalse (fun e => h (Except.error.inj e))
  | .ok _, .error _ => isFalse (fun e => Except.noConfusion e)
  | .error _, .ok _ => isFalse (fun e => Except.noConfusion e)

/-- The binary64 value nearest to `0.1`, the number the literal `0.1` denotes. -/
def doubleTenth : ℚ := 3602879701896397 / 36028797018963968

/-- The binary64 value printed as `0.10000000000000002`: the one after `doubleTenth`. -/
def doubleTenthNext : ℚ := 7205759403792795 / 72057594037927936

/-- The binary64 value nearest to `1 / 49`. -/
def doubleFortyNinth : ℚ := 5882252574524729 / 288230376151711744

/-- The binary64 value printed as `49.00000000000001`: the one after `49`. -/
def doubleAfter49 : ℚ := 6896136929411073 / 140737488355328

/-- The least positive binary64 value, `2 ^ -1074`, printed as `5e-324`. -/
def doubleMinPositive : ℚ := 1 / ((2 ^ 1074 : ℕ) : ℚ)

/-! ## Property lookup on a plain object

`volumeHistory` is created as `{}`, so `this.volumeHistory[symbol]` finds a member of
`Object.prototype` when the object has no own property of that name. -/

/-- The property names a plain object inherits from `Object.prototype`.  Each of them is a
function, or for `__proto__` the prototype object itself: a truthy value without a method
`push`.  The prototype of `volumeHistory` and of `marketTypes` is taken to be
`Object.prototype`, which is what the constructor leaves unless `__proto__` is itself a
configured symbol. -/
def objectPrototypeMembers : List String :=
  ["constructor", "__defineGetter__", "__defineSetter__", "hasOwnProperty",
   "__lookupGetter__", "__lookupSetter__", "isPrototypeOf", "propertyIsEnumerable",
   "toString", "valueOf", "__proto__", "toLocaleString"]

/-- What `this.volumeHistory[symbol]` evaluates to. -/
inductive HistoryLookup where
  /-- No own property and no inherited one. -/
  | undefined
  /-- The array stored under the symbol. -/
  | array (history : List JSNum)
  /-- No own property, but a member of `Object.prototype` has that name. -/
  | inherited
  deriving DecidableEq

/-- The expression `this.volumeHistory[symbol]`: the own property when there is one, then
the prototype. -/
def Prototype.lookup (m : Monitor) (symbol : String) : HistoryLookup :=
  match m.volumeHistory symbol with
  | some history => .array history
  | none => if symbol ∈ objectPrototypeMembers then .inherited else .undefined

/-- The body of `addVolumeToHistory(symbol, volume)` with the lookup through the prototype:
an inherited member is truthy, so no array is created for the symbol, and calling its
missing `push` is a `TypeError`.  In the other cases the method does what
`addVolumeToHistory` above says. -/
def Prototype.addVolumeToHistory (m : Monitor) (symbol : String) (volume : JSNum) :
    Except JSError Monitor :=
  match Prototype.lookup m symbol with
  | .inherited => .error .typeError
  | .undefined => .ok (Smert.addVolumeToHistory m symbol volume)
  | .array _ => .ok (Smert.addVolumeToHistory m symbol volume)

/-- What `getMarketType` returns: a string, or the member of `Object.prototype` that
`this.marketTypes[symbol]` finds (a function or an object, equal to no string). -/
inductive MarketTypeValue where
  | text (s : String)
  | inheritedMember
  deriving DecidableEq

/-- The body of `getMarketType(symbol)` with the lookup through the prototype: an own
property is used when it is truthy, an inherited member is truthy and is returned as it
is, and otherwise the format of the symbol decides. -/
def Prototype.getMarketType (m : Monitor) (symbol : String) : MarketTypeValue :=
  let byFormat := if symbol.toList.contains '_' then "futures" else "spot"
  match m.marketTypes symbol with
  | some override => if override ≠ "" then .text override else .text byFormat
  | none => if symbol ∈ objectPrototypeMembers then .inheritedMember else .text byFormat

/-- The body of `sendTelegramAlert(symbol, data)` with the lookup through the prototype. -/
def Prototype.sendTelegramAlert (m : Monitor) (symbol : String) (data : AlertData)
    (sendFails : Bool) : Delivery :=
  if !m.bot then .noBot
  else
    let marketType := Prototype.getMarketType m symbol
    let marketLabel := if marketType = .text "futures" then "FUTURES" else "SPOT"
    let tradingUrl :=
      if marketType = .text "futures" then "https://futures.mexc.com/exchange/" ++ symbol
      else "https://www.mexc.com/exchange/" ++ symbol
    let message : AlertMessage :=
      { marketLabel := some marketLabel
        symbol := symbol
        currentVolumeText := formatNumber data.currentVolume
        avgVolumeText := formatNumber data.avgVolume
        data := data
        tradingUrl := tradingUrl }
    if sendFails then .failed message else .sent message

/-- The last statement of `checkSymbol`, the anomaly test, with the lookup through the
prototype.  `m1` is the monitor after the push, which has a history for the symbol. -/
def Prototype.anomalyTest (m1 : Monitor) (symbol : String)
    (currentVolume avgHistoricalVolume : JSNum) (sendFails : Bool) : Verdict :=
  if avgHistoricalVolume.gt 0 then
    let historicalMultiplier := JSNum.div currentVolume avgHistoricalVolume
    if historicalMultiplier.ge m1.volumeMultiplier then
      let data : AlertData :=
        { currentVolume := currentVolume
          avgVolume := avgHistoricalVolume
          multiplier := historicalMultiplier }
      .anomaly data (Prototype.sendTelegramAlert m1 symbol data sendFails)
    else .normal historicalMultiplier
  else
    .accumulating ((m1.volumeHistory symbol).getD []).length m1.historySize

/-- The body of `checkSymbol(symbol)` with the lookups through the prototype: the push can
throw, and then neither the average nor the anomaly test is reached. -/
def Prototype.checkSymbol (m : Monitor) (symbol : String) (r : Responses) :
    CheckResult × Monitor :=
  let marketType := Prototype.getMarketType m symbol
  let volume24h : JSNum :=
    if marketType = .text "futures" then
      match r.futuresTicker with
      | some volume24 => if volume24.truthy then parseFloat volume24 else 0
      | none => 0
    else
      match r.spotTicker with
      | some quoteVolume => parseFloat quoteVolume
      | none => 0
  let recentAnalysis :=
    if marketType = .text "futures" then analyzeFuturesVolumes r.futuresKlines
    else analyzeSpotVolumes r.spotKlines
  match recentAnalysis with
  | .error e => (.threw e, m)
  | .ok none => (.noData, m)
  | .ok (some analysis) =>
      let currentVolume := analysis.currentVolume
      match Prototype.addVolumeToHistory m symbol currentVolume with
      | .error e => (.threw e, m)
      | .ok m1 =>
          match calculateAverageVolume m1 symbol with
          | .error e => (.threw e, m1)
          | .ok avgHistoricalVolume =>
              (.checked
                { volume24h := volume24h
                  currentVolume := currentVolume
                  avgPreviousVolume := analysis.avgPreviousVolume
                  avgHistoricalVolume := avgHistoricalVolume
                  verdict :=
                    Prototype.anomalyTest m1 symbol currentVolume avgHistoricalVolume
                      r.sendFails },
                m1)

/-! ## Theorems -/

theorem lastN_length (k : Nat) (l : List JSNum) : (lastN k l).length = min k l.length := by
  unfold lastN
  rw [List.length_drop]
  omega

theorem lastN_append_lastN (k : Nat) (a b : List JSNum) :
    lastN k (lastN k a ++ b) = lastN k (a ++ b) := by
  unfold lastN
  by_cases h : a.length ≤ k
  · have : a.length - k = 0 := by omega
    simp [this]
  · have hd : (List.drop (a.length - k) a).length = k := by
      rw [List.length_drop]; omega
    rw [List.length_append, hd, List.length_append]
    have e : a.length + b.length - k = (a.length - k) + (k + b.length - k) := by omega
    have hr : List.drop (a.length + b.length - k) (a ++ b)
        = List.drop (k + b.length - k) (List.drop (a.length - k) a ++ b) := by
      rw [e, ← List.drop_drop, List.drop_append_of_le_length (by omega)]
    rw [hr]

@[simp] theorem addVolumeToHistory_historySize (m : Monitor) (s : String) (v : JSNum) :
    (addVolumeToHistory m s v).historySize = m.historySize := rfl

@[simp] theorem addVolumeToHistory_volumeMultiplier (m : Monitor) (s : String) (v : JSNum) :
    (addVolumeToHistory m s v).volumeMultiplier = m.volumeMultiplier := rfl

@[simp] theorem addVolumeToHistory_marketTypes (m : Monitor) (s : String) (v : JSNum) :
    (addVolumeToHistory m s v).marketTypes = m.marketTypes := rfl

@[simp] theorem addVolumeToHistory_bot (m : Monitor) (s : String) (v : JSNum) :
    (addVolumeToHistory m s v).bot = m.bot := rfl

@[simp] theorem addVolumeToHistory_symbols (m : Monitor) (s : String) (v : JSNum) :
    (addVolumeToHistory m s v).symbols = m.symbols := rfl

theorem addVolumeToHistory_other (m : Monitor) (s t : String) (v : JSNum) (h : t ≠ s) :
    (addVolumeToHistory m s v).volumeHistory t = m.volumeHistory t := by
  simp [addVolumeToHistory, Function.update_noteq h]

theorem addVolumeToHistory_self (m : Monitor) (s : String) (v : JSNum) (h : List JSNum)
    (hh : m.volumeHistory s = some h) (hlen : (h.length : Int) ≤ m.historySize) :
    (addVolumeToHistory m s v).volumeHistory s = some (lastN m.historySize.toNat (h ++ [v])) := by
  unfold addVolumeToHistory lastN
  simp only [hh, Function.update_same, List.length_append, List.length_singleton]
  congr 1
  split
  · have : h.length + 1 - m.historySize.toNat = 1 := by omega
    rw [this, List.drop_one]
  · have : h.length + 1 - m.historySize.toNat = 0 := by omega
    rw [this, List.drop_zero]

theorem pushAll_self (volumes : List JSNum) : ∀ (m : Monitor) (s : String) (h : List JSNum),
    m.volumeHistory s = some h → (h.length : Int) ≤ m.historySize →
    (pushAll m s volumes).volumeHistory s = some (lastN m.historySize.toNat (h ++ volumes)) := by
  induction volumes with
  | nil =>
      intro m s h hh hlen
      simp only [pushAll, List.foldl_nil, List.append_nil, hh, lastN]
      have : h.length - m.historySize.toNat = 0 := by omega
      rw [this, List.drop_zero]
  | cons v vs ih =>
      intro m s h hh hlen
      have h1 := addVolumeToHistory_self m s v h hh hlen
      have hl : (lastN m.historySize.toNat (h ++ [v])).length ≤ m.historySize.toNat := by
        rw [lastN_length]; omega
      have := ih (addVolumeToHistory m s v) s _ h1
        (by simp only [addVolumeToHistory_historySize]; omega)
      simp only [pushAll, List.foldl_cons] at this ⊢
      rw [this, addVolumeToHistory_historySize, lastN_append_lastN]
      simp

/-- C1. Starting from an empty history for a symbol and with `historySize ≥ 1`, after any
sequence of `addVolumeToHistory` calls for that symbol the stored array is exactly the
last `min(historySize, n)` pushed values, in push order, `n` being the number of pushes. -/
theorem addVolumeToHistory_keeps_last (m : Monitor) (symbol : String) (volumes : List JSNum)
    (hsize : 1 ≤ m.historySize) (hempty : m.volumeHistory symbol = some []) :
    (pushAll m symbol volumes).volumeHistory symbol
      = some (volumes.drop (volumes.length - min m.historySize.toNat volumes.length)) := by
  have := pushAll_self volumes m symbol [] hempty (by simp; omega)
  rw [this]
  simp only [List.nil_append, lastN]
  congr 2
  omega

/-- Witness for C1: five pushes into an empty history of size 3 leave the last three. -/
theorem addVolumeToHistory_keeps_last_witness :
    (pushAll (monitorWith "BTCUSDT" [] 3 2) "BTCUSDT" [10, 20, 30, 40, 50]).volumeHistory
      "BTCUSDT" = some [30, 40, 50] :=
  addVolumeToHistory_keeps_last (monitorWith "BTCUSDT" [] 3 2) "BTCUSDT" [10, 20, 30, 40, 50]
    (by decide) (by decide)

theorem Monitor.new_volumeHistory_length (symbols : List String) (t : String) :
    ∀ init : String → Option (List JSNum), ((init t).getD []).length = 0 →
    (((symbols.foldl (fun history symbol => Function.update history symbol (some []))
        init) t).getD []).length = 0 := by
  induction symbols with
  | nil => intro init h; simpa using h
  | cons s rest ih =>
      intro init h
      simp only [List.foldl_cons]
      apply ih
      by_cases hts : t = s
      · subst hts; simp
      · rw [Function.update_noteq hts]; exact h

theorem historyLength_new (config : Config) (symbol : String) :
    historyLength (Monitor.new config) symbol = 0 := by
  unfold historyLength Monitor.new
  exact Monitor.new_volumeHistory_length _ symbol _ (by simp)

theorem historyLength_addVolumeToHistory_le (m : Monitor) (s t : String) (v : JSNum)
    (hsize : 1 ≤ m.historySize) (h : (historyLength m t : Int) ≤ m.historySize) :
    (historyLength (addVolumeToHistory m s v) t : Int) ≤ m.historySize := by
  by_cases hts : t = s
  · subst hts
    unfold historyLength addVolumeToHistory at *
    simp only [Function.update_same, Option.getD_some]
    split
    · rename_i hgt
      rw [List.length_tail]
      cases hm : m.volumeHistory t with
      | none => simp [hm] at hgt ⊢; omega
      | some hist =>
          simp only [hm, Option.getD_some, List.length_append, List.length_singleton] at h hgt ⊢
          omega
    · rename_i hgt
      omega
  · unfold historyLength at *
    rw [addVolumeToHistory_other m s t v hts]
    exact h

theorem checkSymbol_monitor (m : Monitor) (symbol : String) (r : Responses) :
    (checkSymbol m symbol r).2 = m ∨
      ∃ v, (checkSymbol m symbol r).2 = addVolumeToHistory m symbol v := by
  unfold checkSymbol
  simp only
  split
  · exact Or.inl rfl
  · exact Or.inl rfl
  · split
    · exact Or.inr ⟨_, rfl⟩
    · exact Or.inr ⟨_, rfl⟩

/-- C2. The bound `len(volumeHistory[symbol]) ≤ historySize` is an invariant for every
`historySize ≥ 1`: it holds for every symbol after construction, and `addVolumeToHistory`
and `checkSymbol` (whatever the exchange answers) keep it for every symbol and leave
`historySize` as it is. -/
theorem history_length_invariant :
    (∀ (config : Config) (t : String), 1 ≤ (Monitor.new config).historySize →
        (historyLength (Monitor.new config) t : Int) ≤ (Monitor.new config).historySize) ∧
    (∀ (m : Monitor) (symbol : String) (volume : JSNum), 1 ≤ m.historySize →
        (∀ t, (historyLength m t : Int) ≤ m.historySize) →
        (addVolumeToHistory m symbol volume).historySize = m.historySize ∧
        ∀ t, (historyLength (addVolumeToHistory m symbol volume) t : Int)
          ≤ (addVolumeToHistory m symbol volume).historySize) ∧
    (∀ (m : Monitor) (symbol : String) (r : Responses), 1 ≤ m.historySize →
        (∀ t, (historyLength m t : Int) ≤ m.historySize) →
        (checkSymbol m symbol r).2.historySize = m.historySize ∧
        ∀ t, (historyLength (checkSymbol m symbol r).2 t : Int)
          ≤ (checkSymbol m symbol r).2.historySize) := by
  refine ⟨?_, ?_, ?_⟩
  · intro config t hsize
    rw [historyLength_new]
    simp only [Nat.cast_zero]
    omega
  · intro m symbol volume hsize hinv
    exact ⟨rfl, fun t => historyLength_addVolumeToHistory_le m symbol t volume hsize (hinv t)⟩
  · intro m symbol r hsize hinv
    rcases checkSymbol_monitor m symbol r with h | ⟨v, h⟩
    · rw [h]; exact ⟨rfl, hinv⟩
    · rw [h]
      exact ⟨rfl, fun t => historyLength_addVolumeToHistory_le m symbol t v hsize (hinv t)⟩

/-- Witness for C2: a monitor built with `historySize = 3` keeps the bound through a check
that pushes a sample. -/
theorem history_length_invariant_witness :
    (checkSymbol (Monitor.new (exampleConfig ["BTCUSDT"] 3 2)) "BTCUSDT"
        (spotResponses ["90", "100"])).2.historySize = 3 ∧
    ∀ t, (historyLength (checkSymbol (Monitor.new (exampleConfig ["BTCUSDT"] 3 2)) "BTCUSDT"
        (spotResponses ["90", "100"])).2 t : Int)
      ≤ (checkSymbol (Monitor.new (exampleConfig ["BTCUSDT"] 3 2)) "BTCUSDT"
        (spotResponses ["90", "100"])).2.historySize :=
  history_length_invariant.2.2 (Monitor.new (exampleConfig ["BTCUSDT"] 3 2)) "BTCUSDT"
    (spotResponses ["90", "100"]) (by decide)
    (history_length_invariant.1 (exampleConfig ["BTCUSDT"] 3 2) · (by decide))

theorem JSNum.ofNat_eq_fin (n : ℕ) : (OfNat.ofNat n : JSNum) = JSNum.fin (n : ℚ) := rfl

theorem JSNum.add_fin_fin (a b : ℚ) :
    JSNum.add (JSNum.fin a) (JSNum.fin b) = JSNum.fin (a + b) := rfl

theorem JSNum.foldl_add_fin (qs : List ℚ) : ∀ a : ℚ,
    (qs.map JSNum.fin).foldl (fun acc val => JSNum.add acc val) (JSNum.fin a)
      = JSNum.fin (a + qs.sum) := by
  induction qs with
  | nil => intro a; simp
  | cons q rest ih =>
      intro a
      simp only [List.map_cons, List.foldl_cons, JSNum.add_fin_fin, List.sum_cons]
      rw [ih, add_assoc]

theorem JSNum.div_fin_fin (a b : ℚ) (hb : b ≠ 0) :
    JSNum.div (JSNum.fin a) (JSNum.fin b) = JSNum.fin (a / b) := by
  simp [JSNum.div, hb]

/-- C3. The method `calculateAverageVolume` returns `0` for an empty history; for every
non-empty history it returns the left-to-right sum of the entries divided by their count,
which for finite entries is their arithmetic mean `(q₁ + … + qₙ) / n`. -/
theorem calculateAverageVolume_mean (m : Monitor) (symbol : String) :
    (m.volumeHistory symbol = some [] → calculateAverageVolume m symbol = .ok 0) ∧
    (∀ qs : List ℚ, qs ≠ [] → m.volumeHistory symbol = some (qs.map JSNum.fin) →
      calculateAverageVolume m symbol = .ok (JSNum.fin (qs.sum / qs.length))) ∧
    (∀ history : List JSNum, history ≠ [] → m.volumeHistory symbol = some history →
      calculateAverageVolume m symbol
        = .ok (JSNum.div (history.foldl JSNum.add 0) (JSNum.fin history.length))) := by
  refine ⟨?_, ?_, ?_⟩
  · intro h
    simp [calculateAverageVolume, h]
  · intro qs hne h
    have hlen : qs.length ≠ 0 := by
      intro h0; exact hne (List.length_eq_zero.mp h0)
    have hq : ((qs.length : ℕ) : ℚ) ≠ 0 := by exact_mod_cast hlen
    simp only [calculateAverageVolume, h, List.length_map, hlen, if_false,
      JSNum.ofNat_eq_fin, Nat.cast_zero, JSNum.foldl_add_fin, zero_add]
    rw [JSNum.div_fin_fin _ _ hq]
  · intro history hne h
    have hlen : history.length ≠ 0 := by
      intro h0; exact hne (List.length_eq_zero.mp h0)
    simp [calculateAverageVolume, h, hlen]

/-- Witness for C3: the history `[100, 100, 500]` has average `700/3`. -/
theorem calculateAverageVolume_mean_witness :
    calculateAverageVolume (monitorWith "BTCUSDT" [100, 100, 500] 3 2) "BTCUSDT"
      = .ok (JSNum.fin (([100, 100, 500] : List ℚ).sum / 3)) :=
  (calculateAverageVolume_mean (monitorWith "BTCUSDT" [100, 100, 500] 3 2) "BTCUSDT").2.1
    [100, 100, 500] (by decide) (by decide!)

theorem checkSymbol_checked_of_eq {m m' : Monitor} {symbol : String} {r : Responses}
    {report : CheckReport} (hrun : checkSymbol m symbol r = (.checked report, m')) :
    m' = addVolumeToHistory m symbol report.currentVolume ∧
    calculateAverageVolume m' symbol = .ok report.avgHistoricalVolume ∧
    report.verdict
      = anomalyTest m' symbol report.currentVolume report.avgHistoricalVolume r.sendFails := by
  unfold checkSymbol at hrun
  simp only at hrun
  split at hrun
  · cases hrun
  · cases hrun
  · split at hrun
    · cases hrun
    · rename_i avg havg
      simp only [Prod.mk.injEq, CheckResult.checked.injEq] at hrun
      obtain ⟨hrep, hm⟩ := hrun
      subst hrep
      subst hm
      exact ⟨rfl, havg, rfl⟩

theorem checkSymbol_checked {m : Monitor} {symbol : String} {r : Responses}
    {report : CheckReport} (hrun : (checkSymbol m symbol r).1 = .checked report) :
    (checkSymbol m symbol r).2 = addVolumeToHistory m symbol report.currentVolume ∧
    calculateAverageVolume (checkSymbol m symbol r).2 symbol
      = .ok report.avgHistoricalVolume ∧
    report.verdict
      = anomalyTest (checkSymbol m symbol r).2 symbol report.currentVolume
          report.avgHistoricalVolume r.sendFails :=
  checkSymbol_checked_of_eq (Prod.ext hrun rfl)

theorem anomalyTest_isAnomaly (m1 : Monitor) (symbol : String) (c avg : JSNum) (sendFails : Bool)
    (hpos : avg.gt 0 = true) :
    (anomalyTest m1 symbol c avg sendFails).isAnomaly = true
      ↔ (JSNum.div c avg).ge m1.volumeMultiplier = true := by
  unfold anomalyTest
  simp only [hpos, if_true]
  split <;> simp_all [Verdict.isAnomaly]

/-- C4. For every `checkSymbol` call that has data, with `C` the current volume and `H` the
historical average taken after `C` was pushed: when `H > 0` the anomaly branch is taken if
and only if `C / H >= volumeMultiplier` (for finite values, iff `volumeMultiplier ≤ C / H`
as rationals).  With `H = 1000` and threshold 2, `C = 2500` gives the multiplier 2.5 and an
anomaly, and `C = 1900` gives 1.9 and no anomaly. -/
theorem checkSymbol_anomaly_iff :
    (∀ (m : Monitor) (symbol : String) (r : Responses) (report : CheckReport),
      (checkSymbol m symbol r).1 = .checked report →
      (checkSymbol m symbol r).2 = addVolumeToHistory m symbol report.currentVolume ∧
      calculateAverageVolume (checkSymbol m symbol r).2 symbol
        = .ok report.avgHistoricalVolume ∧
      (report.avgHistoricalVolume.gt 0 = true →
        (report.verdict.isAnomaly = true ↔
          (JSNum.div report.currentVolume report.avgHistoricalVolume).ge m.volumeMultiplier
            = true)) ∧
      (∀ c h t : ℚ, report.currentVolume = JSNum.fin c →
        report.avgHistoricalVolume = JSNum.fin h → m.volumeMultiplier = JSNum.fin t → 0 < h →
        (report.verdict.isAnomaly = true ↔ t ≤ c / h))) ∧
    (checkSymbol (monitorWith "BTCUSDT" [250, 250] 24 2) "BTCUSDT"
        (spotResponses ["300", "2500"])).1
      = .checked
          { volume24h := 0
            currentVolume := 2500
            avgPreviousVolume := 300
            avgHistoricalVolume := 1000
            verdict := .anomaly
              { currentVolume := 2500, avgVolume := 1000, multiplier := JSNum.fin (5 / 2) }
              .noBot } ∧
    (checkSymbol (monitorWith "BTCUSDT" [550, 550] 24 2) "BTCUSDT"
        (spotResponses ["300", "1900"])).1
      = .checked
          { volume24h := 0
            currentVolume := 1900
            avgPreviousVolume := 300
            avgHistoricalVolume := 1000
            verdict := .normal (JSNum.fin (19 / 10)) } := by
  refine ⟨?_, by decide!, by decide!⟩
  intro m symbol r report hrun
  obtain ⟨hm, havg, hv⟩ := checkSymbol_checked hrun
  refine ⟨hm, havg, ?_, ?_⟩
  · intro hpos
    rw [hv, anomalyTest_isAnomaly _ _ _ _ _ hpos, hm, addVolumeToHistory_volumeMultiplier]
  · intro c h t hc hh ht hpos
    have hgt : report.avgHistoricalVolume.gt 0 = true := by
      rw [hh]; simp [JSNum.gt, JSNum.ofNat_eq_fin, hpos]
    rw [hv, anomalyTest_isAnomaly _ _ _ _ _ hgt, hm, addVolumeToHistory_volumeMultiplier,
      hc, hh, ht, JSNum.div_fin_fin _ _ (ne_of_gt hpos)]
    simp [JSNum.ge]

/-- Witness for C4: the general statement applied to the run with `C = 2500`, `H = 1000`
and threshold 2. -/
theorem checkSymbol_anomaly_iff_witness :
    (Verdict.anomaly
        { currentVolume := 2500, avgVolume := 1000, multiplier := JSNum.fin (5 / 2) }
        .noBot).isAnomaly = true ↔ (2 : ℚ) ≤ 2500 / 1000 :=
  (checkSymbol_anomaly_iff.1 (monitorWith "BTCUSDT" [250, 250] 24 2) "BTCUSDT"
    (spotResponses ["300", "2500"])
    { volume24h := 0
      currentVolume := 2500
      avgPreviousVolume := 300
      avgHistoricalVolume := 1000
      verdict := .anomaly
        { currentVolume := 2500, avgVolume := 1000, multiplier := JSNum.fin (5 / 2) }
        .noBot }
    (by decide!)).2.2.2 2500 1000 2 rfl rfl rfl (by norm_num)

theorem JSNum.div_one (x : JSNum) : JSNum.div x (JSNum.fin 1) = x := by
  cases x <;> simp [JSNum.div]

theorem JSNum.zero_add (x : JSNum) : JSNum.add 0 x = x := by
  cases x <;> simp [JSNum.add, JSNum.ofNat_eq_fin]

theorem addVolumeToHistory_empty (m : Monitor) (s : String) (v : JSNum)
    (hsize : 1 ≤ m.historySize) (hempty : (m.volumeHistory s).getD [] = []) :
    (addVolumeToHistory m s v).volumeHistory s = some [v] := by
  have hex : (match m.volumeHistory s with
      | none => []
      | some history => history) = ([] : List JSNum) := by
    cases hm : m.volumeHistory s with
    | none => rfl
    | some h => simpa [hm] using hempty
  unfold addVolumeToHistory
  simp only [hex, Function.update_same, List.nil_append, List.length_singleton]
  rw [if_neg (by push_cast; omega)]

theorem calculateAverageVolume_singleton (m : Monitor) (s : String) (v : JSNum)
    (h : m.volumeHistory s = some [v]) : calculateAverageVolume m s = .ok v := by
  simp [calculateAverageVolume, h, JSNum.zero_add, JSNum.div_one]

theorem JSNum.div_self_of_gt_zero (c : JSNum) (hc : c.gt 0 = true) :
    JSNum.div c c = 1 ∨ JSNum.div c c = JSNum.nan := by
  cases c with
  | nan => simp [JSNum.gt] at hc
  | negInf => simp [JSNum.gt] at hc
  | posInf => right; rfl
  | fin q =>
      left
      have hq : 0 < q := by simpa [JSNum.gt, JSNum.ofNat_eq_fin] using hc
      rw [JSNum.div_fin_fin _ _ (ne_of_gt hq), div_self (ne_of_gt hq), JSNum.ofNat_eq_fin]
      simp

theorem JSNum.not_ge_of_gt_one (k t : JSNum) (hk : k = 1 ∨ k = JSNum.nan)
    (ht : t.gt 1 = true) : k.ge t = false := by
  rcases hk with rfl | rfl
  · cases t with
    | nan => simp [JSNum.gt] at ht
    | negInf => simp [JSNum.gt] at ht
    | posInf => rfl
    | fin q =>
        have hq : 1 < q := by simpa [JSNum.gt, JSNum.ofNat_eq_fin] using ht
        simp [JSNum.ge, JSNum.ofNat_eq_fin, hq]
  · cases t <;> rfl

/-- C5 as the code has it.  With an empty history before the check, `historySize ≥ 1` and
data available, the current volume `C` is pushed first, so the average is taken over `[C]`
and is `C`.  The accumulation branch (progress `1/historySize`, no division) is taken
exactly when `C > 0` is false; when `C > 0` holds a multiplier `C / C` is computed (`1` for
a finite `C`); and for every threshold greater than 1 no anomaly is reported. -/
theorem checkSymbol_empty_history (m : Monitor) (symbol : String) (r : Responses)
    (report : CheckReport) (hsize : 1 ≤ m.historySize)
    (hempty : (m.volumeHistory symbol).getD [] = [])
    (hrun : (checkSymbol m symbol r).1 = .checked report) :
    (checkSymbol m symbol r).2.volumeHistory symbol = some [report.currentVolume] ∧
    report.avgHistoricalVolume = report.currentVolume ∧
    (report.currentVolume.gt 0 = false →
      report.verdict = .accumulating 1 m.historySize) ∧
    (report.currentVolume.gt 0 = true →
      report.verdict.multiplier?
        = some (JSNum.div report.currentVolume report.currentVolume)) ∧
    (∀ c : ℚ, report.currentVolume = JSNum.fin c → 0 < c →
      report.verdict.multiplier? = some 1) ∧
    (m.volumeMultiplier.gt 1 = true → report.verdict.isAnomaly = false) := by
  obtain ⟨hm, havg, hv⟩ := checkSymbol_checked hrun
  have hhist : (checkSymbol m symbol r).2.volumeHistory symbol = some [report.currentVolume] := by
    rw [hm]; exact addVolumeToHistory_empty m symbol _ hsize hempty
  have havg' : report.avgHistoricalVolume = report.currentVolume := by
    rw [calculateAverageVolume_singleton _ _ _ hhist] at havg
    exact (Except.ok.inj havg).symm
  have hmult : report.currentVolume.gt 0 = true →
      report.verdict.multiplier?
        = some (JSNum.div report.currentVolume report.currentVolume) := by
    intro hpos
    rw [hv, havg']
    unfold anomalyTest
    simp only [hpos, if_true]
    split <;> rfl
  refine ⟨hhist, havg', ?_, hmult, ?_, ?_⟩
  · intro hnot
    rw [hv, havg']
    unfold anomalyTest
    simp [hnot, hhist]
    rw [hm, addVolumeToHistory_historySize]
  · intro c hc hpos
    have hgt : report.currentVolume.gt 0 = true := by
      rw [hc]; simp [JSNum.gt, JSNum.ofNat_eq_fin, hpos]
    rw [hmult hgt, hc, JSNum.div_fin_fin _ _ (ne_of_gt hpos), div_self (ne_of_gt hpos),
      JSNum.ofNat_eq_fin]
    simp
  · intro ht
    rw [hv, havg']
    unfold anomalyTest
    by_cases hpos : report.currentVolume.gt 0 = true
    · have ht' : (checkSymbol m symbol r).2.volumeMultiplier.gt 1 = true := by
        rw [hm, addVolumeToHistory_volumeMultiplier]; exact ht
      have hk := JSNum.not_ge_of_gt_one _ _ (JSNum.div_self_of_gt_zero _ hpos) ht'
      simp [hpos, hk, Verdict.isAnomaly]
    · simp [hpos, Verdict.isAnomaly]

/-- Witness for C5 as the code has it: an empty history, threshold 2 and current volume 100. -/
theorem checkSymbol_empty_history_witness :
    ((checkSymbol (monitorWith "BTCUSDT" [] 24 2) "BTCUSDT"
        (spotResponses ["90", "100"])).2.volumeHistory "BTCUSDT" = some [100]) ∧
    (Verdict.normal 1).isAnomaly = false :=
  have h := checkSymbol_empty_history (monitorWith "BTCUSDT" [] 24 2) "BTCUSDT"
    (spotResponses ["90", "100"])
    { volume24h := 0
      currentVolume := 100
      avgPreviousVolume := 90
      avgHistoricalVolume := 100
      verdict := .normal 1 }
    (by decide) (by decide) (by decide!)
  ⟨h.1, h.2.2.2.2.2 (by decide!)⟩

/-- Counterexample to C5 as stated: with an empty history and current volume 100, threshold 1
gives an anomaly, and threshold 2 gives the normal branch with a computed multiplier of 1
instead of the accumulation branch. -/
theorem checkSymbol_empty_history_counterexample :
    (monitorWith "BTCUSDT" [] 24 1).volumeHistory "BTCUSDT" = some [] ∧
    (checkSymbol (monitorWith "BTCUSDT" [] 24 1) "BTCUSDT"
        (spotResponses ["90", "100"])).1
      = .checked
          { volume24h := 0
            currentVolume := 100
            avgPreviousVolume := 90
            avgHistoricalVolume := 100
            verdict := .anomaly
              { currentVolume := 100, avgVolume := 100, multiplier := 1 } .noBot } ∧
    (checkSymbol (monitorWith "BTCUSDT" [] 24 2) "BTCUSDT"
        (spotResponses ["90", "100"])).1
      = .checked
          { volume24h := 0
            currentVolume := 100
            avgPreviousVolume := 90
            avgHistoricalVolume := 100
            verdict := .normal 1 } := by
  refine ⟨by decide, by decide!, by decide!⟩

/-- C6. The method `getMarketType` returns the override `marketTypes[symbol]` whenever one
is present (a non-empty string, as a market type name is); without an override it returns
`'futures'` if and only if the symbol contains `'_'`, and `'spot'` otherwise.  So
`BTC_USDT` without overrides is futures, `BTCUSDT` without overrides is spot, and
`BTCUSDT` with the override `{BTCUSDT: 'futures'}` is futures. -/
theorem getMarketType_resolves :
    (∀ (m : Monitor) (symbol override : String), m.marketTypes symbol = some override →
      override ≠ "" → getMarketType m symbol = override) ∧
    (∀ (m : Monitor) (symbol : String), m.marketTypes symbol = none →
      (getMarketType m symbol = "futures" ↔ '_' ∈ symbol.toList) ∧
      (getMarketType m symbol = "spot" ↔ '_' ∉ symbol.toList)) ∧
    getMarketType (Monitor.new (exampleConfig ["BTC_USDT"] 24 2)) "BTC_USDT" = "futures" ∧
    getMarketType (Monitor.new (exampleConfig ["BTCUSDT"] 24 2)) "BTCUSDT" = "spot" ∧
    getMarketType
      (Monitor.new
        { exampleConfig ["BTCUSDT"] 24 2 with
          marketTypes := some (fun s => if s = "BTCUSDT" then some "futures" else none) })
      "BTCUSDT" = "futures" := by
  refine ⟨?_, ?_, by decide, by decide, by decide⟩
  · intro m symbol override h hne
    simp [getMarketType, h, hne]
  · intro m symbol h
    by_cases hc : '_' ∈ symbol.toList
    · simp [getMarketType, h, hc]
    · simp [getMarketType, h, hc]

/-- Witness for C6: an override wins over the naming convention in both directions. -/
theorem getMarketType_resolves_witness :
    getMarketType
      { monitorWith "BTC_USDT" [] 24 2 with
        marketTypes := fun s => if s = "BTC_USDT" then some "spot" else none }
      "BTC_USDT" = "spot" :=
  getMarketType_resolves.1
    { monitorWith "BTC_USDT" [] 24 2 with
      marketTypes := fun s => if s = "BTC_USDT" then some "spot" else none }
    "BTC_USDT" "spot" (by decide) (by decide)

/-- C7. End to end: one spot symbol, `historySize = 3`, threshold 2, and the current volumes
100, 100, 100, 500 over four consecutive passes.  Passes 1 to 3 end in the normal branch
with multiplier 1 and leave the history `[100, 100, 100]`; pass 4 evicts the oldest 100,
leaves `[100, 100, 500]`, has the historical average `700/3` and the multiplier exactly
`15/7`, and takes the anomaly branch. -/
theorem end_to_end_scenario :
    (start scenarioResponses 4 (Monitor.new (exampleConfig ["BTCUSDT"] 3 2))).1.passes
      = [ [("BTCUSDT", .checked
            { volume24h := 0, currentVolume := 100, avgPreviousVolume := 100,
              avgHistoricalVolume := 100, verdict := .normal 1 })],
          [("BTCUSDT", .checked
            { volume24h := 0, currentVolume := 100, avgPreviousVolume := 100,
              avgHistoricalVolume := 100, verdict := .normal 1 })],
          [("BTCUSDT", .checked
            { volume24h := 0, currentVolume := 100, avgPreviousVolume := 100,
              avgHistoricalVolume := 100, verdict := .normal 1 })],
          [("BTCUSDT", .checked
            { volume24h := 0, currentVolume := 500, avgPreviousVolume := 100,
              avgHistoricalVolume := JSNum.fin (700 / 3),
              verdict := .anomaly
                { currentVolume := 500
                  avgVolume := JSNum.fin (700 / 3)
                  multiplier := JSNum.fin (15 / 7) }
                .noBot })] ] ∧
    (start scenarioResponses 3
        (Monitor.new (exampleConfig ["BTCUSDT"] 3 2))).1.monitor.volumeHistory "BTCUSDT"
      = some [100, 100, 100] ∧
    (start scenarioResponses 4
        (Monitor.new (exampleConfig ["BTCUSDT"] 3 2))).1.monitor.volumeHistory "BTCUSDT"
      = some [100, 100, 500] ∧
    (start scenarioResponses 4 (Monitor.new (exampleConfig ["BTCUSDT"] 3 2))).2 = .running := by
  refine ⟨by decide!, by decide!, by decide!, by decide!⟩

theorem checkSymbol_other (m : Monitor) (a b : String) (r : Responses) (hab : b ≠ a) :
    (checkSymbol m a r).2.volumeHistory b = m.volumeHistory b := by
  rcases checkSymbol_monitor m a r with h | ⟨v, h⟩
  · rw [h]
  · rw [h, addVolumeToHistory_other m a b v hab]

theorem checkSymbol_unavailable (m : Monitor) (symbol : String) (r : Responses)
    (h : candlesUnavailable m symbol r = true) : checkSymbol m symbol r = (.noData, m) := by
  unfold candlesUnavailable at h
  unfold checkSymbol
  by_cases hf : getMarketType m symbol = "futures"
  · simp only [hf, if_true] at h ⊢
    cases hk : r.futuresKlines with
    | null => simp [analyzeFuturesVolumes]
    | data amount => simp [hk] at h
  · simp only [hf, if_false] at h ⊢
    cases hk : r.spotKlines with
    | null => simp [analyzeSpotVolumes]
    | notArray => simp [hk] at h
    | array candles => simp [hk] at h

theorem getMarketType_congr (m1 m2 : Monitor) (s : String)
    (h : m1.marketTypes = m2.marketTypes) : getMarketType m1 s = getMarketType m2 s := by
  unfold getMarketType
  rw [h]

theorem checkSymbol_congr (m1 m2 : Monitor) (b : String) (r : Responses)
    (hmt : m1.marketTypes = m2.marketTypes) (hh : m1.volumeHistory b = m2.volumeHistory b)
    (hs : m1.historySize = m2.historySize) (hv : m1.volumeMultiplier = m2.volumeMultiplier)
    (hb : m1.bot = m2.bot) :
    (checkSymbol m1 b r).1 = (checkSymbol m2 b r).1 ∧
    (checkSymbol m1 b r).2.volumeHistory b = (checkSymbol m2 b r).2.volumeHistory b := by
  have hadd : ∀ v, (addVolumeToHistory m1 b v).volumeHistory b
      = (addVolumeToHistory m2 b v).volumeHistory b := by
    intro v
    simp [addVolumeToHistory, hh, hs]
  have havg : ∀ v, calculateAverageVolume (addVolumeToHistory m1 b v) b
      = calculateAverageVolume (addVolumeToHistory m2 b v) b := by
    intro v
    unfold calculateAverageVolume
    rw [hadd v]
  have htest : ∀ v avg, anomalyTest (addVolumeToHistory m1 b v) b v avg r.sendFails
      = anomalyTest (addVolumeToHistory m2 b v) b v avg r.sendFails := by
    intro v avg
    unfold anomalyTest sendTelegramAlert
    simp only [addVolumeToHistory_volumeMultiplier, addVolumeToHistory_historySize,
      addVolumeToHistory_bot, hadd v, hs, hv, hb,
      getMarketType_congr (addVolumeToHistory m1 b v) (addVolumeToHistory m2 b v) b hmt]
  unfold checkSymbol
  simp only [getMarketType_congr m1 m2 b hmt]
  split
  · exact ⟨rfl, hh⟩
  · exact ⟨rfl, hh⟩
  · rename_i analysis _
    simp only [havg analysis.currentVolume]
    split
    · exact ⟨rfl, hadd _⟩
    · simp only [htest]
      exact ⟨trivial, hadd _⟩

/-- C8. Isolation between symbols.  For distinct symbols `A` and `B`, `checkSymbol(A)`
leaves `volumeHistory[B]` as it was whatever the exchange answers for `A`, and a later
`checkSymbol(B)` ends the same way and leaves the same history for `B` as if `A` had not
been checked.  When the candle request for `A` returns `null`, `checkSymbol(A)` returns
with the whole monitor unchanged, so every later check is the same as without it. -/
theorem checkSymbol_isolation :
    (∀ (m : Monitor) (a b : String) (ra : Responses), b ≠ a →
      (checkSymbol m a ra).2.volumeHistory b = m.volumeHistory b) ∧
    (∀ (m : Monitor) (a : String) (ra : Responses), candlesUnavailable m a ra = true →
      checkSymbol m a ra = (.noData, m)) ∧
    (∀ (m : Monitor) (a b : String) (ra rb : Responses), candlesUnavailable m a ra = true →
      checkSymbol (checkSymbol m a ra).2 b rb = checkSymbol m b rb) ∧
    (∀ (m : Monitor) (a b : String) (ra rb : Responses), b ≠ a →
      (checkSymbol (checkSymbol m a ra).2 b rb).1 = (checkSymbol m b rb).1 ∧
      (checkSymbol (checkSymbol m a ra).2 b rb).2.volumeHistory b
        = (checkSymbol m b rb).2.volumeHistory b) := by
  refine ⟨?_, ?_, ?_, ?_⟩
  · intro m a b ra hab
    exact checkSymbol_other m a b ra hab
  · intro m a ra h
    exact checkSymbol_unavailable m a ra h
  · intro m a b ra rb h
    rw [checkSymbol_unavailable m a ra h]
  · intro m a b ra rb hab
    rcases checkSymbol_monitor m a ra with h | ⟨v, h⟩
    · rw [h]; exact ⟨rfl, rfl⟩
    · rw [h]
      exact checkSymbol_congr _ _ b rb rfl (addVolumeToHistory_other m a b v hab) rfl rfl rfl

/-- Witness for C8: a check of `ETHUSDT` with data leaves the history of `BTCUSDT`, and a
check of `BTC_USDT` whose candle request fails leaves the monitor as it was. -/
theorem checkSymbol_isolation_witness :
    (checkSymbol (monitorWith "BTCUSDT" [100, 200] 24 2) "ETHUSDT"
        (spotResponses ["300", "2500"])).2.volumeHistory "BTCUSDT" = some [100, 200] ∧
    (checkSymbol (monitorWith "BTCUSDT" [100, 200] 24 2) "BTC_USDT"
        (spotResponses ["300", "2500"])).1 = .noData :=
  ⟨checkSymbol_isolation.1 (monitorWith "BTCUSDT" [100, 200] 24 2) "ETHUSDT" "BTCUSDT"
      (spotResponses ["300", "2500"]) (by decide),
    congrArg Prod.fst
      (checkSymbol_isolation.2.1 (monitorWith "BTCUSDT" [100, 200] 24 2) "BTC_USDT"
        (spotResponses ["300", "2500"]) (by decide))⟩

theorem calculateAverageVolume_addVolumeToHistory_ok (m : Monitor) (s : String) (v : JSNum) :
    ∃ avg, calculateAverageVolume (addVolumeToHistory m s v) s = .ok avg := by
  unfold calculateAverageVolume addVolumeToHistory
  simp only [Function.update_same]
  split <;> split <;> exact ⟨_, rfl⟩

theorem analysis_of_volumeSeries (m : Monitor) (symbol : String) (r : Responses)
    (vs : List JSNum) (h : volumeSeries m symbol r = some vs) :
    (if getMarketType m symbol = "futures" then analyzeFuturesVolumes r.futuresKlines
      else analyzeSpotVolumes r.spotKlines)
      = if vs.length = 0 then .ok none
        else .ok (some
          { currentVolume := vs.getLastD .nan
            avgPreviousVolume :=
              JSNum.div (vs.dropLast.foldl (fun a b => JSNum.add a b) 0)
                (.fin vs.dropLast.length)
            volumes := vs
            multiplier :=
              if (JSNum.div (vs.dropLast.foldl (fun a b => JSNum.add a b) 0)
                  (.fin vs.dropLast.length)).gt 0
              then JSNum.div (vs.getLastD .nan)
                (JSNum.div (vs.dropLast.foldl (fun a b => JSNum.add a b) 0)
                  (.fin vs.dropLast.length))
              else 0 }) := by
  unfold volumeSeries at h
  by_cases hf : getMarketType m symbol = "futures"
  · simp only [hf, if_true] at h ⊢
    cases hk : r.futuresKlines with
    | null => simp [hk] at h
    | data amount =>
        simp only [hk, Option.some.injEq] at h
        subst h
        rfl
  · simp only [hf, if_false] at h ⊢
    cases hk : r.spotKlines with
    | null => simp [hk] at h
    | notArray => simp [hk] at h
    | array candles =>
        simp only [hk, Option.some.injEq] at h
        subst h
        simp only [analyzeSpotVolumes, List.length_map]

/-- C9 as the code has it.  When the recent volume series of a symbol is empty, spot or
futures, `checkSymbol` returns as for unavailable data: the monitor is unchanged and no
anomaly is flagged.  A series with exactly one element is not skipped: the element is the
current volume, the short-term average is `NaN`, and the element is pushed into the
history and goes through the anomaly test. -/
theorem checkSymbol_short_series (m : Monitor) (symbol : String) (r : Responses) :
    (volumeSeries m symbol r = some [] → checkSymbol m symbol r = (.noData, m)) ∧
    (∀ v : JSNum, volumeSeries m symbol r = some [v] →
      (checkSymbol m symbol r).2 = addVolumeToHistory m symbol v ∧
      ∃ report, (checkSymbol m symbol r).1 = .checked report ∧
        report.currentVolume = v ∧ report.avgPreviousVolume = JSNum.nan ∧
        calculateAverageVolume (addVolumeToHistory m symbol v) symbol
          = .ok report.avgHistoricalVolume ∧
        report.verdict = anomalyTest (addVolumeToHistory m symbol v) symbol v
          report.avgHistoricalVolume r.sendFails) := by
  constructor
  · intro h
    have ha := analysis_of_volumeSeries m symbol r [] h
    unfold checkSymbol
    simp only [ha, List.length_nil, if_true]
  · intro v h
    have ha := analysis_of_volumeSeries m symbol r [v] h
    obtain ⟨avg, havg⟩ := calculateAverageVolume_addVolumeToHistory_ok m symbol v
    unfold checkSymbol
    simp only [ha, List.length_singleton, one_ne_zero, if_false, List.getLastD_cons,
      List.getLastD_nil, havg]
    refine ⟨trivial, _, rfl, rfl, ?_, rfl, rfl⟩
    simp [JSNum.div, JSNum.ofNat_eq_fin]

/-- Witness for C9 as the code has it: one spot candle with quote volume 100. -/
theorem checkSymbol_short_series_witness :
    (checkSymbol (monitorWith "BTCUSDT" [10, 10] 24 2) "BTCUSDT" (spotResponses ["100"])).2
      = addVolumeToHistory (monitorWith "BTCUSDT" [10, 10] 24 2) "BTCUSDT" 100 :=
  ((checkSymbol_short_series (monitorWith "BTCUSDT" [10, 10] 24 2) "BTCUSDT"
    (spotResponses ["100"])).2 100 (by decide!)).1

/-- Counterexample to C9 as stated: a series of exactly one element, spot or futures, is not
skipped; the history `[10, 10]` becomes `[10, 10, 100]` and an anomaly is flagged. -/
theorem checkSymbol_short_series_counterexample :
    volumeSeries (monitorWith "BTCUSDT" [10, 10] 24 2) "BTCUSDT" (spotResponses ["100"])
      = some [100] ∧
    (checkSymbol (monitorWith "BTCUSDT" [10, 10] 24 2) "BTCUSDT" (spotResponses ["100"])).1
      = .checked
          { volume24h := 0, currentVolume := 100, avgPreviousVolume := .nan,
            avgHistoricalVolume := 40,
            verdict := .anomaly
              { currentVolume := 100, avgVolume := 40, multiplier := JSNum.fin (5 / 2) }
              .noBot } ∧
    (checkSymbol (monitorWith "BTCUSDT" [10, 10] 24 2) "BTCUSDT"
        (spotResponses ["100"])).2.volumeHistory "BTCUSDT" = some [10, 10, 100] ∧
    volumeSeries (monitorWith "BTC_USDT" [10, 10] 24 2) "BTC_USDT" (futuresResponses [100])
      = some [100] ∧
    (checkSymbol (monitorWith "BTC_USDT" [10, 10] 24 2) "BTC_USDT" (futuresResponses [100])).1
      = .checked
          { volume24h := 0, currentVolume := 100, avgPreviousVolume := .nan,
            avgHistoricalVolume := 40,
            verdict := .anomaly
              { currentVolume := 100, avgVolume := 40, multiplier := JSNum.fin (5 / 2) }
              .noBot } ∧
    (checkSymbol (monitorWith "BTC_USDT" [10, 10] 24 2) "BTC_USDT"
        (futuresResponses [100])).2.volumeHistory "BTC_USDT" = some [10, 10, 100] := by
  refine ⟨by decide!, by decide!, by decide!, by decide!, by decide!, by decide!⟩

theorem monitorPass_cons_threw (responses : Nat → Responses) (m m1 : Monitor) (s : String)
    (rest : List String) (i : Nat) (e : JSError)
    (h : checkSymbol m s (responses i) = (.threw e, m1)) :
    monitorPass responses m (s :: rest) i
      = { calls := [(s, .threw e)], escaped := some e, monitor := m1 } := by
  simp only [monitorPass, h]

theorem monitorPass_cons_returned (responses : Nat → Responses) (m : Monitor) (s : String)
    (rest : List String) (i : Nat)
    (h : ∀ e, (checkSymbol m s (responses i)).1 ≠ .threw e) :
    monitorPass responses m (s :: rest) i
      = { calls := (s, (checkSymbol m s (responses i)).1)
            :: (monitorPass responses (checkSymbol m s (responses i)).2 rest (i + 1)).calls
          escaped := (monitorPass responses (checkSymbol m s (responses i)).2 rest (i + 1)).escaped
          monitor :=
            (monitorPass responses (checkSymbol m s (responses i)).2 rest (i + 1)).monitor } := by
  cases hc : checkSymbol m s (responses i) with
  | mk res m1 =>
      rw [hc] at h
      cases res with
      | threw e => exact absurd rfl (h e)
      | noData => simp only [monitorPass, hc]
      | checked report => simp only [monitorPass, hc]

theorem monitorPass_escaped_cons (responses : Nat → Responses) (m : Monitor) (s : String)
    (rest : List String) (i : Nat)
    (h : (monitorPass responses m (s :: rest) i).escaped = none) :
    (∀ e, (checkSymbol m s (responses i)).1 ≠ .threw e) := by
  intro e he
  have hc : checkSymbol m s (responses i) = (.threw e, (checkSymbol m s (responses i)).2) :=
    Prod.ext he rfl
  rw [monitorPass_cons_threw responses m _ s rest i e hc] at h
  cases h

theorem monitorPass_all_checked (responses : Nat → Responses) (syms : List String) :
    ∀ (m : Monitor) (i : Nat), (monitorPass responses m syms i).escaped = none →
      (monitorPass responses m syms i).calls.map Prod.fst = syms := by
  induction syms with
  | nil => intro m i _; rfl
  | cons s rest ih =>
      intro m i h
      have hret := monitorPass_escaped_cons responses m s rest i h
      rw [monitorPass_cons_returned responses m s rest i hret] at h ⊢
      simp only [List.map_cons, List.cons.injEq, true_and]
      exact ih _ _ h

theorem monitorPass_stops (responses : Nat → Responses) (s : String) (post : List String)
    (e : JSError) (pre : List String) :
    ∀ (m : Monitor) (i : Nat), (monitorPass responses m pre i).escaped = none →
      (checkSymbol (monitorPass responses m pre i).monitor s
        (responses (i + pre.length))).1 = .threw e →
      (monitorPass responses m (pre ++ s :: post) i).calls.map Prod.fst = pre ++ [s] ∧
      (monitorPass responses m (pre ++ s :: post) i).escaped = some e := by
  induction pre with
  | nil =>
      intro m i _ hthrow
      have hc : checkSymbol m s (responses i) = (.threw e, (checkSymbol m s (responses i)).2) :=
        Prod.ext (by simpa [monitorPass] using hthrow) rfl
      rw [List.nil_append, monitorPass_cons_threw responses m _ s post i e hc]
      exact ⟨rfl, rfl⟩
  | cons p rest ih =>
      intro m i hnone hthrow
      have hret := monitorPass_escaped_cons responses m p rest i hnone
      rw [monitorPass_cons_returned responses m p rest i hret] at hnone hthrow
      rw [List.cons_append, monitorPass_cons_returned responses m p (rest ++ s :: post) i hret]
      have hidx : i + (p :: rest).length = i + 1 + rest.length := by
        simp only [List.length_cons]; omega
      rw [hidx] at hthrow
      obtain ⟨h1, h2⟩ := ih _ (i + 1) hnone hthrow
      exact ⟨by simp only [List.map_cons, h1, List.cons_append], h2⟩

/-- C10 as the code has it.  A request that fails is absorbed: `checkSymbol` returns with
the monitor unchanged and the pass goes on to the next symbol; when no call throws, every
symbol of the list is checked, in order.  An exception that leaves `checkSymbol` at
position `i` is not caught by `monitorLoop`: the pass stops there, the symbols after `i`
are not checked, and `start` ends the process with status 1. -/
theorem monitorPass_failure_handling :
    (∀ (responses : Nat → Responses) (m : Monitor) (s : String) (rest : List String) (i : Nat),
      candlesUnavailable m s (responses i) = true →
      monitorPass responses m (s :: rest) i
        = { calls := (s, .noData) :: (monitorPass responses m rest (i + 1)).calls
            escaped := (monitorPass responses m rest (i + 1)).escaped
            monitor := (monitorPass responses m rest (i + 1)).monitor }) ∧
    (∀ (responses : Nat → Responses) (m : Monitor) (syms : List String),
      (monitorPass responses m syms 0).escaped = none →
      (monitorPass responses m syms 0).calls.map Prod.fst = syms) ∧
    (∀ (responses : Nat → Responses) (m : Monitor) (pre post : List String) (s : String)
      (e : JSError), (monitorPass responses m pre 0).escaped = none →
      (checkSymbol (monitorPass responses m pre 0).monitor s (responses pre.length)).1
        = .threw e →
      (monitorPass responses m (pre ++ s :: post) 0).calls.map Prod.fst = pre ++ [s] ∧
      (monitorPass responses m (pre ++ s :: post) 0).escaped = some e) ∧
    (∀ (responses : Nat → Nat → Responses) (m : Monitor) (cycles : Nat) (e : JSError),
      (monitorPass (responses 0) m m.symbols 0).escaped = some e →
      (start responses (cycles + 1) m).2 = .exited 1 ∧
      (start responses (cycles + 1) m).1.passes
        = [(monitorPass (responses 0) m m.symbols 0).calls]) := by
  refine ⟨?_, ?_, ?_, ?_⟩
  · intro responses m s rest i h
    have hc := checkSymbol_unavailable m s (responses i) h
    rw [monitorPass_cons_returned responses m s rest i (by rw [hc]; intro e he; cases he), hc]
  · intro responses m syms h
    exact monitorPass_all_checked responses syms m 0 h
  · intro responses m pre post s e hnone hthrow
    exact monitorPass_stops responses s post e pre m 0 hnone (by simpa using hthrow)
  · intro responses m cycles e h
    simp [start, monitorLoop, h]

/-- Witness for C10 as the code has it: the first symbol's requests fail and the second
symbol is still checked. -/
theorem monitorPass_failure_handling_witness :
    (monitorPass (failedFirstResponses 0) (Monitor.new (exampleConfig ["ETHUSDT", "BTCUSDT"] 24 2))
        ["ETHUSDT", "BTCUSDT"] 0).calls.map Prod.fst = ["ETHUSDT", "BTCUSDT"] :=
  monitorPass_failure_handling.2.1 (failedFirstResponses 0)
    (Monitor.new (exampleConfig ["ETHUSDT", "BTCUSDT"] 24 2)) ["ETHUSDT", "BTCUSDT"]
    (by decide!)

/-- Counterexample to C10 as stated: the candle answer for the first of two symbols is an
object, `checkSymbol` throws, the second symbol is never checked in that pass (its history
stays empty) and the process exits with status 1. -/
theorem monitorPass_failure_handling_counterexample :
    (start brokenFirstResponses 1
        (Monitor.new (exampleConfig ["ETHUSDT", "BTCUSDT"] 24 2))).1.passes
      = [[("ETHUSDT", .threw .typeError)]] ∧
    (start brokenFirstResponses 1
        (Monitor.new (exampleConfig ["ETHUSDT", "BTCUSDT"] 24 2))).1.monitor.volumeHistory
      "BTCUSDT" = some [] ∧
    (start brokenFirstResponses 1
        (Monitor.new (exampleConfig ["ETHUSDT", "BTCUSDT"] 24 2))).2 = .exited 1 := by
  refine ⟨by decide!, by decide!, by decide!⟩

theorem parseUnsigned_not_numeric (c : Char) (rest : List Char) (hd : c.isDigit = false)
    (hdot : c ≠ '.') (hI : c ≠ 'I') : parseUnsigned (c :: rest) = none := by
  have hpre : ("Infinity".toList.isPrefixOf (c :: rest)) = false := by
    have : "Infinity".toList = 'I' :: "nfinity".toList := by decide
    rw [this, List.isPrefixOf]
    simp [Ne.symm hI]
  unfold parseUnsigned
  simp only [hpre, List.takeWhile_cons, List.dropWhile_cons, hd, Bool.false_eq_true,
    if_false]
  rw [if_pos]
  split
  · rename_i t heq
    simp only [List.cons.injEq] at heq
    exact absurd heq.1 hdot
  · rfl

theorem parseFloatString_not_numeric (s : String) (c : Char) (rest : List Char)
    (hs : s.toList.dropWhile isStrWhiteSpace = c :: rest) (hd : c.isDigit = false)
    (hplus : c ≠ '+') (hminus : c ≠ '-') (hdot : c ≠ '.') (hI : c ≠ 'I') :
    parseFloatString s = JSNum.nan := by
  unfold parseFloatString
  simp only [hs]
  split
  · rename_i t heq
    simp only [List.cons.injEq] at heq
    exact absurd heq.1 hminus
  · rename_i t heq
    simp only [List.cons.injEq] at heq
    exact absurd heq.1 hplus
  · rw [parseUnsigned_not_numeric c rest hd hdot hI]
    rfl

/-- C11 as the code has it.  The volumes that enter the series are not coerced.  A spot
entry is `parseFloat(candle[7])`: a number is kept as it is, negative or not, and a
missing field or a string that does not start (after white space) with a digit, a sign, a
dot or `Infinity` becomes `NaN`, not 0.  A futures entry is the element of the `amount`
array as it is. -/
theorem volume_series_uncoerced :
    (∀ candles : List Candle, candles ≠ [] →
      ∃ a, analyzeSpotVolumes (.array candles) = .ok (some a) ∧
        a.volumes = candles.map (fun candle => parseFloat (candle.getD 7 .undefined))) ∧
    parseFloat .undefined = JSNum.nan ∧
    (∀ n : JSNum, parseFloat (.num n) = n) ∧
    (∀ s : String, s.toList.dropWhile isStrWhiteSpace = [] →
      parseFloat (.str s) = JSNum.nan) ∧
    (∀ (s : String) (c : Char) (rest : List Char),
      s.toList.dropWhile isStrWhiteSpace = c :: rest → c.isDigit = false →
      c ≠ '+' → c ≠ '-' → c ≠ '.' → c ≠ 'I' → parseFloat (.str s) = JSNum.nan) ∧
    (∀ amount : List JSNum, amount ≠ [] →
      ∃ a, analyzeFuturesVolumes (.data (some amount)) = .ok (some a) ∧
        a.volumes = amount) := by
  refine ⟨?_, rfl, fun _ => rfl, ?_, ?_, ?_⟩
  · intro candles hne
    have hlen : candles.length ≠ 0 := fun h0 => hne (List.length_eq_zero.mp h0)
    simp only [analyzeSpotVolumes, hlen, if_false]
    exact ⟨_, rfl, rfl⟩
  · intro s hs
    simp only [parseFloat, parseFloatString, hs]
    rfl
  · intro s c rest hs hd hplus hminus hdot hI
    exact parseFloatString_not_numeric s c rest hs hd hplus hminus hdot hI
  · intro amount hne
    have hlen : amount.length ≠ 0 := fun h0 => hne (List.length_eq_zero.mp h0)
    simp only [analyzeFuturesVolumes, Option.getD_some, hlen, if_false]
    exact ⟨_, rfl, rfl⟩

/-- Witness for C11 as the code has it: the quote volume `"abc"` is read as `NaN`. -/
theorem volume_series_uncoerced_witness : parseFloat (.str "abc") = JSNum.nan :=
  volume_series_uncoerced.2.2.2.2.1 "abc" 'a' ['b', 'c'] (by decide) (by decide) (by decide)
    (by decide) (by decide) (by decide)

/-- Counterexample to C11 as stated: a malformed spot entry enters the series as `NaN`, a
negative spot or futures entry stays negative, and the `NaN` is pushed into the history. -/
theorem volume_series_uncoerced_counterexample :
    volumeSeries (monitorWith "BTCUSDT" [100] 24 2) "BTCUSDT" (spotResponses ["100", "abc"])
      = some [100, JSNum.nan] ∧
    volumeSeries (monitorWith "BTCUSDT" [100] 24 2) "BTCUSDT" (spotResponses ["100", "-5"])
      = some [100, JSNum.fin (-5)] ∧
    volumeSeries (monitorWith "BTC_USDT" [100] 24 2) "BTC_USDT"
        (futuresResponses [100, JSNum.fin (-5)])
      = some [100, JSNum.fin (-5)] ∧
    (checkSymbol (monitorWith "BTCUSDT" [100] 24 2) "BTCUSDT"
        (spotResponses ["100", "abc"])).2.volumeHistory "BTCUSDT"
      = some [100, JSNum.nan] ∧
    (checkSymbol (monitorWith "BTC_USDT" [100] 24 2) "BTC_USDT"
        (futuresResponses [100, JSNum.fin (-5)])).2.volumeHistory "BTC_USDT"
      = some [100, JSNum.fin (-5)] := by
  refine ⟨by decide!, by decide!, by decide!, by decide!, by decide!⟩

theorem checkSymbol_of_series (m : Monitor) (symbol : String) (r : Responses)
    (vs : List JSNum) (h : volumeSeries m symbol r = some vs) (hne : vs ≠ []) :
    (checkSymbol m symbol r).2 = addVolumeToHistory m symbol (vs.getLastD .nan) ∧
    ∃ report, (checkSymbol m symbol r).1 = .checked report ∧
      report.currentVolume = vs.getLastD .nan ∧
      calculateAverageVolume (addVolumeToHistory m symbol (vs.getLastD .nan)) symbol
        = .ok report.avgHistoricalVolume ∧
      report.verdict = anomalyTest (addVolumeToHistory m symbol (vs.getLastD .nan)) symbol
        (vs.getLastD .nan) report.avgHistoricalVolume r.sendFails := by
  have ha := analysis_of_volumeSeries m symbol r vs h
  have hlen : vs.length ≠ 0 := fun h0 => hne (List.length_eq_zero.mp h0)
  obtain ⟨avg, havg⟩ :=
    calculateAverageVolume_addVolumeToHistory_ok m symbol (vs.getLastD .nan)
  unfold checkSymbol
  simp only [ha, hlen, if_false, havg]
  exact ⟨trivial, _, rfl, rfl, rfl, rfl⟩

theorem volumeSeries_congr (m1 m2 : Monitor) (s : String) (r : Responses)
    (h : m1.marketTypes = m2.marketTypes) : volumeSeries m1 s r = volumeSeries m2 s r := by
  unfold volumeSeries
  rw [getMarketType_congr m1 m2 s h]

theorem addVolumeToHistory_congr (m1 m2 : Monitor) (s : String) (v : JSNum)
    (hh : m1.volumeHistory s = m2.volumeHistory s) (hs : m1.historySize = m2.historySize) :
    (addVolumeToHistory m1 s v).volumeHistory s = (addVolumeToHistory m2 s v).volumeHistory s := by
  simp [addVolumeToHistory, hh, hs]

theorem monitorPass_calls_initial (responses : Nat → Responses) (syms : List String) :
    ∀ (m : Monitor) (i : Nat), (monitorPass responses m syms i).calls.map Prod.fst <+: syms := by
  induction syms with
  | nil => intro m i; exact List.prefix_refl _
  | cons s rest ih =>
      intro m i
      by_cases hthrow : ∃ e, (checkSymbol m s (responses i)).1 = .threw e
      · obtain ⟨e, he⟩ := hthrow
        rw [monitorPass_cons_threw responses m _ s rest i e (Prod.ext he rfl)]
        exact ⟨rest, rfl⟩
      · rw [monitorPass_cons_returned responses m s rest i
          (fun e he => hthrow ⟨e, he⟩)]
        simp only [List.map_cons]
        exact (List.prefix_cons_inj s).mpr (ih _ _)

theorem monitorPass_with_data (responses : Nat → Responses) (syms : List String) :
    ∀ (m : Monitor) (i : Nat), syms.Nodup →
      (∀ (k : Nat) (s : String), syms[k]? = some s →
        ∃ vs, volumeSeries m s (responses (i + k)) = some vs ∧ vs ≠ []) →
      (monitorPass responses m syms i).escaped = none ∧
      (monitorPass responses m syms i).monitor.marketTypes = m.marketTypes ∧
      (monitorPass responses m syms i).monitor.historySize = m.historySize ∧
      (∀ t, t ∉ syms →
        (monitorPass responses m syms i).monitor.volumeHistory t = m.volumeHistory t) ∧
      (∀ (k : Nat) (s : String) (vs : List JSNum), syms[k]? = some s →
        volumeSeries m s (responses (i + k)) = some vs →
        (monitorPass responses m syms i).monitor.volumeHistory s
          = (addVolumeToHistory m s (vs.getLastD .nan)).volumeHistory s) := by
  induction syms with
  | nil =>
      intro m i _ _
      refine ⟨rfl, rfl, rfl, fun _ _ => rfl, ?_⟩
      intro k s vs hk
      simp at hk
  | cons s rest ih =>
      intro m i hnd hdata
      obtain ⟨vs0, hvs0, hne0⟩ := hdata 0 s (by simp)
      rw [Nat.add_zero] at hvs0
      obtain ⟨hm1, report, hres, -⟩ := checkSymbol_of_series m s (responses i) vs0 hvs0 hne0
      have hret : ∀ e, (checkSymbol m s (responses i)).1 ≠ .threw e := by
        intro e he; rw [hres] at he; cases he
      rw [monitorPass_cons_returned responses m s rest i hret]
      simp only
      rw [hm1]
      have hnd' : rest.Nodup := (List.nodup_cons.mp hnd).2
      have hs_notin : s ∉ rest := (List.nodup_cons.mp hnd).1
      have hseries : ∀ t r, volumeSeries (addVolumeToHistory m s (vs0.getLastD .nan)) t r
          = volumeSeries m t r := fun t r => volumeSeries_congr _ _ t r rfl
      have hdata' : ∀ (k : Nat) (t : String), rest[k]? = some t →
          ∃ vs, volumeSeries (addVolumeToHistory m s (vs0.getLastD .nan)) t
            (responses (i + 1 + k)) = some vs ∧ vs ≠ [] := by
        intro k t hk
        obtain ⟨vs, hvs, hne⟩ := hdata (k + 1) t (by simpa using hk)
        refine ⟨vs, ?_, hne⟩
        rw [hseries]
        have : i + 1 + k = i + (k + 1) := by omega
        rw [this]; exact hvs
      obtain ⟨h1, h2, h3, h4, h5⟩ :=
        ih (addVolumeToHistory m s (vs0.getLastD .nan)) (i + 1) hnd' hdata'
      refine ⟨h1, h2, h3, ?_, ?_⟩
      · intro t ht
        have hts : t ≠ s := fun e => ht (by rw [e]; exact List.mem_cons_self _ _)
        have htr : t ∉ rest := fun hmem => ht (List.mem_cons_of_mem _ hmem)
        rw [h4 t htr, addVolumeToHistory_other m s t _ hts]
      · intro k t vs hk hvs
        cases k with
        | zero =>
            simp only [List.getElem?_cons_zero, Option.some.injEq] at hk
            subst hk
            rw [Nat.add_zero, hvs0] at hvs
            cases hvs
            rw [h4 s hs_notin]
        | succ k =>
            simp only [List.getElem?_cons_succ] at hk
            have htmem : t ∈ rest := List.getElem?_mem hk
            have hts : t ≠ s := fun e => hs_notin (e ▸ htmem)
            have hvs' : volumeSeries (addVolumeToHistory m s (vs0.getLastD .nan)) t
                (responses (i + 1 + k)) = some vs := by
              rw [hseries]
              have : i + 1 + k = i + (k + 1) := by omega
              rw [this]; exact hvs
            rw [h5 k t vs hk hvs']
            exact addVolumeToHistory_congr _ _ t _ (addVolumeToHistory_other m s t _ hts) rfl

/-- C12 as the code has it.  The loop goes through `this.symbols` (which is
`config.symbols` when given) in order, one `checkSymbol` per entry, and stops at the first
call that throws: the sequence of symbols checked in a pass is always a prefix of the
list, and it is the whole list when no call throws.  With distinct symbols and a non-empty
volume series for each of them no call throws, every entry is checked, each symbol's
history receives exactly one new sample, its current volume, and no other history
changes. -/
theorem monitorPass_one_check_per_entry :
    (∀ (config : Config) (syms : List String), config.symbols = some syms →
      (Monitor.new config).symbols = syms) ∧
    (∀ (responses : Nat → Responses) (m : Monitor),
      (monitorPass responses m m.symbols 0).calls.map Prod.fst <+: m.symbols) ∧
    (∀ (responses : Nat → Responses) (m : Monitor),
      (monitorPass responses m m.symbols 0).escaped = none →
      (monitorPass responses m m.symbols 0).calls.map Prod.fst = m.symbols) ∧
    (∀ (responses : Nat → Responses) (m : Monitor), m.symbols.Nodup →
      (∀ (k : Nat) (s : String), m.symbols[k]? = some s →
        ∃ vs, volumeSeries m s (responses k) = some vs ∧ vs ≠ []) →
      (monitorPass responses m m.symbols 0).escaped = none ∧
      (monitorPass responses m m.symbols 0).calls.map Prod.fst = m.symbols ∧
      (∀ (k : Nat) (s : String) (vs : List JSNum), m.symbols[k]? = some s →
        volumeSeries m s (responses k) = some vs →
        (monitorPass responses m m.symbols 0).monitor.volumeHistory s
          = (addVolumeToHistory m s (vs.getLastD .nan)).volumeHistory s) ∧
      (∀ t, t ∉ m.symbols →
        (monitorPass responses m m.symbols 0).monitor.volumeHistory t
          = m.volumeHistory t)) := by
  refine ⟨?_, ?_, ?_, ?_⟩
  · intro config syms h
    simp [Monitor.new, h]
  · intro responses m
    exact monitorPass_calls_initial responses m.symbols m 0
  · intro responses m h
    exact monitorPass_all_checked responses m.symbols m 0 h
  · intro responses m hnd hdata
    have hdata' : ∀ (k : Nat) (s : String), m.symbols[k]? = some s →
        ∃ vs, volumeSeries m s (responses (0 + k)) = some vs ∧ vs ≠ [] := by
      intro k s hk
      rw [Nat.zero_add]
      exact hdata k s hk
    obtain ⟨h1, -, -, h4, h5⟩ := monitorPass_with_data responses m.symbols m 0 hnd hdata'
    refine ⟨h1, monitorPass_all_checked responses m.symbols m 0 h1, ?_, h4⟩
    intro k s vs hk hvs
    exact h5 k s vs hk (by rw [Nat.zero_add]; exact hvs)

/-- Witness for C12 as the code has it: two spot symbols with data, both checked in order. -/
theorem monitorPass_one_check_per_entry_witness :
    (monitorPass (fun _ => spotResponses ["100", "100"])
        (Monitor.new (exampleConfig ["ETHUSDT", "BTCUSDT"] 24 2))
        (Monitor.new (exampleConfig ["ETHUSDT", "BTCUSDT"] 24 2)).symbols 0).calls.map Prod.fst
      = (Monitor.new (exampleConfig ["ETHUSDT", "BTCUSDT"] 24 2)).symbols :=
  (monitorPass_one_check_per_entry.2.2.2 (fun _ => spotResponses ["100", "100"])
    (Monitor.new (exampleConfig ["ETHUSDT", "BTCUSDT"] 24 2)) (by decide)
    (fun k s hk =>
      match k, hk with
      | 0, hk => ⟨[100, 100], by cases hk; decide!, by decide⟩
      | 1, hk => ⟨[100, 100], by cases hk; decide!, by decide⟩
      | _ + 2, hk => by cases hk)).2.1

/-- Counterexample to C12 as stated: of three configured symbols the second one gets an
object as candle answer; the pass checks only the first two entries and the third symbol
receives no sample. -/
theorem monitorPass_one_check_per_entry_counterexample :
    (Monitor.new (exampleConfig ["ETHUSDT", "BTCUSDT", "SOLUSDT"] 24 2)).symbols
      = ["ETHUSDT", "BTCUSDT", "SOLUSDT"] ∧
    (monitorPass (brokenSecondResponses 0)
        (Monitor.new (exampleConfig ["ETHUSDT", "BTCUSDT", "SOLUSDT"] 24 2))
        ["ETHUSDT", "BTCUSDT", "SOLUSDT"] 0).calls.map Prod.fst = ["ETHUSDT", "BTCUSDT"] ∧
    (monitorPass (brokenSecondResponses 0)
        (Monitor.new (exampleConfig ["ETHUSDT", "BTCUSDT", "SOLUSDT"] 24 2))
        ["ETHUSDT", "BTCUSDT", "SOLUSDT"] 0).monitor.volumeHistory "SOLUSDT" = some [] := by
  refine ⟨by decide, by decide!, by decide!⟩

theorem checkSymbol_ticker (m : Monitor) (symbol : String) (r : Responses)
    (spot futures : Option Raw) :
    (checkSymbol m symbol { r with spotTicker := spot, futuresTicker := futures }).2
      = (checkSymbol m symbol r).2 ∧
    (checkSymbol m symbol { r with spotTicker := spot, futuresTicker := futures }).1.setVolume24h 0
      = (checkSymbol m symbol r).1.setVolume24h 0 := by
  unfold checkSymbol
  simp only
  generalize (if getMarketType m symbol = "futures" then analyzeFuturesVolumes r.futuresKlines
    else analyzeSpotVolumes r.spotKlines) = analysis
  rcases analysis with e | _ | a
  · exact ⟨rfl, rfl⟩
  · exact ⟨rfl, rfl⟩
  · simp only
    generalize calculateAverageVolume (addVolumeToHistory m symbol a.currentVolume) symbol = avg
    rcases avg with e | avg
    · exact ⟨rfl, rfl⟩
    · exact ⟨rfl, rfl⟩

theorem V1.checkSymbol_tickerValue (m : Monitor) (symbol : String) (r : Responses) (q1 q2 : Raw) :
    (V1.checkSymbol m symbol { r with spotTicker := some q1 }).2
      = (V1.checkSymbol m symbol { r with spotTicker := some q2 }).2 ∧
    (V1.checkSymbol m symbol { r with spotTicker := some q1 }).1.setVolume24h 0
      = (V1.checkSymbol m symbol { r with spotTicker := some q2 }).1.setVolume24h 0 := by
  unfold V1.checkSymbol
  simp only
  generalize V1.analyzeRecentVolumes r.spotKlines = analysis
  rcases analysis with e | _ | a
  · exact ⟨rfl, rfl⟩
  · exact ⟨rfl, rfl⟩
  · simp only
    generalize calculateAverageVolume (addVolumeToHistory m symbol a.currentVolume) symbol = avg
    rcases avg with e | avg
    · exact ⟨rfl, rfl⟩
    · exact ⟨rfl, rfl⟩

/-- C13 as the code has it.  In `volume-monitor-v2.js` the monitor after `checkSymbol` and
its result, apart from the printed 24h volume, are the same whatever the two ticker
requests give, a failure included.  In `volume-monitor.js` they are the same for any two
ticker bodies, but when the ticker request fails `checkSymbol` returns at once: the
monitor is unchanged and nothing is decided. -/
theorem checkSymbol_ticker_independence :
    (∀ (m : Monitor) (symbol : String) (r : Responses) (spot futures : Option Raw),
      (checkSymbol m symbol { r with spotTicker := spot, futuresTicker := futures }).2
        = (checkSymbol m symbol r).2 ∧
      (checkSymbol m symbol
          { r with spotTicker := spot, futuresTicker := futures }).1.setVolume24h 0
        = (checkSymbol m symbol r).1.setVolume24h 0) ∧
    (∀ (m : Monitor) (symbol : String) (r : Responses) (q1 q2 : Raw),
      (V1.checkSymbol m symbol { r with spotTicker := some q1 }).2
        = (V1.checkSymbol m symbol { r with spotTicker := some q2 }).2 ∧
      (V1.checkSymbol m symbol { r with spotTicker := some q1 }).1.setVolume24h 0
        = (V1.checkSymbol m symbol { r with spotTicker := some q2 }).1.setVolume24h 0) ∧
    (∀ (m : Monitor) (symbol : String) (r : Responses),
      V1.checkSymbol m symbol { r with spotTicker := none } = (.noData, m)) := by
  exact ⟨checkSymbol_ticker, V1.checkSymbol_tickerValue, fun _ _ _ => rfl⟩

/-- Counterexample to C13 as stated: in `volume-monitor.js`, with the history `[100, 100]`,
threshold 2 and the same candles ending in 500, a run whose ticker request succeeds pushes
500 and reports an anomaly, and a run whose ticker request fails leaves the history and
reports nothing. -/
theorem checkSymbol_ticker_independence_counterexample :
    (V1.checkSymbol (monitorWith "BTCUSDT" [100, 100] 3 2) "BTCUSDT"
        { spotResponses ["100", "500"] with spotTicker := some (.str "12345.6") }).2.volumeHistory
      "BTCUSDT" = some [100, 100, 500] ∧
    (V1.checkSymbol (monitorWith "BTCUSDT" [100, 100] 3 2) "BTCUSDT"
        { spotResponses ["100", "500"] with spotTicker := some (.str "12345.6") }).1.isAnomaly
      = true ∧
    (V1.checkSymbol (monitorWith "BTCUSDT" [100, 100] 3 2) "BTCUSDT"
        { spotResponses ["100", "500"] with spotTicker := none }).2.volumeHistory
      "BTCUSDT" = some [100, 100] ∧
    (V1.checkSymbol (monitorWith "BTCUSDT" [100, 100] 3 2) "BTCUSDT"
        { spotResponses ["100", "500"] with spotTicker := none }).1 = .noData := by
  refine ⟨by decide!, by decide!, by decide!, by decide!⟩

theorem JSNum.fin_ge_ofNat (q : ℚ) (n : ℕ) (h : (n : ℚ) ≤ q) :
    (JSNum.fin q).ge (JSNum.fin (n : ℚ)) = true := by
  simp [JSNum.ge, h]

theorem JSNum.fin_notGe_ofNat (q : ℚ) (n : ℕ) (h : q < (n : ℚ)) :
    ¬ (JSNum.fin q).ge (JSNum.fin (n : ℚ)) = true := by
  simp [JSNum.ge, h]

theorem JSNum.fin_div_ofNat (q : ℚ) (n : ℕ) (h : n ≠ 0) :
    JSNum.div (JSNum.fin q) (JSNum.fin (n : ℚ)) = JSNum.fin (q / n) :=
  JSNum.div_fin_fin _ _ (by exact_mod_cast h)

theorem formatNumber_suffix_ne_B (num : JSNum) : (formatNumber num).suffix ≠ "B" := by
  unfold formatNumber
  split
  · show ("M" : String) ≠ "B"
    decide
  · split
    · show ("K" : String) ≠ "B"
      decide
    · show ("" : String) ≠ "B"
      decide

theorem formatNumber_millions (q : ℚ) (h : 1000000 ≤ q) :
    formatNumber (JSNum.fin q) = { value := JSNum.fin (q / 1000000), suffix := "M" } := by
  have hge : (JSNum.fin q).ge 1000000 = true :=
    JSNum.fin_ge_ofNat q 1000000 (by exact_mod_cast h)
  have hdiv : JSNum.div (JSNum.fin q) 1000000 = JSNum.fin (q / 1000000) := by
    have := JSNum.fin_div_ofNat q 1000000 (by decide)
    simpa using this
  unfold formatNumber
  rw [if_pos hge, hdiv]

theorem formatNumber_thousands (q : ℚ) (h1 : 1000 ≤ q) (h2 : q < 1000000) :
    formatNumber (JSNum.fin q) = { value := JSNum.fin (q / 1000), suffix := "K" } := by
  have hnge : ¬ (JSNum.fin q).ge 1000000 = true :=
    JSNum.fin_notGe_ofNat q 1000000 (by exact_mod_cast h2)
  have hge : (JSNum.fin q).ge 1000 = true :=
    JSNum.fin_ge_ofNat q 1000 (by exact_mod_cast h1)
  have hdiv : JSNum.div (JSNum.fin q) 1000 = JSNum.fin (q / 1000) := by
    have := JSNum.fin_div_ofNat q 1000 (by decide)
    simpa using this
  unfold formatNumber
  rw [if_neg hnge, if_pos hge, hdiv]

theorem formatNumber_small (q : ℚ) (h : q < 1000) :
    formatNumber (JSNum.fin q) = { value := JSNum.fin q, suffix := "" } := by
  have hnge : ¬ (JSNum.fin q).ge 1000000 = true :=
    JSNum.fin_notGe_ofNat q 1000000 (by push_cast; linarith)
  have hnge' : ¬ (JSNum.fin q).ge 1000 = true :=
    JSNum.fin_notGe_ofNat q 1000 (by exact_mod_cast h)
  unfold formatNumber
  rw [if_neg hnge, if_neg hnge']

theorem formatVolume_billions (q : ℚ) (h : 1000000000 ≤ q) :
    FuturesSymbolFinder.formatVolume (JSNum.fin q)
      = { value := JSNum.fin (q / 1000000000), suffix := "B" } := by
  have hge : (JSNum.fin q).ge 1000000000 = true :=
    JSNum.fin_ge_ofNat q 1000000000 (by exact_mod_cast h)
  have hdiv : JSNum.div (JSNum.fin q) 1000000000 = JSNum.fin (q / 1000000000) := by
    have := JSNum.fin_div_ofNat q 1000000000 (by decide)
    simpa using this
  unfold FuturesSymbolFinder.formatVolume
  rw [if_pos hge, hdiv]

/-- C14 as the code has it.  The volumes in the alert text go through `formatNumber`, which
knows `M` and `K` only: a value of at least 1e6, values of 1e9 and more included, is shown
as value/1e6 with `M`, a value in [1e3, 1e6) as value/1e3 with `K`, a smaller value without
suffix, and `B` never appears.  The `B` branch at 1e9 belongs to `formatVolume` of
`futures-finder.js`. -/
theorem formatNumber_suffixes :
    (∀ q : ℚ, 1000000 ≤ q →
      formatNumber (JSNum.fin q) = { value := JSNum.fin (q / 1000000), suffix := "M" }) ∧
    (∀ q : ℚ, 1000 ≤ q → q < 1000000 →
      formatNumber (JSNum.fin q) = { value := JSNum.fin (q / 1000), suffix := "K" }) ∧
    (∀ q : ℚ, q < 1000 →
      formatNumber (JSNum.fin q) = { value := JSNum.fin q, suffix := "" }) ∧
    (∀ num : JSNum, (formatNumber num).suffix ≠ "B") ∧
    (∀ (m : Monitor) (symbol : String) (data : AlertData) (sendFails : Bool)
      (message : AlertMessage),
      (sendTelegramAlert m symbol data sendFails = .sent message ∨
        sendTelegramAlert m symbol data sendFails = .failed message) →
      message.currentVolumeText = formatNumber data.currentVolume ∧
      message.avgVolumeText = formatNumber data.avgVolume) ∧
    (∀ q : ℚ, 1000000000 ≤ q →
      FuturesSymbolFinder.formatVolume (JSNum.fin q)
        = { value := JSNum.fin (q / 1000000000), suffix := "B" }) := by
  refine ⟨formatNumber_millions, formatNumber_thousands, formatNumber_small,
    formatNumber_suffix_ne_B, ?_, formatVolume_billions⟩
  · intro m symbol data sendFails message h
    unfold sendTelegramAlert at h
    by_cases hb : m.bot = true
    · by_cases hf : sendFails = true
      · simp only [hb, hf, Bool.not_true, Bool.false_eq_true, if_false, if_true] at h
        rcases h with h | h
        · cases h
        · cases h; exact ⟨rfl, rfl⟩
      · simp only [hb, hf, Bool.not_true, Bool.false_eq_true, if_false] at h
        rcases h with h | h
        · cases h; exact ⟨rfl, rfl⟩
        · cases h
    · simp only [hb, Bool.not_eq_true] at h
      simp [hb] at h

/-- Witness for C14 as the code has it: 2.5e9 is shown as `2500.00M`. -/
theorem formatNumber_suffixes_witness :
    formatNumber (JSNum.fin 2500000000)
      = { value := JSNum.fin (2500000000 / 1000000), suffix := "M" } :=
  formatNumber_suffixes.1 2500000000 (by norm_num)

/-- Counterexample to C14 as stated: `formatNumber` shows 2.5e9 as 2500 with `M`, not as 2.5
with `B`, and so does the text of an alert that is sent. -/
theorem formatNumber_suffixes_counterexample :
    formatNumber 2500000000 = { value := 2500, suffix := "M" } ∧
    formatNumber 2500000000 ≠ { value := JSNum.fin (5 / 2), suffix := "B" } ∧
    sendTelegramAlert { monitorWith "BTCUSDT" [] 24 2 with bot := true } "BTCUSDT"
        { currentVolume := 2500000000, avgVolume := 1000000000, multiplier := JSNum.fin (5 / 2) }
        false
      = .sent
          { marketLabel := some "SPOT"
            symbol := "BTCUSDT"
            currentVolumeText := { value := 2500, suffix := "M" }
            avgVolumeText := { value := 1000, suffix := "M" }
            data :=
              { currentVolume := 2500000000, avgVolume := 1000000000
                multiplier := JSNum.fin (5 / 2) }
            tradingUrl := "https://www.mexc.com/exchange/BTCUSDT" } := by
  refine ⟨by decide!, by decide!, by decide!⟩

/-- C15. Start-up validation of the symbol list in `index.js`: for every loaded
configuration, a missing or empty `symbols` ends the process with status 1 and no monitor
is constructed; a non-empty `symbols` makes the script construct the monitor from that
configuration and start it.  Without `config.js` the built-in configuration is started. -/
theorem index_validates_symbols :
    (∀ config : Config, config.symbols = none → Index.main (some config) = .exited 1) ∧
    (∀ config : Config, config.symbols = some [] → Index.main (some config) = .exited 1) ∧
    (∀ (config : Config) (symbols : List String), config.symbols = some symbols →
      symbols ≠ [] →
      Index.main (some config) = .started (V1.new config) ∧
      (V1.new config).symbols = symbols) ∧
    Index.main none = .started (V1.new Index.defaultConfig) := by
  refine ⟨?_, ?_, ?_, rfl⟩
  · intro config h
    simp [Index.main, h]
  · intro config h
    simp [Index.main, h]
  · intro config symbols h hne
    have hlen : symbols.length ≠ 0 := fun h0 => hne (List.length_eq_zero.mp h0)
    simp [Index.main, h, hlen, V1.new, Monitor.new]

/-- Witness for C15: one configured symbol is enough to start. -/
theorem index_validates_symbols_witness :
    Index.main (some (exampleConfig ["BTCUSDT"] 24 2))
      = .started (V1.new (exampleConfig ["BTCUSDT"] 24 2)) :=
  (index_validates_symbols.2.2.1 (exampleConfig ["BTCUSDT"] 24 2) ["BTCUSDT"] rfl
    (by decide)).1

theorem Monitor.new_volumeMultiplier (config : Config) :
    (Monitor.new config).volumeMultiplier
      = match config.volumeMultiplier with
        | some v => if v.truthy then v else 2
        | none => 2 := rfl

theorem Monitor.new_checkInterval (config : Config) :
    (Monitor.new config).checkInterval
      = match config.checkInterval with
        | some v => if v ≠ 0 then v else 60000
        | none => 60000 := rfl

theorem Monitor.new_historySize (config : Config) :
    (Monitor.new config).historySize
      = match config.historySize with
        | some v => if v ≠ 0 then v else 24
        | none => 24 := rfl

/-- C16 as the code has it.  Start-up does not validate the thresholds: whenever `symbols`
is a non-empty list the monitor is constructed and started, whatever the other settings
are.  A multiplier that is a non-zero number, below 1 included, and a non-zero
`checkInterval` or `historySize`, negative included, are used as given; a zero is replaced
by the default 2.0, 60000 or 24. -/
theorem index_accepts_any_threshold :
    (∀ (config : Config) (symbols : List String), config.symbols = some symbols →
      symbols ≠ [] → Index.main (some config) = .started (V1.new config)) ∧
    (∀ (config : Config) (q : ℚ), config.volumeMultiplier = some (JSNum.fin q) → q ≠ 0 →
      (V1.new config).volumeMultiplier = JSNum.fin q) ∧
    (∀ (config : Config) (v : Int), config.checkInterval = some v → v ≠ 0 →
      (V1.new config).checkInterval = v) ∧
    (∀ (config : Config) (v : Int), config.historySize = some v → v ≠ 0 →
      (V1.new config).historySize = v) ∧
    (∀ config : Config, config.volumeMultiplier = some 0 →
      (V1.new config).volumeMultiplier = 2) ∧
    (∀ config : Config, config.checkInterval = some 0 →
      (V1.new config).checkInterval = 60000) ∧
    (∀ config : Config, config.historySize = some 0 →
      (V1.new config).historySize = 24) := by
  refine ⟨?_, ?_, ?_, ?_, ?_, ?_, ?_⟩
  · intro config symbols h hne
    have hlen : symbols.length ≠ 0 := fun h0 => hne (List.length_eq_zero.mp h0)
    simp [Index.main, h, hlen]
  · intro config q h hq
    show (Monitor.new config).volumeMultiplier = _
    rw [Monitor.new_volumeMultiplier, h]
    simp [JSNum.truthy, hq]
  · intro config v h hv
    show (Monitor.new config).checkInterval = _
    rw [Monitor.new_checkInterval, h]
    simp [hv]
  · intro config v h hv
    show (Monitor.new config).historySize = _
    rw [Monitor.new_historySize, h]
    simp [hv]
  · intro config h
    show (Monitor.new config).volumeMultiplier = _
    rw [Monitor.new_volumeMultiplier, h]
    simp [JSNum.truthy, JSNum.ofNat_eq_fin]
  · intro config h
    show (Monitor.new config).checkInterval = _
    rw [Monitor.new_checkInterval, h]
    simp
  · intro config h
    show (Monitor.new config).historySize = _
    rw [Monitor.new_historySize, h]
    simp

/-- Witness for C16 as the code has it: a history size of -5 is taken over as it is. -/
theorem index_accepts_any_threshold_witness :
    (V1.new invalidThresholdConfig).historySize = -5 :=
  index_accepts_any_threshold.2.2.2.1 invalidThresholdConfig (-5) rfl (by decide)

/-- Counterexample to C16 as stated: a configuration with the multiplier 1/2, the check
interval -1000 and the history size -5 is not rejected; the monitor is started with those
values. -/
theorem index_accepts_any_threshold_counterexample :
    Index.main (some invalidThresholdConfig) = .started (V1.new invalidThresholdConfig) ∧
    (V1.new invalidThresholdConfig).volumeMultiplier = JSNum.fin (1 / 2) ∧
    (V1.new invalidThresholdConfig).checkInterval = -1000 ∧
    (V1.new invalidThresholdConfig).historySize = -5 := by
  refine ⟨rfl, by decide!, by decide, by decide⟩

theorem anomalyTest_withoutDelivery (m1 m2 : Monitor) (s : String) (c avg : JSNum)
    (f1 f2 : Bool) (hv : m1.volumeMultiplier = m2.volumeMultiplier)
    (hh : m1.volumeHistory s = m2.volumeHistory s) (hs : m1.historySize = m2.historySize) :
    (anomalyTest m1 s c avg f1).withoutDelivery = (anomalyTest m2 s c avg f2).withoutDelivery := by
  unfold anomalyTest
  rw [hv, hh, hs]
  by_cases hpos : avg.gt 0 = true
  · by_cases hge : (JSNum.div c avg).ge m2.volumeMultiplier = true
    · simp only [hpos, hge, if_true, Verdict.withoutDelivery]
    · simp only [hpos, hge, if_true, Bool.false_eq_true, if_false, Verdict.withoutDelivery]
  · simp only [hpos, Bool.false_eq_true, if_false, Verdict.withoutDelivery]

theorem checkSymbol_sink (m : Monitor) (symbol : String) (r : Responses) (bot sendFails : Bool) :
    (checkSymbol { m with bot := bot } symbol { r with sendFails := sendFails }).2
      = { (checkSymbol m symbol r).2 with bot := bot } ∧
    (checkSymbol { m with bot := bot } symbol { r with sendFails := sendFails }).1.withoutDelivery
      = (checkSymbol m symbol r).1.withoutDelivery := by
  have hmt : getMarketType { m with bot := bot } symbol = getMarketType m symbol := rfl
  have hadd : ∀ v, addVolumeToHistory { m with bot := bot } symbol v
      = { addVolumeToHistory m symbol v with bot := bot } := fun _ => rfl
  have havg : ∀ m' : Monitor, calculateAverageVolume { m' with bot := bot } symbol
      = calculateAverageVolume m' symbol := fun _ => rfl
  unfold checkSymbol
  simp only [hmt, hadd, havg]
  generalize (if getMarketType m symbol = "futures" then analyzeFuturesVolumes r.futuresKlines
    else analyzeSpotVolumes r.spotKlines) = analysis
  rcases analysis with e | _ | a
  · exact ⟨rfl, rfl⟩
  · exact ⟨rfl, rfl⟩
  · simp only
    generalize calculateAverageVolume (addVolumeToHistory m symbol a.currentVolume) symbol = avg
    rcases avg with e | avg
    · exact ⟨rfl, rfl⟩
    · refine ⟨rfl, ?_⟩
      simp only [CheckResult.withoutDelivery, CheckResult.checked.injEq, CheckReport.mk.injEq,
        true_and]
      exact anomalyTest_withoutDelivery _ _ symbol _ _ _ _ rfl rfl rfl

theorem Verdict.isAnomaly_withoutDelivery (v : Verdict) :
    v.withoutDelivery.isAnomaly = v.isAnomaly := by
  cases v <;> rfl

theorem CheckResult.isAnomaly_sameWithoutDelivery (c : CheckResult) :
    c.withoutDelivery.isAnomaly = c.isAnomaly := by
  cases c with
  | checked report => exact Verdict.isAnomaly_withoutDelivery report.verdict
  | threw e => rfl
  | noData => rfl

/-- C17. Detection does not depend on the notification side: for the same monitor, symbol
and exchange answers, whether a bot is configured or not and whether the send succeeds or
fails, `checkSymbol` leaves the same histories (the same monitor apart from the bot
itself), ends the same way apart from the recorded outcome of the send, and takes the
anomaly branch in the same cases.  A failing send ends inside `sendTelegramAlert` as one
recorded failure: `checkSymbol` throws with it exactly when it throws without it. -/
theorem checkSymbol_sink_independence :
    (∀ (m : Monitor) (symbol : String) (r : Responses) (bot sendFails : Bool),
      (checkSymbol { m with bot := bot } symbol { r with sendFails := sendFails }).2
        = { (checkSymbol m symbol r).2 with bot := bot } ∧
      (checkSymbol { m with bot := bot } symbol
          { r with sendFails := sendFails }).2.volumeHistory
        = (checkSymbol m symbol r).2.volumeHistory ∧
      (checkSymbol { m with bot := bot } symbol
          { r with sendFails := sendFails }).1.withoutDelivery
        = (checkSymbol m symbol r).1.withoutDelivery ∧
      (checkSymbol { m with bot := bot } symbol { r with sendFails := sendFails }).1.isAnomaly
        = (checkSymbol m symbol r).1.isAnomaly) ∧
    (∀ (m : Monitor) (symbol : String) (r : Responses) (e : JSError),
      (checkSymbol { m with bot := true } symbol { r with sendFails := true }).1 = .threw e ↔
        (checkSymbol { m with bot := false } symbol r).1 = .threw e) ∧
    (∀ (m : Monitor) (symbol : String) (data : AlertData), m.bot = true →
      ∃ message, sendTelegramAlert m symbol data true = .failed message) ∧
    (∀ (m : Monitor) (symbol : String) (data : AlertData) (sendFails : Bool), m.bot = false →
      sendTelegramAlert m symbol data sendFails = .noBot) := by
  refine ⟨?_, ?_, ?_, ?_⟩
  · intro m symbol r bot sendFails
    obtain ⟨h1, h2⟩ := checkSymbol_sink m symbol r bot sendFails
    refine ⟨h1, by rw [h1], h2, ?_⟩
    rw [← CheckResult.isAnomaly_sameWithoutDelivery, h2,
      CheckResult.isAnomaly_sameWithoutDelivery]
  · intro m symbol r e
    have h1 := (checkSymbol_sink m symbol r true true).2
    have h2 := (checkSymbol_sink m symbol r false r.sendFails).2
    have key : ∀ c : CheckResult, c = .threw e ↔ c.withoutDelivery = .threw e := by
      intro c
      cases c <;> simp [CheckResult.withoutDelivery]
    rw [key, h1, ← h2, ← key]
  · intro m symbol data hb
    simp [sendTelegramAlert, hb]
  · intro m symbol data sendFails hb
    simp [sendTelegramAlert, hb]

/-- Witness for C17: with a bot whose send fails, the alert ends as a recorded failure. -/
theorem checkSymbol_sink_independence_witness :
    ∃ message,
      sendTelegramAlert { monitorWith "BTCUSDT" [] 24 2 with bot := true } "BTCUSDT"
        { currentVolume := 500, avgVolume := 100, multiplier := 5 } true
      = .failed message :=
  checkSymbol_sink_independence.2.2.1 { monitorWith "BTCUSDT" [] 24 2 with bot := true }
    "BTCUSDT" { currentVolume := 500, avgVolume := 100, multiplier := 5 } rfl

theorem some_getLastD (series : List JSNum) (h : series ≠ []) :
    some (series.getLastD .nan) = series.getLast? := by
  rw [List.getLastD_eq_getLast?, List.getLast?_eq_getLast series h]
  rfl

theorem previous_average (series : List JSNum) (qs : List ℚ) (hlen : 2 ≤ series.length)
    (hq : series.dropLast = qs.map JSNum.fin) :
    JSNum.div (series.dropLast.foldl (fun a b => JSNum.add a b) 0)
        (.fin series.dropLast.length)
      = JSNum.fin (qs.sum / qs.length) := by
  have hl : qs.length = series.length - 1 := by
    have := congrArg List.length hq
    rw [List.length_dropLast, List.length_map] at this
    exact this.symm
  have hne : ((qs.length : ℕ) : ℚ) ≠ 0 := by
    have : qs.length ≠ 0 := by omega
    exact_mod_cast this
  rw [hq, List.length_map, JSNum.ofNat_eq_fin, JSNum.foldl_add_fin, JSNum.div_fin_fin _ _ hne]
  simp

/-- C18. For every recent volume series of length at least 2, spot or futures, the analysis
step returns a result whose `currentVolume` is the last element of the series and whose
`avgPreviousVolume` is the sum of all elements except the last divided by their count,
which for finite elements is their arithmetic mean. -/
theorem analysis_current_and_previous_average :
    (∀ candles : List Candle, 2 ≤ candles.length →
      ∃ a, analyzeSpotVolumes (.array candles) = .ok (some a) ∧
        a.volumes = candles.map (fun candle => parseFloat (candle.getD 7 .undefined)) ∧
        some a.currentVolume = a.volumes.getLast? ∧
        a.avgPreviousVolume
          = JSNum.div (a.volumes.dropLast.foldl JSNum.add 0) (.fin a.volumes.dropLast.length) ∧
        ∀ qs : List ℚ, a.volumes.dropLast = qs.map JSNum.fin →
          a.avgPreviousVolume = JSNum.fin (qs.sum / qs.length)) ∧
    (∀ amount : List JSNum, 2 ≤ amount.length →
      ∃ a, analyzeFuturesVolumes (.data (some amount)) = .ok (some a) ∧
        a.volumes = amount ∧
        some a.currentVolume = a.volumes.getLast? ∧
        a.avgPreviousVolume
          = JSNum.div (a.volumes.dropLast.foldl JSNum.add 0) (.fin a.volumes.dropLast.length) ∧
        ∀ qs : List ℚ, a.volumes.dropLast = qs.map JSNum.fin →
          a.avgPreviousVolume = JSNum.fin (qs.sum / qs.length)) := by
  constructor
  · intro candles hlen
    have h0 : candles.length ≠ 0 := by omega
    have hs : 2 ≤ (candles.map (fun candle => parseFloat (candle.getD 7 .undefined))).length := by
      rw [List.length_map]; exact hlen
    have hne : candles.map (fun candle => parseFloat (candle.getD 7 .undefined)) ≠ [] := by
      intro h; rw [h] at hs; simp at hs
    simp only [analyzeSpotVolumes, h0, if_false]
    exact ⟨_, rfl, rfl, some_getLastD _ hne, rfl, fun qs hq => previous_average _ qs hs hq⟩
  · intro amount hlen
    have h0 : amount.length ≠ 0 := by omega
    have hne : amount ≠ [] := by
      intro h; rw [h] at hlen; simp at hlen
    simp only [analyzeFuturesVolumes, Option.getD_some, h0, if_false]
    exact ⟨_, rfl, rfl, some_getLastD _ hne, rfl, fun qs hq => previous_average _ qs hlen hq⟩

/-- Witness for C18: the futures series `[100, 200, 900]` has the current volume 900 and
the previous average 150. -/
theorem analysis_current_and_previous_average_witness :
    ∃ a, analyzeFuturesVolumes (.data (some [100, 200, 900])) = .ok (some a) ∧
      a.volumes = [100, 200, 900] ∧
      some a.currentVolume = a.volumes.getLast? ∧
      a.avgPreviousVolume
        = JSNum.div (a.volumes.dropLast.foldl JSNum.add 0) (.fin a.volumes.dropLast.length) ∧
      ∀ qs : List ℚ, a.volumes.dropLast = qs.map JSNum.fin →
        a.avgPreviousVolume = JSNum.fin (qs.sum / qs.length) :=
  analysis_current_and_previous_average.2 [100, 200, 900] (by decide)

/-- C19. The short-term average plays no part in detection: for two non-empty recent volume
series of the same symbol with the same last element, from the same monitor, `checkSymbol`
leaves the same monitor, reports the same current volume and historical average, and
reaches the same verdict (the same branch and multiplier; the recorded outcome of a send
apart, which is the same too when the send behaves the same), whatever the other elements
of the two series are. -/
theorem checkSymbol_ignores_short_term_average (m : Monitor) (symbol : String)
    (r1 r2 : Responses) (vs1 vs2 : List JSNum)
    (h1 : volumeSeries m symbol r1 = some vs1) (h2 : volumeSeries m symbol r2 = some vs2)
    (hne1 : vs1 ≠ []) (hne2 : vs2 ≠ []) (hlast : vs1.getLast? = vs2.getLast?) :
    (checkSymbol m symbol r1).2 = (checkSymbol m symbol r2).2 ∧
    (checkSymbol m symbol r1).1.isAnomaly = (checkSymbol m symbol r2).1.isAnomaly ∧
    ∃ rep1 rep2, (checkSymbol m symbol r1).1 = .checked rep1 ∧
      (checkSymbol m symbol r2).1 = .checked rep2 ∧
      rep1.currentVolume = rep2.currentVolume ∧
      rep1.avgHistoricalVolume = rep2.avgHistoricalVolume ∧
      rep1.verdict.withoutDelivery = rep2.verdict.withoutDelivery ∧
      (r1.sendFails = r2.sendFails → rep1.verdict = rep2.verdict) := by
  have hd : vs1.getLastD .nan = vs2.getLastD .nan := by
    rw [List.getLastD_eq_getLast?, List.getLastD_eq_getLast?, hlast]
  obtain ⟨hm1, rep1, hr1, hc1, ha1, hv1⟩ := checkSymbol_of_series m symbol r1 vs1 h1 hne1
  obtain ⟨hm2, rep2, hr2, hc2, ha2, hv2⟩ := checkSymbol_of_series m symbol r2 vs2 h2 hne2
  have havg : rep1.avgHistoricalVolume = rep2.avgHistoricalVolume := by
    rw [hd, ha2] at ha1
    exact (Except.ok.inj ha1).symm
  have hwd : rep1.verdict.withoutDelivery = rep2.verdict.withoutDelivery := by
    rw [hv1, hv2, hd, havg]
    exact anomalyTest_withoutDelivery _ _ symbol _ _ _ _ rfl rfl rfl
  refine ⟨by rw [hm1, hm2, hd], ?_, rep1, rep2, hr1, hr2, by rw [hc1, hc2, hd], havg, hwd, ?_⟩
  · rw [hr1, hr2]
    show rep1.verdict.isAnomaly = rep2.verdict.isAnomaly
    rw [← Verdict.isAnomaly_withoutDelivery, hwd, Verdict.isAnomaly_withoutDelivery]
  · intro hs
    rw [hv1, hv2, hd, havg, hs]

/-- Witness for C19: the spot series `100, 100, 500` and `9000, 1, 500` end the same way. -/
theorem checkSymbol_ignores_short_term_average_witness :
    (checkSymbol (monitorWith "BTCUSDT" [100, 100] 3 2) "BTCUSDT"
        (spotResponses ["100", "100", "500"])).2
      = (checkSymbol (monitorWith "BTCUSDT" [100, 100] 3 2) "BTCUSDT"
        (spotResponses ["9000", "1", "500"])).2 :=
  (checkSymbol_ignores_short_term_average (monitorWith "BTCUSDT" [100, 100] 3 2) "BTCUSDT"
    (spotResponses ["100", "100", "500"]) (spotResponses ["9000", "1", "500"])
    [100, 100, 500] [9000, 1, 500] (by decide!) (by decide!) (by decide) (by decide)
    (by decide!)).1

/-- C20. Effective settings and defaults, for the constructors of both monitors: a
`historySize`, `volumeMultiplier` or `checkInterval` given as a non-zero number is used as
given; an omitted one becomes 24, 2.0 or 60000; and a supplied 0, being falsy, is replaced
by the same default. -/
theorem constructor_settings :
    (∀ (config : Config) (v : Int), config.historySize = some v → v ≠ 0 →
      (Monitor.new config).historySize = v ∧ (V1.new config).historySize = v) ∧
    (∀ (config : Config) (q : ℚ), config.volumeMultiplier = some (JSNum.fin q) → q ≠ 0 →
      (Monitor.new config).volumeMultiplier = JSNum.fin q ∧
      (V1.new config).volumeMultiplier = JSNum.fin q) ∧
    (∀ (config : Config) (v : Int), config.checkInterval = some v → v ≠ 0 →
      (Monitor.new config).checkInterval = v ∧ (V1.new config).checkInterval = v) ∧
    (∀ config : Config, config.historySize = none →
      (Monitor.new config).historySize = 24 ∧ (V1.new config).historySize = 24) ∧
    (∀ config : Config, config.volumeMultiplier = none →
      (Monitor.new config).volumeMultiplier = 2 ∧ (V1.new config).volumeMultiplier = 2) ∧
    (∀ config : Config, config.checkInterval = none →
      (Monitor.new config).checkInterval = 60000 ∧ (V1.new config).checkInterval = 60000) ∧
    (∀ config : Config, config.historySize = some 0 →
      (Monitor.new config).historySize = 24 ∧ (V1.new config).historySize = 24) ∧
    (∀ config : Config, config.volumeMultiplier = some 0 →
      (Monitor.new config).volumeMultiplier = 2 ∧ (V1.new config).volumeMultiplier = 2) ∧
    (∀ config : Config, config.checkInterval = some 0 →
      (Monitor.new config).checkInterval = 60000 ∧ (V1.new config).checkInterval = 60000) := by
  have hH : ∀ config : Config, (V1.new config).historySize = (Monitor.new config).historySize :=
    fun _ => rfl
  have hV : ∀ config : Config,
      (V1.new config).volumeMultiplier = (Monitor.new config).volumeMultiplier := fun _ => rfl
  have hC : ∀ config : Config,
      (V1.new config).checkInterval = (Monitor.new config).checkInterval := fun _ => rfl
  refine ⟨?_, ?_, ?_, ?_, ?_, ?_, ?_, ?_, ?_⟩
  · intro config v h hv
    rw [hH, Monitor.new_historySize, h]
    simp [hv]
  · intro config q h hq
    rw [hV, Monitor.new_volumeMultiplier, h]
    simp [JSNum.truthy, hq]
  · intro config v h hv
    rw [hC, Monitor.new_checkInterval, h]
    simp [hv]
  · intro config h
    rw [hH, Monitor.new_historySize, h]
    simp
  · intro config h
    rw [hV, Monitor.new_volumeMultiplier, h]
    simp
  · intro config h
    rw [hC, Monitor.new_checkInterval, h]
    simp
  · intro config h
    rw [hH, Monitor.new_historySize, h]
    simp
  · intro config h
    rw [hV, Monitor.new_volumeMultiplier, h]
    simp [JSNum.truthy, JSNum.ofNat_eq_fin]
  · intro config h
    rw [hC, Monitor.new_checkInterval, h]
    simp

/-- Witness for C20: a history size of 3 and a threshold of 2 are used as given. -/
theorem constructor_settings_witness :
    (Monitor.new (exampleConfig ["BTCUSDT"] 3 2)).historySize = 3 ∧
    (V1.new (exampleConfig ["BTCUSDT"] 3 2)).historySize = 3 :=
  constructor_settings.1 (exampleConfig ["BTCUSDT"] 3 2) 3 rfl (by decide)

theorem exists_rat_list (l : List JSNum) (h : ∀ v ∈ l, v.isNonNegReal = true) :
    ∃ qs : List ℚ, l = qs.map JSNum.fin ∧ ∀ q ∈ qs, 0 ≤ q := by
  induction l with
  | nil => exact ⟨[], rfl, fun _ hq => by cases hq⟩
  | cons v rest ih =>
      obtain ⟨qs, hqs, hnn⟩ := ih (fun x hx => h x (List.mem_cons_of_mem _ hx))
      have hv := h v (List.mem_cons_self _ _)
      cases v with
      | fin q =>
          have hq : 0 ≤ q := by simpa [JSNum.isNonNegReal] using hv
          refine ⟨q :: qs, by rw [hqs]; rfl, ?_⟩
          intro x hx
          rcases List.mem_cons.mp hx with rfl | hx
          · exact hq
          · exact hnn x hx
      | nan => simp [JSNum.isNonNegReal] at hv
      | negInf => simp [JSNum.isNonNegReal] at hv
      | posInf => simp [JSNum.isNonNegReal] at hv

theorem addVolumeToHistory_kept (m : Monitor) (s : String) (v : JSNum)
    (hsize : 1 ≤ m.historySize) :
    ∃ kept, (addVolumeToHistory m s v).volumeHistory s = some kept ∧ kept ≠ [] ∧
      kept.getLast? = some v ∧
      ∀ x ∈ kept, x = v ∨ x ∈ (m.volumeHistory s).getD [] := by
  have hex : (match m.volumeHistory s with
      | none => ([] : List JSNum)
      | some history => history) = (m.volumeHistory s).getD [] := by
    cases m.volumeHistory s <;> rfl
  unfold addVolumeToHistory
  simp only [hex, Function.update_same]
  generalize (m.volumeHistory s).getD [] = prior
  by_cases hgt : ((prior ++ [v]).length : Int) > m.historySize
  · rw [if_pos hgt]
    have hlen : 1 ≤ prior.length := by
      simp only [List.length_append, List.length_singleton] at hgt
      omega
    obtain ⟨p, ps, rfl⟩ : ∃ p ps, prior = p :: ps := by
      cases prior with
      | nil => simp at hlen
      | cons p ps => exact ⟨p, ps, rfl⟩
    refine ⟨_, rfl, by simp, by simp, ?_⟩
    intro x hx
    simp only [List.cons_append, List.tail_cons, List.mem_append, List.mem_singleton] at hx
    rcases hx with hx | hx
    · exact Or.inr (List.mem_cons_of_mem _ hx)
    · exact Or.inl hx
  · rw [if_neg hgt]
    refine ⟨_, rfl, by simp, by simp, ?_⟩
    intro x hx
    simp only [List.mem_append, List.mem_singleton] at hx
    rcases hx with hx | hx
    · exact Or.inr hx
    · exact Or.inl hx

theorem calculateAverageVolume_fin (m : Monitor) (s : String) (qs : List ℚ) (hne : qs ≠ [])
    (h : m.volumeHistory s = some (qs.map JSNum.fin)) :
    calculateAverageVolume m s = .ok (JSNum.fin (qs.sum / qs.length)) := by
  have hlen : qs.length ≠ 0 := fun h0 => hne (List.length_eq_zero.mp h0)
  have hq : ((qs.length : ℕ) : ℚ) ≠ 0 := by exact_mod_cast hlen
  simp only [calculateAverageVolume, h, List.length_map, hlen, if_false,
    JSNum.ofNat_eq_fin, Nat.cast_zero, JSNum.foldl_add_fin, zero_add]
  rw [JSNum.div_fin_fin _ _ hq]

theorem ratio_le_count (qs : List ℚ) (c : ℚ) (hnn : ∀ q ∈ qs, 0 ≤ q) (hc : c ∈ qs)
    (hpos : 0 < qs.sum / qs.length) : c / (qs.sum / qs.length) ≤ qs.length := by
  have hle : c ≤ qs.sum := List.single_le_sum hnn c hc
  have hlen : (0 : ℚ) ≤ qs.length := Nat.cast_nonneg _
  rw [div_le_iff₀ hpos]
  have hsum : 0 ≤ qs.sum := List.sum_nonneg hnn
  by_cases hl : (qs.length : ℚ) = 0
  · rw [hl, div_zero] at hpos
    exact absurd hpos (lt_irrefl _)
  · have hlpos : (0 : ℚ) < qs.length := lt_of_le_of_ne hlen (Ne.symm hl)
    rw [mul_div_assoc', mul_comm, mul_div_assoc, div_self hl, mul_one]
    exact hle

theorem checkSymbol_nonneg_run (m : Monitor) (symbol : String) (r : Responses)
    (report : CheckReport) (hsize : 1 ≤ m.historySize)
    (hprior : ∀ v ∈ (m.volumeHistory symbol).getD [], v.isNonNegReal = true)
    (hrun : (checkSymbol m symbol r).1 = .checked report)
    (hcur : report.currentVolume.isNonNegReal = true) :
    ∃ (qs : List ℚ) (c : ℚ), report.currentVolume = JSNum.fin c ∧ c ∈ qs ∧
      (∀ q ∈ qs, 0 ≤ q) ∧ qs ≠ [] ∧
      (checkSymbol m symbol r).2.volumeHistory symbol = some (qs.map JSNum.fin) ∧
      report.avgHistoricalVolume = JSNum.fin (qs.sum / qs.length) ∧
      report.verdict
        = anomalyTest (checkSymbol m symbol r).2 symbol (JSNum.fin c)
            (JSNum.fin (qs.sum / qs.length)) r.sendFails := by
  obtain ⟨hm, havg, hv⟩ := checkSymbol_checked hrun
  obtain ⟨kept, hkept, hne, hlast, hmem⟩ :=
    addVolumeToHistory_kept m symbol report.currentVolume hsize
  have hall : ∀ v ∈ kept, v.isNonNegReal = true := by
    intro v hvk
    rcases hmem v hvk with rfl | hp
    · exact hcur
    · exact hprior v hp
  obtain ⟨qs, hqs, hnn⟩ := exists_rat_list kept hall
  have hqne : qs ≠ [] := by
    intro h0; rw [h0] at hqs; exact hne hqs
  have hcmem : report.currentVolume ∈ kept := List.mem_of_getLast?_eq_some hlast
  rw [hqs] at hcmem
  obtain ⟨c, hcq, hc⟩ := List.mem_map.mp hcmem
  have hhist : (checkSymbol m symbol r).2.volumeHistory symbol = some (qs.map JSNum.fin) := by
    rw [hm, hkept, hqs]
  have havg' : report.avgHistoricalVolume = JSNum.fin (qs.sum / qs.length) := by
    rw [calculateAverageVolume_fin _ symbol qs hqne hhist] at havg
    exact (Except.ok.inj havg).symm
  refine ⟨qs, c, hc.symm, hcq, hnn, hqne, hhist, havg', ?_⟩
  rw [hv, havg', ← hc]

theorem anomalyTest_fin_pos (m1 : Monitor) (s : String) (c a : ℚ) (f : Bool) (ha : 0 < a) :
    (anomalyTest m1 s (JSNum.fin c) (JSNum.fin a) f).multiplier? = some (JSNum.fin (c / a)) ∧
    (anomalyTest m1 s (JSNum.fin c) (JSNum.fin a) f).isAnomaly
      = (JSNum.fin (c / a)).ge m1.volumeMultiplier := by
  have hgt : (JSNum.fin a).gt 0 = true := by
    simp [JSNum.gt, JSNum.ofNat_eq_fin, ha]
  unfold anomalyTest
  rw [if_pos hgt, JSNum.div_fin_fin _ _ (ne_of_gt ha)]
  by_cases hge : (JSNum.fin (c / a)).ge m1.volumeMultiplier = true
  · simp only [hge, if_true, Verdict.multiplier?, Verdict.isAnomaly, and_self]
  · simp only [hge, Bool.false_eq_true, if_false, Verdict.multiplier?, Verdict.isAnomaly,
      true_and]

theorem anomalyTest_fin_notPos (m1 : Monitor) (s : String) (c a : ℚ) (f : Bool) (ha : ¬ 0 < a) :
    anomalyTest m1 s (JSNum.fin c) (JSNum.fin a) f
      = .accumulating ((m1.volumeHistory s).getD []).length m1.historySize := by
  have hgt : ¬ (JSNum.fin a).gt 0 = true := by
    simp [JSNum.gt, JSNum.ofNat_eq_fin, ha]
  unfold anomalyTest
  rw [if_neg hgt]

theorem JSNum.fin_notGe_of_gt (q b : ℚ) (t : JSNum) (hq : q ≤ b)
    (ht : t.gt (JSNum.fin b) = true) : (JSNum.fin q).ge t = false := by
  cases t with
  | nan => simp [JSNum.gt] at ht
  | negInf => simp [JSNum.gt] at ht
  | posInf => rfl
  | fin x =>
      have hx : b < x := by simpa [JSNum.gt] using ht
      have : q < x := lt_of_le_of_lt hq hx
      simp [JSNum.ge, this]

theorem nonneg_run_bounds (m : Monitor) (symbol : String) (r : Responses)
    (report : CheckReport) (hsize : 1 ≤ m.historySize)
    (hprior : ∀ v ∈ (m.volumeHistory symbol).getD [], v.isNonNegReal = true)
    (hrun : (checkSymbol m symbol r).1 = .checked report)
    (hcur : report.currentVolume.isNonNegReal = true) :
    (∀ k, report.verdict.multiplier? = some k →
      ∃ q : ℚ, k = JSNum.fin q ∧ q ≤ historyLength (checkSymbol m symbol r).2 symbol) ∧
    (∀ b : ℚ, (historyLength (checkSymbol m symbol r).2 symbol : ℚ) ≤ b →
      m.volumeMultiplier.gt (JSNum.fin b) = true → report.verdict.isAnomaly = false) := by
  obtain ⟨qs, c, hc, hcq, hnn, hqne, hhist, havg, hv⟩ :=
    checkSymbol_nonneg_run m symbol r report hsize hprior hrun hcur
  have hlen : historyLength (checkSymbol m symbol r).2 symbol = qs.length := by
    simp [historyLength, hhist]
  have hmult : (checkSymbol m symbol r).2.volumeMultiplier = m.volumeMultiplier := by
    rw [(checkSymbol_checked hrun).1, addVolumeToHistory_volumeMultiplier]
  rw [hlen, hv]
  by_cases hpos : 0 < qs.sum / qs.length
  · obtain ⟨h1, h2⟩ := anomalyTest_fin_pos (checkSymbol m symbol r).2 symbol c
      (qs.sum / qs.length) r.sendFails hpos
    have hle := ratio_le_count qs c hnn hcq hpos
    constructor
    · intro k hk
      rw [h1] at hk
      exact ⟨_, (Option.some.inj hk).symm, hle⟩
    · intro b hb ht
      rw [h2, hmult]
      exact JSNum.fin_notGe_of_gt _ b _ (le_trans hle hb) ht
  · rw [anomalyTest_fin_notPos _ symbol c _ r.sendFails hpos]
    constructor
    · intro k hk
      simp [Verdict.multiplier?] at hk
    · intro b _ _
      rfl

/-- In exact arithmetic, for finite non-negative volumes (the stored ones and the current
one) and `historySize ≥ 1`, the quotient `checkSymbol` computes is at most the number of
samples in the history after the push; with the history within its bound before the call
that number is at most `historySize`, so no anomaly is reported when
`volumeMultiplier > historySize`, and none on a symbol's first sample when
`volumeMultiplier > 1`. -/
theorem exact_multiplier_bound (m : Monitor) (symbol : String) (r : Responses)
    (report : CheckReport) (hsize : 1 ≤ m.historySize)
    (hprior : ∀ v ∈ (m.volumeHistory symbol).getD [], v.isNonNegReal = true)
    (hrun : (checkSymbol m symbol r).1 = .checked report)
    (hcur : report.currentVolume.isNonNegReal = true) :
    (∀ k, report.verdict.multiplier? = some k →
      ∃ q : ℚ, k = JSNum.fin q ∧ q ≤ historyLength (checkSymbol m symbol r).2 symbol) ∧
    ((historyLength m symbol : Int) ≤ m.historySize →
      (historyLength (checkSymbol m symbol r).2 symbol : Int) ≤ m.historySize ∧
      (∀ k, report.verdict.multiplier? = some k →
        ∃ q : ℚ, k = JSNum.fin q ∧ q ≤ m.historySize) ∧
      (m.volumeMultiplier.gt (JSNum.fin m.historySize) = true →
        report.verdict.isAnomaly = false)) ∧
    (historyLength m symbol = 0 → m.volumeMultiplier.gt 1 = true →
      report.verdict.isAnomaly = false) := by
  obtain ⟨hk, hb⟩ := nonneg_run_bounds m symbol r report hsize hprior hrun hcur
  refine ⟨hk, ?_, ?_⟩
  · intro hinv
    have hlen : (historyLength (checkSymbol m symbol r).2 symbol : Int) ≤ m.historySize := by
      rw [(checkSymbol_checked hrun).1]
      exact historyLength_addVolumeToHistory_le m symbol symbol _ hsize hinv
    have hlenq : (historyLength (checkSymbol m symbol r).2 symbol : ℚ) ≤ m.historySize := by
      exact_mod_cast hlen
    refine ⟨hlen, ?_, hb _ hlenq⟩
    intro k hkk
    obtain ⟨q, hq, hle⟩ := hk k hkk
    exact ⟨q, hq, le_trans hle hlenq⟩
  · intro h0 ht
    have hempty : (m.volumeHistory symbol).getD [] = [] :=
      List.length_eq_zero.mp h0
    have hone : historyLength (checkSymbol m symbol r).2 symbol = 1 := by
      rw [(checkSymbol_checked hrun).1]
      simp [historyLength, addVolumeToHistory_empty m symbol _ hsize hempty]
    refine hb 1 (by rw [hone]; simp) ?_
    simpa [JSNum.ofNat_eq_fin] using ht

theorem mean_pos_iff (qs : List ℚ) (hnn : ∀ q ∈ qs, 0 ≤ q) (hne : qs ≠ []) :
    0 < qs.sum / qs.length ↔ ¬ ∀ q ∈ qs, q = 0 := by
  have hlen : (0 : ℚ) < qs.length := by
    have : qs.length ≠ 0 := fun h0 => hne (List.length_eq_zero.mp h0)
    exact_mod_cast Nat.pos_of_ne_zero this
  have hsum : 0 ≤ qs.sum := List.sum_nonneg hnn
  constructor
  · intro hpos hall
    have h0 : qs.sum = 0 := List.sum_eq_zero hall
    rw [h0, zero_div] at hpos
    exact lt_irrefl _ hpos
  · intro hnot
    have hs : qs.sum ≠ 0 := by
      intro h0
      exact hnot (fun q hq => List.all_zero_of_le_zero_le_of_sum_eq_zero hnn h0 hq)
    exact div_pos (lt_of_le_of_ne hsum (Ne.symm hs)) hlen

/-- In exact arithmetic, for finite non-negative volumes and `historySize ≥ 1`,
`checkSymbol` with data available takes the accumulation branch if and only if every value
in the history after the push is 0, and then the current volume is 0; whenever the current
volume is positive a multiplier is computed, however few samples the history holds. -/
theorem exact_accumulating_iff (m : Monitor) (symbol : String) (r : Responses)
    (report : CheckReport) (hsize : 1 ≤ m.historySize)
    (hprior : ∀ v ∈ (m.volumeHistory symbol).getD [], v.isNonNegReal = true)
    (hrun : (checkSymbol m symbol r).1 = .checked report)
    (hcur : report.currentVolume.isNonNegReal = true) :
    (report.verdict
        = .accumulating (historyLength (checkSymbol m symbol r).2 symbol) m.historySize ↔
      ∀ v ∈ ((checkSymbol m symbol r).2.volumeHistory symbol).getD [], v = 0) ∧
    (report.verdict.multiplier? = none ↔
      ∀ v ∈ ((checkSymbol m symbol r).2.volumeHistory symbol).getD [], v = 0) ∧
    ((∀ v ∈ ((checkSymbol m symbol r).2.volumeHistory symbol).getD [], v = 0) →
      report.currentVolume = 0) ∧
    (∀ c : ℚ, report.currentVolume = JSNum.fin c → 0 < c →
      ∃ k, report.verdict.multiplier? = some k) := by
  obtain ⟨qs, c, hc, hcq, hnn, hqne, hhist, havg, hv⟩ :=
    checkSymbol_nonneg_run m symbol r report hsize hprior hrun hcur
  have hsz : (checkSymbol m symbol r).2.historySize = m.historySize := by
    rw [(checkSymbol_checked hrun).1, addVolumeToHistory_historySize]
  have hzero : (∀ v ∈ ((checkSymbol m symbol r).2.volumeHistory symbol).getD [], v = 0)
      ↔ ∀ q ∈ qs, q = 0 := by
    rw [hhist, Option.getD_some]
    constructor
    · intro h q hq
      have := h (JSNum.fin q) (List.mem_map_of_mem _ hq)
      rw [JSNum.ofNat_eq_fin] at this
      simpa using JSNum.fin.inj this
    · intro h v hvm
      obtain ⟨q, hq, rfl⟩ := List.mem_map.mp hvm
      rw [h q hq, JSNum.ofNat_eq_fin]
      simp
  have hlen : historyLength (checkSymbol m symbol r).2 symbol
      = (((checkSymbol m symbol r).2.volumeHistory symbol).getD []).length := rfl
  by_cases hpos : 0 < qs.sum / qs.length
  · have hnz : ¬ ∀ q ∈ qs, q = 0 := (mean_pos_iff qs hnn hqne).mp hpos
    obtain ⟨h1, -⟩ := anomalyTest_fin_pos (checkSymbol m symbol r).2 symbol c
      (qs.sum / qs.length) r.sendFails hpos
    rw [← hv] at h1
    refine ⟨?_, ?_, ?_, ?_⟩
    · rw [hzero]
      constructor
      · intro hacc
        rw [hacc] at h1
        simp [Verdict.multiplier?] at h1
      · intro h; exact absurd h hnz
    · rw [hzero, h1]
      constructor
      · intro h; cases h
      · intro h; exact absurd h hnz
    · intro h; exact absurd (hzero.mp h) hnz
    · intro _ _ _
      exact ⟨_, h1⟩
  · have hz : ∀ q ∈ qs, q = 0 := by
      by_contra hnot
      exact hpos ((mean_pos_iff qs hnn hqne).mpr hnot)
    have hacc := anomalyTest_fin_notPos (checkSymbol m symbol r).2 symbol c
      (qs.sum / qs.length) r.sendFails hpos
    rw [← hv, hsz, ← hlen] at hacc
    refine ⟨?_, ?_, ?_, ?_⟩
    · exact ⟨fun _ => hzero.mpr hz, fun _ => hacc⟩
    · rw [hacc]
      exact ⟨fun _ => hzero.mpr hz, fun _ => rfl⟩
    · intro _
      rw [hc, hz c hcq, JSNum.ofNat_eq_fin]
      simp
    · intro c' hc' hpos'
      rw [hc] at hc'
      have : c = c' := JSNum.fin.inj hc'
      rw [← this, hz c hcq] at hpos'
      exact absurd hpos' (lt_irrefl _)

theorem Monitor.new_volumeHistory_absent (symbols : List String) (t : String) :
    ∀ init : String → Option (List JSNum), t ∉ symbols →
      (symbols.foldl (fun history symbol => Function.update history symbol (some [])) init) t
        = init t := by
  induction symbols with
  | nil => intro init _; rfl
  | cons s rest ih =>
      intro init hnot
      have hts : t ≠ s := fun e => hnot (by rw [e]; exact List.mem_cons_self _ _)
      have hrest : t ∉ rest := fun hmem => hnot (List.mem_cons_of_mem _ hmem)
      simp only [List.foldl_cons]
      rw [ih _ hrest, Function.update_noteq hts]

theorem calculateAverageVolume_nonempty (m : Monitor) (s : String) (kept : List JSNum)
    (h : m.volumeHistory s = some kept) (hne : kept ≠ []) :
    calculateAverageVolume m s
      = .ok (JSNum.div (kept.foldl JSNum.add 0) (JSNum.fin kept.length)) := by
  have hlen : kept.length ≠ 0 := fun h0 => hne (List.length_eq_zero.mp h0)
  simp [calculateAverageVolume, h, hlen]

theorem analyzeFuturesVolumes_ne_error (klines : FuturesKlines) (e : JSError) :
    analyzeFuturesVolumes klines ≠ .error e := by
  unfold analyzeFuturesVolumes
  cases klines with
  | null => intro h; cases h
  | data amount =>
      simp only
      split <;> intro h <;> cases h

theorem analyzeSpotVolumes_error (klines : SpotKlines) (e : JSError)
    (h : analyzeSpotVolumes klines = .error e) : klines = SpotKlines.notArray := by
  unfold analyzeSpotVolumes at h
  cases klines with
  | null => cases h
  | notArray => rfl
  | array candles =>
      simp only at h
      split at h <;> cases h

theorem checkSymbol_threw (m : Monitor) (symbol : String) (r : Responses) (e : JSError)
    (h : (checkSymbol m symbol r).1 = .threw e) :
    (checkSymbol m symbol r).2 = m ∧ getMarketType m symbol ≠ "futures" ∧
      r.spotKlines = SpotKlines.notArray := by
  unfold checkSymbol at h ⊢
  simp only at h ⊢
  generalize hA : (if getMarketType m symbol = "futures" then
    analyzeFuturesVolumes r.futuresKlines else analyzeSpotVolumes r.spotKlines) = A at h ⊢
  rcases A with e' | _ | a
  · refine ⟨rfl, ?_⟩
    by_cases hf : getMarketType m symbol = "futures"
    · rw [if_pos hf] at hA
      exact absurd hA (analyzeFuturesVolumes_ne_error _ _)
    · rw [if_neg hf] at hA
      exact ⟨hf, analyzeSpotVolumes_error _ _ hA⟩
  · cases h
  · simp only at h
    obtain ⟨avg, havg⟩ := calculateAverageVolume_addVolumeToHistory_ok m symbol a.currentVolume
    rw [havg] at h
    cases h

theorem analyzeRecentVolumes_eq_spot (klines : SpotKlines) :
    V1.analyzeRecentVolumes klines = analyzeSpotVolumes klines := by
  cases klines <;> rfl

theorem anomalyTest_v1_withoutDelivery (m1 : Monitor) (s : String) (c avg : JSNum) (f : Bool) :
    (V1.anomalyTest m1 s c avg f).withoutDelivery
      = (anomalyTest m1 s c avg f).withoutDelivery := by
  unfold V1.anomalyTest anomalyTest
  by_cases hpos : avg.gt 0 = true
  · by_cases hge : (JSNum.div c avg).ge m1.volumeMultiplier = true
    · simp only [hpos, hge, if_true, Verdict.withoutDelivery]
    · simp only [hpos, hge, if_true, Bool.false_eq_true, if_false, Verdict.withoutDelivery]
  · simp only [hpos, Bool.false_eq_true, if_false, Verdict.withoutDelivery]

theorem Verdict.alertData_withoutDelivery (v : Verdict) :
    v.withoutDelivery.alertData? = v.alertData? := by
  cases v <;> rfl

theorem CheckResult.alertData_sameWithoutDelivery (c : CheckResult) :
    c.withoutDelivery.alertData? = c.alertData? := by
  cases c with
  | checked report => exact Verdict.alertData_withoutDelivery report.verdict
  | threw e => rfl
  | noData => rfl

theorem checkSymbol_v1_agrees (m : Monitor) (symbol : String) (r : Responses) (q : Raw)
    (hspot : getMarketType m symbol ≠ "futures") (hticker : r.spotTicker = some q) :
    (V1.checkSymbol m symbol r).2 = (checkSymbol m symbol r).2 ∧
    (V1.checkSymbol m symbol r).1.withoutDelivery
      = (checkSymbol m symbol r).1.withoutDelivery := by
  unfold V1.checkSymbol checkSymbol
  simp only [hticker, hspot, if_false, analyzeRecentVolumes_eq_spot]
  generalize analyzeSpotVolumes r.spotKlines = A
  rcases A with e | _ | a
  · exact ⟨rfl, rfl⟩
  · exact ⟨rfl, rfl⟩
  · simp only
    generalize calculateAverageVolume (addVolumeToHistory m symbol a.currentVolume) symbol = avg
    rcases avg with e | avg
    · exact ⟨rfl, rfl⟩
    · refine ⟨rfl, ?_⟩
      simp only [CheckResult.withoutDelivery, CheckResult.checked.injEq, CheckReport.mk.injEq,
        true_and]
      exact anomalyTest_v1_withoutDelivery _ symbol _ _ _

/-- C24. The two monitors agree on spot symbols.  For every symbol that the second monitor
does not resolve to futures, every monitor state (history, threshold, history size) and
every candle answer, when the 24h ticker request succeeds `checkSymbol` of
`volume-monitor.js` and `checkSymbol` of `volume-monitor-v2.js` leave the same monitor,
end the same way apart from the text of a sent alert, take the anomaly branch in the same
cases and pass the same current volume, average and multiplier to the alert. -/
theorem monitors_agree_on_spot (m : Monitor) (symbol : String) (r : Responses) (q : Raw)
    (hspot : getMarketType m symbol ≠ "futures") (hticker : r.spotTicker = some q) :
    (V1.checkSymbol m symbol r).2 = (checkSymbol m symbol r).2 ∧
    historyOf (V1.checkSymbol m symbol r).2 symbol = historyOf (checkSymbol m symbol r).2 symbol ∧
    (V1.checkSymbol m symbol r).1.withoutDelivery
      = (checkSymbol m symbol r).1.withoutDelivery ∧
    (V1.checkSymbol m symbol r).1.isAnomaly = (checkSymbol m symbol r).1.isAnomaly ∧
    (V1.checkSymbol m symbol r).1.alertData? = (checkSymbol m symbol r).1.alertData? := by
  obtain ⟨h1, h2⟩ := checkSymbol_v1_agrees m symbol r q hspot hticker
  refine ⟨h1, by rw [h1], h2, ?_, ?_⟩
  · rw [← CheckResult.isAnomaly_sameWithoutDelivery, h2,
      CheckResult.isAnomaly_sameWithoutDelivery]
  · rw [← CheckResult.alertData_sameWithoutDelivery, h2,
      CheckResult.alertData_sameWithoutDelivery]

/-- Witness for C24: the spot symbol `BTCUSDT`, history `[100, 100]`, a ticker body and
candles ending in 500. -/
theorem monitors_agree_on_spot_witness :
    (V1.checkSymbol (monitorWith "BTCUSDT" [100, 100] 3 2) "BTCUSDT"
        { spotResponses ["100", "500"] with spotTicker := some (.str "12345.6") }).1.alertData?
      = (checkSymbol (monitorWith "BTCUSDT" [100, 100] 3 2) "BTCUSDT"
        { spotResponses ["100", "500"] with spotTicker := some (.str "12345.6") }).1.alertData? :=
  (monitors_agree_on_spot (monitorWith "BTCUSDT" [100, 100] 3 2) "BTCUSDT"
    { spotResponses ["100", "500"] with spotTicker := some (.str "12345.6") }
    (.str "12345.6") (by decide) rfl).2.2.2.2

theorem mean_bounds (qs : List ℚ) (hne : qs ≠ []) (lo hi : ℚ)
    (hlo : ∀ q ∈ qs, lo ≤ q) (hhi : ∀ q ∈ qs, q ≤ hi) :
    lo ≤ qs.sum / qs.length ∧ qs.sum / qs.length ≤ hi := by
  have hlen : (0 : ℚ) < qs.length := by
    have : qs.length ≠ 0 := fun h0 => hne (List.length_eq_zero.mp h0)
    exact_mod_cast Nat.pos_of_ne_zero this
  have h1 : qs.length • lo ≤ qs.sum := List.card_nsmul_le_sum qs lo hlo
  have h2 : qs.sum ≤ qs.length • hi := List.sum_le_card_nsmul qs hi hhi
  rw [nsmul_eq_mul] at h1 h2
  constructor
  · rw [le_div_iff₀ hlen, mul_comm]
    exact h1
  · rw [div_le_iff₀ hlen, mul_comm]
    exact h2

theorem exists_min_max (qs : List ℚ) (hne : qs ≠ []) :
    ∃ lo ∈ qs, ∃ hi ∈ qs, ∀ q ∈ qs, lo ≤ q ∧ q ≤ hi := by
  have hfin : qs.toFinset.Nonempty := by
    obtain ⟨x, hx⟩ := List.exists_mem_of_ne_nil qs hne
    exact ⟨x, List.mem_toFinset.mpr hx⟩
  refine ⟨qs.toFinset.min' hfin, List.mem_toFinset.mp (Finset.min'_mem _ hfin),
    qs.toFinset.max' hfin, List.mem_toFinset.mp (Finset.max'_mem _ hfin), ?_⟩
  intro q hq
  exact ⟨Finset.min'_le _ q (List.mem_toFinset.mpr hq),
    Finset.le_max' _ q (List.mem_toFinset.mpr hq)⟩

/-- In exact arithmetic, for every non-empty history of finite samples,
`calculateAverageVolume` returns a value between the minimum and the maximum of the stored
samples, inclusive (it is at least every lower bound and at most every upper bound of the
samples); it is non-negative when all samples are, and it is the common value when all
samples are equal. -/
theorem exact_mean_bounds (m : Monitor) (symbol : String) (qs : List ℚ)
    (hne : qs ≠ []) (h : m.volumeHistory symbol = some (qs.map JSNum.fin)) :
    ∃ a : ℚ, calculateAverageVolume m symbol = .ok (JSNum.fin a) ∧
      (∃ lo ∈ qs, ∃ hi ∈ qs, (∀ q ∈ qs, lo ≤ q ∧ q ≤ hi) ∧ lo ≤ a ∧ a ≤ hi) ∧
      (∀ lo hi : ℚ, (∀ q ∈ qs, lo ≤ q) → (∀ q ∈ qs, q ≤ hi) → lo ≤ a ∧ a ≤ hi) ∧
      ((∀ q ∈ qs, 0 ≤ q) → 0 ≤ a) ∧
      (∀ v : ℚ, (∀ q ∈ qs, q = v) → a = v) := by
  refine ⟨qs.sum / qs.length, calculateAverageVolume_fin m symbol qs hne h, ?_, ?_, ?_, ?_⟩
  · obtain ⟨lo, hlo, hi, hhi, hb⟩ := exists_min_max qs hne
    obtain ⟨h1, h2⟩ := mean_bounds qs hne lo hi (fun q hq => (hb q hq).1)
      (fun q hq => (hb q hq).2)
    exact ⟨lo, hlo, hi, hhi, hb, h1, h2⟩
  · intro lo hi hlo hhi
    exact mean_bounds qs hne lo hi hlo hhi
  · intro hnn
    obtain ⟨_, _, hi, _, hb⟩ := exists_min_max qs hne
    exact (mean_bounds qs hne 0 hi hnn (fun q hq => (hb q hq).2)).1
  · intro v hv
    obtain ⟨h1, h2⟩ := mean_bounds qs hne v v (fun q hq => (hv q hq).ge)
      (fun q hq => (hv q hq).le)
    exact le_antisymm h2 h1

theorem JSNum.sub_gt_zero_eq_false (a b : JSNum) (ha : a ≠ JSNum.nan) (hb : b ≠ JSNum.nan) :
    (JSNum.sub b a).gt 0 = false ↔ a.ge b = true := by
  cases a <;> cases b <;>
    simp [JSNum.sub, JSNum.gt, JSNum.ge, JSNum.ofNat_eq_fin] at ha hb ⊢

theorem JSNum.ge_total (a b : JSNum) (ha : a ≠ JSNum.nan) (hb : b ≠ JSNum.nan) :
    a.ge b = true ∨ b.ge a = true := by
  cases a <;> cases b <;> simp [JSNum.ge] at ha hb ⊢
  exact le_total _ _

theorem JSNum.ge_trans (a b c : JSNum) (hab : a.ge b = true) (hbc : b.ge c = true) :
    a.ge c = true := by
  cases a <;> cases b <;> cases c <;> simp [JSNum.ge] at hab hbc ⊢
  exact le_trans hbc hab

theorem JSNum.ne_nan_of_ge (a b : JSNum) (h : a.ge b = true) : a ≠ JSNum.nan := by
  intro ha
  rw [ha] at h
  cases b <;> simp [JSNum.ge] at h

theorem pairwise_orderedInsert {α : Type} (r : α → α → Prop) [DecidableRel r] (P : α → Prop)
    (htot : ∀ a b, P a → P b → r a b ∨ r b a)
    (htrans : ∀ a b c, P a → P b → P c → r a b → r b c → r a c) (a : α) (ha : P a) :
    ∀ l : List α, (∀ x ∈ l, P x) → l.Pairwise r → (l.orderedInsert r a).Pairwise r := by
  intro l
  induction l with
  | nil => intro _ _; simp
  | cons b l ih =>
      intro hP hpw
      have hb : P b := hP b (List.mem_cons_self _ _)
      have hl : ∀ x ∈ l, P x := fun x hx => hP x (List.mem_cons_of_mem _ hx)
      obtain ⟨hbl, hpl⟩ := List.pairwise_cons.mp hpw
      by_cases hab : r a b
      · rw [List.orderedInsert, if_pos hab]
        refine List.pairwise_cons.mpr ⟨?_, hpw⟩
        intro x hx
        rcases List.mem_cons.mp hx with rfl | hx
        · exact hab
        · exact htrans a b x ha hb (hl x hx) hab (hbl x hx)
      · rw [List.orderedInsert, if_neg hab]
        refine List.pairwise_cons.mpr ⟨?_, ih hl hpl⟩
        intro x hx
        rcases (List.mem_orderedInsert r).mp hx with rfl | hx
        · exact (htot x b ha hb).resolve_left hab
        · exact hbl x hx

theorem pairwise_insertionSort {α : Type} (r : α → α → Prop) [DecidableRel r] (P : α → Prop)
    (htot : ∀ a b, P a → P b → r a b ∨ r b a)
    (htrans : ∀ a b c, P a → P b → P c → r a b → r b c → r a c) :
    ∀ l : List α, (∀ x ∈ l, P x) → (l.insertionSort r).Pairwise r := by
  intro l
  induction l with
  | nil => intro _; simp
  | cons a l ih =>
      intro hP
      have ha : P a := hP a (List.mem_cons_self _ _)
      have hl : ∀ x ∈ l, P x := fun x hx => hP x (List.mem_cons_of_mem _ hx)
      rw [List.insertionSort]
      exact pairwise_orderedInsert r P htot htrans a ha _
        (fun x hx => hl x ((List.mem_insertionSort r).mp hx)) (ih hl)

theorem jsSort_descending {α : Type} (key : α → JSNum) (xs : List α)
    (hkey : ∀ x ∈ xs, key x ≠ JSNum.nan) :
    (jsSort (fun a b => JSNum.sub (key b) (key a)) xs).Pairwise
      (fun a b => (key a).ge (key b) = true) := by
  have hsorted := pairwise_insertionSort
    (fun a b => (JSNum.sub (key b) (key a)).gt 0 = false) (fun x => key x ≠ JSNum.nan)
    (by
      intro a b ha hb
      rcases JSNum.ge_total (key a) (key b) ha hb with h | h
      · exact Or.inl ((JSNum.sub_gt_zero_eq_false _ _ ha hb).mpr h)
      · exact Or.inr ((JSNum.sub_gt_zero_eq_false _ _ hb ha).mpr h))
    (by
      intro a b c ha hb hc hab hbc
      rw [JSNum.sub_gt_zero_eq_false _ _ ha hb] at hab
      rw [JSNum.sub_gt_zero_eq_false _ _ hb hc] at hbc
      exact (JSNum.sub_gt_zero_eq_false _ _ ha hc).mpr (JSNum.ge_trans _ _ _ hab hbc))
    xs hkey
  unfold jsSort
  refine List.Pairwise.imp_of_mem ?_ hsorted
  intro a b ha hb hab
  have ha' := hkey a ((List.mem_insertionSort _).mp ha)
  have hb' := hkey b ((List.mem_insertionSort _).mp hb)
  exact (JSNum.sub_gt_zero_eq_false _ _ ha' hb').mp hab

theorem jsSort_perm {α : Type} (compare : α → α → JSNum) (xs : List α) :
    (jsSort compare xs).Perm xs :=
  List.perm_insertionSort _ xs

theorem parseFloatOrZero_ne_nan (x : Raw) : parseFloatOrZero x ≠ JSNum.nan := by
  unfold parseFloatOrZero
  split
  · rename_i h
    intro hn
    rw [hn] at h
    simp [JSNum.truthy] at h
  · intro hn
    rw [JSNum.ofNat_eq_fin] at hn
    cases hn

theorem findLowCapContracts_candidates (tickers : List FuturesTickerRow)
    (minVolume maxVolume : JSNum) :
    ((tickers.filter (fun t => t.symbol.truthy && t.volume24.truthy)).map
        FuturesSymbolFinder.toContract).filter
      (fun t => t.volume24.ge minVolume && maxVolume.ge t.volume24)
    = (tickers.filter (FuturesSymbolFinder.qualifies minVolume maxVolume)).map
        FuturesSymbolFinder.toContract := by
  rw [List.filter_map, List.filter_filter]
  congr 1
  apply List.filter_congr
  intro t _
  simp only [FuturesSymbolFinder.qualifies, Function.comp, FuturesSymbolFinder.toContract]
  cases t.symbol.truthy <;> cases t.volume24.truthy <;> simp

theorem findLowCapContracts_returned (tickers : List FuturesTickerRow)
    (minVolume maxVolume : JSNum) :
    (FuturesSymbolFinder.findLowCapContracts tickers (some minVolume) (some maxVolume)).returned
      = jsSort (fun a b => JSNum.sub b.volume24 a.volume24)
          ((tickers.filter (FuturesSymbolFinder.qualifies minVolume maxVolume)).map
            FuturesSymbolFinder.toContract) := by
  rw [← findLowCapContracts_candidates]
  rfl

/-- C26. For every ticker list and all bounds, the list `findLowCapContracts` returns holds
exactly the tickers that have a symbol and a truthy `volume24` and whose parsed `volume24`
lies in `[minVolume, maxVolume]`, each once and none dropped, in non-increasing order of
`volume24`; every returned entry satisfies `minVolume <= volume24 <= maxVolume`; and the
cap of 30 rows applies to the printed rows only: 31 qualifying tickers give 31 returned
entries and 30 printed rows. -/
theorem findLowCapContracts_exact :
    (∀ (tickers : List FuturesTickerRow) (minVolume maxVolume : JSNum),
      ((FuturesSymbolFinder.findLowCapContracts tickers (some minVolume)
          (some maxVolume)).returned.Perm
        ((tickers.filter (FuturesSymbolFinder.qualifies minVolume maxVolume)).map
          FuturesSymbolFinder.toContract)) ∧
      (FuturesSymbolFinder.findLowCapContracts tickers (some minVolume)
          (some maxVolume)).returned.Pairwise (fun a b => a.volume24.ge b.volume24 = true) ∧
      (∀ c ∈ (FuturesSymbolFinder.findLowCapContracts tickers (some minVolume)
          (some maxVolume)).returned,
        c.volume24.ge minVolume = true ∧ maxVolume.ge c.volume24 = true) ∧
      (∀ t ∈ tickers, FuturesSymbolFinder.qualifies minVolume maxVolume t = true →
        FuturesSymbolFinder.toContract t ∈
          (FuturesSymbolFinder.findLowCapContracts tickers (some minVolume)
            (some maxVolume)).returned) ∧
      (FuturesSymbolFinder.findLowCapContracts tickers (some minVolume)
          (some maxVolume)).returned.length
        = (tickers.filter (FuturesSymbolFinder.qualifies minVolume maxVolume)).length ∧
      (FuturesSymbolFinder.findLowCapContracts tickers (some minVolume)
          (some maxVolume)).printedRows
        = (FuturesSymbolFinder.findLowCapContracts tickers (some minVolume)
            (some maxVolume)).returned.take 30) ∧
    (FuturesSymbolFinder.findLowCapContracts
        (List.replicate 31 (tickerRow "AAA_USDT" "200000")) none none).returned.length = 31 ∧
    (FuturesSymbolFinder.findLowCapContracts
        (List.replicate 31 (tickerRow "AAA_USDT" "200000")) none none).printedRows.length
      = 30 := by
  refine ⟨?_, by decide!, by decide!⟩
  intro tickers minVolume maxVolume
  have hret := findLowCapContracts_returned tickers minVolume maxVolume
  have hperm := jsSort_perm (fun a b : Contract => JSNum.sub b.volume24 a.volume24)
    ((tickers.filter (FuturesSymbolFinder.qualifies minVolume maxVolume)).map
      FuturesSymbolFinder.toContract)
  have hmem : ∀ c, c ∈ (FuturesSymbolFinder.findLowCapContracts tickers (some minVolume)
      (some maxVolume)).returned ↔
      ∃ t ∈ tickers, FuturesSymbolFinder.qualifies minVolume maxVolume t = true ∧
        FuturesSymbolFinder.toContract t = c := by
    intro c
    rw [hret, hperm.mem_iff, List.mem_map]
    constructor
    · rintro ⟨t, ht, rfl⟩
      obtain ⟨h1, h2⟩ := List.mem_filter.mp ht
      exact ⟨t, h1, h2, rfl⟩
    · rintro ⟨t, h1, h2, rfl⟩
      exact ⟨t, List.mem_filter.mpr ⟨h1, h2⟩, rfl⟩
  refine ⟨by rw [hret]; exact hperm, ?_, ?_, ?_, ?_, rfl⟩
  · rw [hret]
    apply jsSort_descending (fun c : Contract => c.volume24)
    intro c hc
    obtain ⟨t, -, rfl⟩ := List.mem_map.mp hc
    exact parseFloatOrZero_ne_nan _
  · intro c hc
    obtain ⟨t, -, hq, rfl⟩ := (hmem c).mp hc
    simp only [FuturesSymbolFinder.qualifies, Bool.and_eq_true] at hq
    exact hq.2
  · intro t ht hq
    exact (hmem _).mpr ⟨t, ht, hq, rfl⟩
  · rw [hret, hperm.length_eq, List.length_map]

/-- Witness for C26: the row of `DDD_USDT` qualifies for the default bounds and is
returned. -/
theorem findLowCapContracts_exact_witness :
    FuturesSymbolFinder.toContract (tickerRow "DDD_USDT" "900000") ∈
      (FuturesSymbolFinder.findLowCapContracts exampleTickers (some 100000)
        (some 1000000)).returned :=
  (findLowCapContracts_exact.1 exampleTickers 100000 1000000).2.2.2.1
    (tickerRow "DDD_USDT" "900000") (by decide) (by decide!)

theorem pow2_pos (e : Int) : 0 < pow2 e := by
  unfold pow2
  split
  · exact_mod_cast Nat.pos_pow_of_pos _ (by decide)
  · apply div_pos one_pos
    exact_mod_cast Nat.pos_pow_of_pos _ (by decide)

theorem roundToDouble_zero : roundToDouble 0 = JSNum.fin 0 := by
  simp [roundToDouble]

theorem roundToDouble_one : roundToDouble 1 = JSNum.fin 1 := by decide!

theorem roundToDouble_ge_zero (q : ℚ) (h : 0 ≤ q) : (roundToDouble q).ge 0 = true := by
  unfold roundToDouble
  by_cases h0 : q = 0
  · simp [h0, JSNum.ge, JSNum.ofNat_eq_fin]
  · have hpos : 0 < q := lt_of_le_of_ne h (Ne.symm h0)
    simp only [h0, if_false, hpos, if_true]
    split
    · rfl
    · have hq := pow2_pos (max (floorLog2 q) (-1022) - 52)
      have hr : (0 : ℚ) ≤ (roundHalfEven (q / pow2 (max (floorLog2 q) (-1022) - 52)) : ℚ)
          * pow2 (max (floorLog2 q) (-1022) - 52) :=
        mul_nonneg (Nat.cast_nonneg _) (le_of_lt hq)
      simp [JSNum.ge, JSNum.ofNat_eq_fin, hr]

theorem ieee_add_fin (a b : ℚ) :
    IEEE.add (JSNum.fin a) (JSNum.fin b) = roundToDouble (a + b) := rfl

theorem ieee_div_fin (a b : ℚ) (hb : b ≠ 0) :
    IEEE.div (JSNum.fin a) (JSNum.fin b) = roundToDouble (a / b) := by
  unfold IEEE.div
  rw [JSNum.div_fin_fin a b hb]
  rfl

theorem ieee_add_nonneg (a b : JSNum) (ha : a.ge 0 = true) (hb : b.ge 0 = true) :
    (IEEE.add a b).ge 0 = true := by
  cases a with
  | nan => simp [JSNum.ge] at ha
  | negInf => simp [JSNum.ge, JSNum.ofNat_eq_fin] at ha
  | posInf =>
      cases b with
      | nan => simp [JSNum.ge] at hb
      | negInf => simp [JSNum.ge, JSNum.ofNat_eq_fin] at hb
      | posInf => rfl
      | fin y => rfl
  | fin x =>
      cases b with
      | nan => simp [JSNum.ge] at hb
      | negInf => simp [JSNum.ge, JSNum.ofNat_eq_fin] at hb
      | posInf => rfl
      | fin y =>
          have hx : 0 ≤ x := by simpa [JSNum.ge, JSNum.ofNat_eq_fin] using ha
          have hy : 0 ≤ y := by simpa [JSNum.ge, JSNum.ofNat_eq_fin] using hb
          rw [ieee_add_fin]
          exact roundToDouble_ge_zero _ (add_nonneg hx hy)

theorem ieee_div_count_nonneg (a : JSNum) (n : ℕ) (hn : n ≠ 0) (ha : a.ge 0 = true) :
    (IEEE.div a (JSNum.fin n)).ge 0 = true := by
  have hq : ((n : ℕ) : ℚ) ≠ 0 := by exact_mod_cast hn
  cases a with
  | nan => simp [JSNum.ge] at ha
  | negInf => simp [JSNum.ge, JSNum.ofNat_eq_fin] at ha
  | posInf =>
      have : (0 : ℚ) ≤ n := Nat.cast_nonneg _
      simp [IEEE.div, JSNum.div, this, JSNum.toDouble, JSNum.ge]
  | fin x =>
      have hx : 0 ≤ x := by simpa [JSNum.ge, JSNum.ofNat_eq_fin] using ha
      rw [ieee_div_fin _ _ hq]
      exact roundToDouble_ge_zero _ (div_nonneg hx (Nat.cast_nonneg _))

theorem ieee_foldl_nonneg (l : List JSNum) (h : ∀ v ∈ l, v.ge 0 = true) :
    ∀ acc : JSNum, acc.ge 0 = true →
      (l.foldl (fun acc val => IEEE.add acc val) acc).ge 0 = true := by
  induction l with
  | nil => intro acc hacc; exact hacc
  | cons v rest ih =>
      intro acc hacc
      simp only [List.foldl_cons]
      exact ih (fun x hx => h x (List.mem_cons_of_mem _ hx)) _
        (ieee_add_nonneg acc v hacc (h v (List.mem_cons_self _ _)))

theorem ieee_foldl_zero (l : List JSNum) (h : ∀ v ∈ l, v = 0) :
    l.foldl (fun acc val => IEEE.add acc val) 0 = 0 := by
  induction l with
  | nil => rfl
  | cons v rest ih =>
      simp only [List.foldl_cons]
      rw [h v (List.mem_cons_self _ _)]
      have : IEEE.add 0 0 = 0 := by
        rw [JSNum.ofNat_eq_fin, ieee_add_fin]
        simp [roundToDouble_zero]
      rw [this]
      exact ih (fun x hx => h x (List.mem_cons_of_mem _ hx))

theorem ieee_calculateAverageVolume_nonempty (m : Monitor) (s : String) (kept : List JSNum)
    (h : m.volumeHistory s = some kept) (hne : kept ≠ []) :
    IEEE.calculateAverageVolume m s
      = .ok (IEEE.div (kept.foldl (fun acc val => IEEE.add acc val) 0)
          (JSNum.fin kept.length)) := by
  have hlen : kept.length ≠ 0 := fun h0 => hne (List.length_eq_zero.mp h0)
  simp [IEEE.calculateAverageVolume, h, hlen]

theorem checkSymbol_ieee_checked_of_eq {m m' : Monitor} {symbol : String} {r : Responses}
    {report : CheckReport} (hrun : IEEE.checkSymbol m symbol r = (.checked report, m')) :
    m' = addVolumeToHistory m symbol report.currentVolume ∧
    IEEE.calculateAverageVolume m' symbol = .ok report.avgHistoricalVolume ∧
    report.verdict
      = IEEE.anomalyTest m' symbol report.currentVolume report.avgHistoricalVolume
          r.sendFails := by
  unfold IEEE.checkSymbol at hrun
  simp only at hrun
  split at hrun
  · cases hrun
  · cases hrun
  · split at hrun
    · cases hrun
    · rename_i avg havg
      simp only [Prod.mk.injEq, CheckResult.checked.injEq] at hrun
      obtain ⟨hrep, hm⟩ := hrun
      subst hrep
      subst hm
      exact ⟨rfl, havg, rfl⟩

theorem checkSymbol_ieee_checked {m : Monitor} {symbol : String} {r : Responses}
    {report : CheckReport} (hrun : (IEEE.checkSymbol m symbol r).1 = .checked report) :
    (IEEE.checkSymbol m symbol r).2 = addVolumeToHistory m symbol report.currentVolume ∧
    IEEE.calculateAverageVolume (IEEE.checkSymbol m symbol r).2 symbol
      = .ok report.avgHistoricalVolume ∧
    report.verdict
      = IEEE.anomalyTest (IEEE.checkSymbol m symbol r).2 symbol report.currentVolume
          report.avgHistoricalVolume r.sendFails :=
  checkSymbol_ieee_checked_of_eq (Prod.ext hrun rfl)

theorem anomalyTest_ieee_notPos (m1 : Monitor) (s : String) (c avg : JSNum) (f : Bool)
    (h : avg.gt 0 = false) :
    IEEE.anomalyTest m1 s c avg f
      = .accumulating ((m1.volumeHistory s).getD []).length m1.historySize := by
  unfold IEEE.anomalyTest
  simp only [h, Bool.false_eq_true, if_false]

theorem anomalyTest_ieee_one (m1 : Monitor) (s : String) (c : ℚ) (f : Bool) (hc : 0 < c)
    (ht : m1.volumeMultiplier.gt 1 = true) :
    IEEE.anomalyTest m1 s (JSNum.fin c) (JSNum.fin c) f = .normal 1 := by
  have hgt : (JSNum.fin c).gt 0 = true := by
    simp [JSNum.gt, JSNum.ofNat_eq_fin, hc]
  have hdiv : IEEE.div (JSNum.fin c) (JSNum.fin c) = 1 := by
    rw [ieee_div_fin _ _ (ne_of_gt hc), div_self (ne_of_gt hc), roundToDouble_one]
    rfl
  have hge : (1 : JSNum).ge m1.volumeMultiplier = false :=
    JSNum.not_ge_of_gt_one 1 _ (Or.inl rfl) ht
  unfold IEEE.anomalyTest
  simp only [hgt, if_true, hdiv, hge, Bool.false_eq_true, if_false]

theorem ieee_average_single (m : Monitor) (s : String) (c : ℚ)
    (h : m.volumeHistory s = some [JSNum.fin c]) (hc : roundToDouble c = JSNum.fin c) :
    IEEE.calculateAverageVolume m s = .ok (JSNum.fin c) := by
  rw [ieee_calculateAverageVolume_nonempty m s _ h (by simp)]
  simp only [List.foldl_cons, List.foldl_nil, List.length_singleton, Nat.cast_one,
    JSNum.ofNat_eq_fin, Nat.cast_zero, ieee_add_fin, zero_add, hc]
  rw [ieee_div_fin _ _ one_ne_zero, div_one, hc]

theorem anomalyTest_ieee_self (m1 : Monitor) (s : String) (c : ℚ) (f : Bool) (hc : 0 < c) :
    (IEEE.anomalyTest m1 s (JSNum.fin c) (JSNum.fin c) f).multiplier? = some 1 := by
  have hgt : (JSNum.fin c).gt 0 = true := by
    simp [JSNum.gt, JSNum.ofNat_eq_fin, hc]
  have hdiv : IEEE.div (JSNum.fin c) (JSNum.fin c) = 1 := by
    rw [ieee_div_fin _ _ (ne_of_gt hc), div_self (ne_of_gt hc), roundToDouble_one]
    rfl
  unfold IEEE.anomalyTest
  by_cases hge : (1 : JSNum).ge m1.volumeMultiplier = true
  · simp only [hgt, if_true, hdiv, hge, Verdict.multiplier?]
  · simp only [hgt, if_true, hdiv, hge, Bool.false_eq_true, if_false, Verdict.multiplier?]

theorem checkSymbol_ieee_first_sample (m : Monitor) (symbol : String) (r : Responses)
    (report : CheckReport) (c : ℚ) (hsize : 1 ≤ m.historySize)
    (hfirst : historyLength m symbol = 0)
    (hrun : (IEEE.checkSymbol m symbol r).1 = .checked report)
    (hcur : report.currentVolume = JSNum.fin c)
    (hdouble : roundToDouble c = JSNum.fin c) :
    (IEEE.checkSymbol m symbol r).2.volumeHistory symbol = some [JSNum.fin c] ∧
    report.avgHistoricalVolume = JSNum.fin c ∧
    (0 < c → report.verdict.multiplier? = some 1) ∧
    (m.volumeMultiplier.gt 1 = true → report.verdict.isAnomaly = false) := by
  obtain ⟨hm, havg, hv⟩ := checkSymbol_ieee_checked hrun
  have hempty : (m.volumeHistory symbol).getD [] = [] := List.length_eq_zero.mp hfirst
  have hhist : (IEEE.checkSymbol m symbol r).2.volumeHistory symbol = some [JSNum.fin c] := by
    rw [hm, hcur]
    exact addVolumeToHistory_empty m symbol _ hsize hempty
  have hmult : (IEEE.checkSymbol m symbol r).2.volumeMultiplier = m.volumeMultiplier := by
    rw [hm, addVolumeToHistory_volumeMultiplier]
  have havg' : report.avgHistoricalVolume = JSNum.fin c := by
    rw [ieee_average_single _ symbol c hhist hdouble] at havg
    exact (Except.ok.inj havg).symm
  rw [hcur, havg'] at hv
  refine ⟨hhist, havg', ?_, ?_⟩
  · intro hpos
    rw [hv]
    exact anomalyTest_ieee_self _ symbol c r.sendFails hpos
  · intro ht
    rw [hv]
    by_cases hpos : 0 < c
    · rw [anomalyTest_ieee_one _ symbol c r.sendFails hpos (by rw [hmult]; exact ht)]
      rfl
    · have hgt : (JSNum.fin c).gt 0 = false := by
        simp [JSNum.gt, JSNum.ofNat_eq_fin, hpos]
      rw [anomalyTest_ieee_notPos _ symbol _ _ r.sendFails hgt]
      rfl

theorem checkSymbol_ieee_all_zero (m : Monitor) (symbol : String) (r : Responses)
    (report : CheckReport) (hsize : 1 ≤ m.historySize)
    (hrun : (IEEE.checkSymbol m symbol r).1 = .checked report)
    (hzero : ∀ v ∈ ((IEEE.checkSymbol m symbol r).2.volumeHistory symbol).getD [], v = 0) :
    report.verdict
      = .accumulating (historyLength (IEEE.checkSymbol m symbol r).2 symbol) m.historySize ∧
    report.verdict.multiplier? = none ∧
    report.currentVolume = 0 ∧
    report.avgHistoricalVolume = 0 := by
  obtain ⟨hm, havg, hv⟩ := checkSymbol_ieee_checked hrun
  obtain ⟨kept, hkept, hne, hlast, -⟩ :=
    addVolumeToHistory_kept m symbol report.currentVolume hsize
  have hhist : (IEEE.checkSymbol m symbol r).2.volumeHistory symbol = some kept := by
    rw [hm, hkept]
  have hsz : (IEEE.checkSymbol m symbol r).2.historySize = m.historySize := by
    rw [hm, addVolumeToHistory_historySize]
  rw [hhist, Option.getD_some] at hzero
  have hcur : report.currentVolume = 0 := hzero _ (List.mem_of_getLast?_eq_some hlast)
  have hlen : kept.length ≠ 0 := fun h0 => hne (List.length_eq_zero.mp h0)
  have hq : ((kept.length : ℕ) : ℚ) ≠ 0 := by exact_mod_cast hlen
  have havg' : report.avgHistoricalVolume = 0 := by
    rw [ieee_calculateAverageVolume_nonempty _ symbol kept hhist hne,
      ieee_foldl_zero kept hzero, JSNum.ofNat_eq_fin, ieee_div_fin _ _ hq] at havg
    simp only [Nat.cast_zero, zero_div, roundToDouble_zero] at havg
    rw [← Except.ok.inj havg]
    rfl
  have hacc : report.verdict
      = .accumulating (historyLength (IEEE.checkSymbol m symbol r).2 symbol) m.historySize := by
    rw [hv, havg', anomalyTest_ieee_notPos _ symbol _ _ r.sendFails (by decide!), hsz]
    rfl
  refine ⟨hacc, ?_, hcur, havg'⟩
  rw [hacc]
  rfl

theorem addVolumeToHistory_prototype_ok (m : Monitor) (s : String) (v : JSNum)
    (h : m.volumeHistory s ≠ none ∨ s ∉ objectPrototypeMembers) :
    Prototype.addVolumeToHistory m s v = .ok (addVolumeToHistory m s v) := by
  unfold Prototype.addVolumeToHistory Prototype.lookup
  cases hh : m.volumeHistory s with
  | some history => rfl
  | none =>
      rcases h with h | h
      · exact absurd hh h
      · simp only [h, if_false]

theorem addVolumeToHistory_prototype_error (m : Monitor) (s : String) (v : JSNum)
    (hnone : m.volumeHistory s = none) (hmem : s ∈ objectPrototypeMembers) :
    Prototype.addVolumeToHistory m s v = .error .typeError := by
  unfold Prototype.addVolumeToHistory Prototype.lookup
  simp only [hnone, hmem, if_true]

theorem addVolumeToHistory_prototype_cases (m : Monitor) (s : String) (v : JSNum) :
    (Prototype.addVolumeToHistory m s v = .ok (addVolumeToHistory m s v) ∧
      (m.volumeHistory s ≠ none ∨ s ∉ objectPrototypeMembers)) ∨
    (Prototype.addVolumeToHistory m s v = .error .typeError ∧
      m.volumeHistory s = none ∧ s ∈ objectPrototypeMembers) := by
  by_cases h : m.volumeHistory s ≠ none ∨ s ∉ objectPrototypeMembers
  · exact Or.inl ⟨addVolumeToHistory_prototype_ok m s v h, h⟩
  · have h1 : m.volumeHistory s = none := by
      by_contra hc
      exact h (Or.inl hc)
    have h2 : s ∈ objectPrototypeMembers := by
      by_contra hc
      exact h (Or.inr hc)
    exact Or.inr ⟨addVolumeToHistory_prototype_error m s v h1 h2, h1, h2⟩

theorem checkSymbol_prototype_checked (m : Monitor) (symbol : String) (r : Responses)
    (report : CheckReport) (hrun : (Prototype.checkSymbol m symbol r).1 = .checked report) :
    (m.volumeHistory symbol ≠ none ∨ symbol ∉ objectPrototypeMembers) ∧
    Prototype.addVolumeToHistory m symbol report.currentVolume
      = .ok (Prototype.checkSymbol m symbol r).2 ∧
    (Prototype.checkSymbol m symbol r).2 = addVolumeToHistory m symbol report.currentVolume ∧
    calculateAverageVolume (Prototype.checkSymbol m symbol r).2 symbol
      = .ok report.avgHistoricalVolume := by
  unfold Prototype.checkSymbol at hrun ⊢
  simp only at hrun ⊢
  generalize (if Prototype.getMarketType m symbol = MarketTypeValue.text "futures" then
    analyzeFuturesVolumes r.futuresKlines else analyzeSpotVolumes r.spotKlines) = A at hrun ⊢
  rcases A with e | _ | a
  · cases hrun
  · cases hrun
  · simp only at hrun ⊢
    rcases addVolumeToHistory_prototype_cases m symbol a.currentVolume with ⟨hok, hcase⟩ |
      ⟨herr, -, -⟩
    · rw [hok] at hrun ⊢
      simp only at hrun ⊢
      obtain ⟨avg, havg⟩ :=
        calculateAverageVolume_addVolumeToHistory_ok m symbol a.currentVolume
      rw [havg] at hrun ⊢
      simp only [CheckResult.checked.injEq] at hrun
      subst hrun
      exact ⟨hcase, hok, rfl, havg⟩
    · rw [herr] at hrun
      cases hrun

theorem checkSymbol_prototype_threw (m : Monitor) (symbol : String) (r : Responses)
    (e : JSError) (h : (Prototype.checkSymbol m symbol r).1 = .threw e) :
    (Prototype.checkSymbol m symbol r).2 = m ∧
    ((Prototype.getMarketType m symbol ≠ .text "futures" ∧
        r.spotKlines = SpotKlines.notArray) ∨
      (m.volumeHistory symbol = none ∧ symbol ∈ objectPrototypeMembers)) := by
  unfold Prototype.checkSymbol at h ⊢
  simp only at h ⊢
  generalize hA : (if Prototype.getMarketType m symbol = MarketTypeValue.text "futures" then
    analyzeFuturesVolumes r.futuresKlines else analyzeSpotVolumes r.spotKlines) = A at h ⊢
  rcases A with e' | _ | a
  · refine ⟨rfl, Or.inl ?_⟩
    by_cases hf : Prototype.getMarketType m symbol = MarketTypeValue.text "futures"
    · rw [if_pos hf] at hA
      exact absurd hA (analyzeFuturesVolumes_ne_error _ _)
    · rw [if_neg hf] at hA
      exact ⟨hf, analyzeSpotVolumes_error _ _ hA⟩
  · cases h
  · simp only at h ⊢
    rcases addVolumeToHistory_prototype_cases m symbol a.currentVolume with ⟨hok, -⟩ |
      ⟨herr, hnone, hmem⟩
    · rw [hok] at h
      simp only at h
      obtain ⟨avg, havg⟩ :=
        calculateAverageVolume_addVolumeToHistory_ok m symbol a.currentVolume
      rw [havg] at h
      cases h
    · rw [herr]
      exact ⟨rfl, Or.inr ⟨hnone, hmem⟩⟩

/-- C23 as the code has it.  Inside `checkSymbol` the average is taken over an existing,
non-empty history.  A symbol that is not configured has no history of its own, and the
lookup finds an inherited member or nothing.  For every symbol that has a history of its
own or whose name is not that of a member inherited from `Object.prototype`, and every
`historySize ≥ 1`, `addVolumeToHistory` leaves a history for the symbol that is not empty
and ends with the pushed volume, and `calculateAverageVolume` then returns the sum divided
by the count.  For a symbol without a history of its own whose name is inherited,
`addVolumeToHistory` throws a `TypeError` at `push`.  Whenever `checkSymbol` reaches its
report the symbol is of the first kind and the average was taken over such a history; an
exception that leaves `checkSymbol` comes from the candle analysis or from that `push`,
never from `calculateAverageVolume`, and the monitor is unchanged. -/
theorem average_over_own_history :
    (∀ (config : Config) (symbol : String), symbol ∉ (Monitor.new config).symbols →
      (Monitor.new config).volumeHistory symbol = none ∧
      Prototype.lookup (Monitor.new config) symbol
        = if symbol ∈ objectPrototypeMembers then .inherited else .undefined) ∧
    (∀ (m : Monitor) (symbol : String) (volume : JSNum), 1 ≤ m.historySize →
      (m.volumeHistory symbol ≠ none ∨ symbol ∉ objectPrototypeMembers) →
      ∃ m1 kept, Prototype.addVolumeToHistory m symbol volume = .ok m1 ∧
        m1.volumeHistory symbol = some kept ∧ kept ≠ [] ∧ kept.getLast? = some volume ∧
        calculateAverageVolume m1 symbol
          = .ok (JSNum.div (kept.foldl JSNum.add 0) (JSNum.fin kept.length))) ∧
    (∀ (m : Monitor) (symbol : String) (volume : JSNum),
      m.volumeHistory symbol = none → symbol ∈ objectPrototypeMembers →
      Prototype.addVolumeToHistory m symbol volume = .error .typeError) ∧
    (∀ (m : Monitor) (symbol : String) (r : Responses) (report : CheckReport),
      1 ≤ m.historySize → (Prototype.checkSymbol m symbol r).1 = .checked report →
      (m.volumeHistory symbol ≠ none ∨ symbol ∉ objectPrototypeMembers) ∧
      ∃ kept, (Prototype.checkSymbol m symbol r).2.volumeHistory symbol = some kept ∧
        kept ≠ [] ∧ kept.getLast? = some report.currentVolume ∧
        report.avgHistoricalVolume
          = JSNum.div (kept.foldl JSNum.add 0) (JSNum.fin kept.length)) ∧
    (∀ (m : Monitor) (symbol : String) (r : Responses) (e : JSError),
      (Prototype.checkSymbol m symbol r).1 = .threw e →
      (Prototype.checkSymbol m symbol r).2 = m ∧
      ((Prototype.getMarketType m symbol ≠ .text "futures" ∧
          r.spotKlines = SpotKlines.notArray) ∨
        (m.volumeHistory symbol = none ∧ symbol ∈ objectPrototypeMembers))) := by
  refine ⟨?_, ?_, addVolumeToHistory_prototype_error, ?_, checkSymbol_prototype_threw⟩
  · intro config symbol hnot
    have hnone : (Monitor.new config).volumeHistory symbol = none :=
      Monitor.new_volumeHistory_absent _ symbol _ hnot
    refine ⟨hnone, ?_⟩
    unfold Prototype.lookup
    rw [hnone]
  · intro m symbol volume hsize hown
    obtain ⟨kept, hkept, hne, hlast, -⟩ := addVolumeToHistory_kept m symbol volume hsize
    exact ⟨_, kept, addVolumeToHistory_prototype_ok m symbol volume hown, hkept, hne, hlast,
      calculateAverageVolume_nonempty _ symbol kept hkept hne⟩
  · intro m symbol r report hsize hrun
    obtain ⟨hown, -, hm, havg⟩ := checkSymbol_prototype_checked m symbol r report hrun
    obtain ⟨kept, hkept, hne, hlast, -⟩ :=
      addVolumeToHistory_kept m symbol report.currentVolume hsize
    have hhist : (Prototype.checkSymbol m symbol r).2.volumeHistory symbol = some kept := by
      rw [hm, hkept]
    rw [calculateAverageVolume_nonempty _ symbol kept hhist hne] at havg
    exact ⟨hown, kept, hhist, hne, hlast, (Except.ok.inj havg).symm⟩

/-- Witness for C23 as the code has it: `DOGEUSDT` is not configured, has no history before the
call, and has the history `[500]` when the average is taken; `toString` has no history either
and its push throws. -/
theorem average_over_own_history_witness :
    (Monitor.new (exampleConfig ["BTCUSDT"] 24 2)).volumeHistory "DOGEUSDT" = none ∧
    (∃ kept, (Prototype.checkSymbol (Monitor.new (exampleConfig ["BTCUSDT"] 24 2)) "DOGEUSDT"
        (spotResponses ["100", "500"])).2.volumeHistory "DOGEUSDT" = some kept ∧ kept ≠ [] ∧
      kept.getLast? = some (500 : JSNum) ∧
      JSNum.fin 500 = JSNum.div (kept.foldl JSNum.add 0) (JSNum.fin kept.length)) ∧
    Prototype.addVolumeToHistory (Monitor.new (exampleConfig ["BTCUSDT"] 24 2)) "toString" 500
      = .error .typeError :=
  ⟨(average_over_own_history.1 (exampleConfig ["BTCUSDT"] 24 2) "DOGEUSDT" (by decide)).1,
   (average_over_own_history.2.2.2.1 (Monitor.new (exampleConfig ["BTCUSDT"] 24 2)) "DOGEUSDT"
      (spotResponses ["100", "500"])
      { volume24h := 0, currentVolume := 500, avgPreviousVolume := 100,
        avgHistoricalVolume := 500, verdict := .normal 1 }
      (by decide) (by decide!)).2,
   average_over_own_history.2.2.1 (Monitor.new (exampleConfig ["BTCUSDT"] 24 2)) "toString"
      500 (by decide) (by decide)⟩

/-- Counterexample to C23 as stated: on a monitor configured with `BTCUSDT` only, the
symbol `constructor` is not configured and has no history of its own; with candles
available `checkSymbol` resolves it to the spot market, `addVolumeToHistory` throws a
`TypeError`, the call ends with it and no history has been created. -/
theorem average_over_own_history_counterexample :
    (Monitor.new (exampleConfig ["BTCUSDT"] 24 2)).symbols = ["BTCUSDT"] ∧
    (Monitor.new (exampleConfig ["BTCUSDT"] 24 2)).historySize = 24 ∧
    Prototype.lookup (Monitor.new (exampleConfig ["BTCUSDT"] 24 2)) "constructor"
      = .inherited ∧
    Prototype.getMarketType (Monitor.new (exampleConfig ["BTCUSDT"] 24 2)) "constructor"
      = .inheritedMember ∧
    Prototype.addVolumeToHistory (Monitor.new (exampleConfig ["BTCUSDT"] 24 2)) "constructor"
      500 = .error .typeError ∧
    (Prototype.checkSymbol (Monitor.new (exampleConfig ["BTCUSDT"] 24 2)) "constructor"
      (spotResponses ["100", "500"])).1 = .threw .typeError ∧
    (Prototype.checkSymbol (Monitor.new (exampleConfig ["BTCUSDT"] 24 2)) "constructor"
      (spotResponses ["100", "500"])).2.volumeHistory "constructor" = none := by
  refine ⟨by decide, by decide, by decide, by decide, rfl, by decide!, by decide!⟩

theorem getMarketType_prototype_text (m : Monitor) (s : String)
    (h : s ∉ objectPrototypeMembers) :
    Prototype.getMarketType m s = .text (getMarketType m s) := by
  unfold Prototype.getMarketType getMarketType
  cases m.marketTypes s with
  | none => simp only [h, if_false]
  | some override =>
      simp only
      split <;> rfl

theorem getMarketType_prototype_futures (m : Monitor) (s : String)
    (h : s ∉ objectPrototypeMembers) :
    (Prototype.getMarketType m s = .text "futures") = (getMarketType m s = "futures") := by
  rw [getMarketType_prototype_text m s h]
  simp

theorem sendTelegramAlert_prototype_agrees (m : Monitor) (s : String) (data : AlertData)
    (f : Bool) (h : s ∉ objectPrototypeMembers) :
    Prototype.sendTelegramAlert m s data f = sendTelegramAlert m s data f := by
  unfold Prototype.sendTelegramAlert sendTelegramAlert
  simp only [getMarketType_prototype_futures m s h]

theorem anomalyTest_prototype_agrees (m1 : Monitor) (s : String) (c avg : JSNum) (f : Bool)
    (h : s ∉ objectPrototypeMembers) :
    Prototype.anomalyTest m1 s c avg f = anomalyTest m1 s c avg f := by
  unfold Prototype.anomalyTest anomalyTest
  simp only [sendTelegramAlert_prototype_agrees _ s _ f h]

/-- For a symbol that is not the name of a member of `Object.prototype`, the lookups through
the prototype change nothing: `checkSymbol` is the method described over own properties. -/
theorem checkSymbol_prototype_agrees (m : Monitor) (s : String) (r : Responses)
    (h : s ∉ objectPrototypeMembers) :
    Prototype.checkSymbol m s r = checkSymbol m s r := by
  unfold Prototype.checkSymbol checkSymbol
  simp only [getMarketType_prototype_futures m s h,
    addVolumeToHistory_prototype_ok m s _ (Or.inr h), anomalyTest_prototype_agrees _ s _ _ _ h]

theorem halvings_spec : ∀ (fuel n : ℕ), 1 ≤ n → n ≤ fuel →
    2 ^ halvings fuel n ≤ n ∧ n < 2 ^ (halvings fuel n + 1) := by
  intro fuel
  induction fuel with
  | zero => intro n h1 h2; omega
  | succ fuel ih =>
      intro n h1 h2
      unfold halvings
      by_cases hn : n < 2
      · simp only [hn, if_true]
        constructor
        · simpa using h1
        · simpa using hn
      · simp only [hn, if_false]
        have hhalf1 : 1 ≤ n / 2 := by omega
        have hhalf2 : n / 2 ≤ fuel := by omega
        obtain ⟨hlo, hhi⟩ := ih (n / 2) hhalf1 hhalf2
        constructor
        · rw [pow_succ]
          omega
        · rw [pow_succ]
          omega

theorem pow2_eq_zpow (e : Int) : pow2 e = (2 : ℚ) ^ e := by
  unfold pow2
  by_cases h : 0 ≤ e
  · rw [if_pos h]
    obtain ⟨n, rfl⟩ := Int.eq_ofNat_of_zero_le h
    simp
  · rw [if_neg h]
    have hneg : 0 ≤ -e := by omega
    obtain ⟨n, hn⟩ := Int.eq_ofNat_of_zero_le hneg
    have he : e = -(n : Int) := by omega
    rw [he]
    simp

theorem pow2_add (a b : Int) : pow2 (a + b) = pow2 a * pow2 b := by
  simp only [pow2_eq_zpow]
  exact zpow_add₀ (by norm_num) a b

theorem pow2_le_pow2 {a b : Int} (h : a ≤ b) : pow2 a ≤ pow2 b := by
  simp only [pow2_eq_zpow]
  exact zpow_le_zpow_right₀ (by norm_num) h

theorem pow2_lt_pow2_iff {a b : Int} : pow2 a < pow2 b ↔ a < b := by
  simp only [pow2_eq_zpow]
  exact zpow_lt_zpow_iff_right₀ (by norm_num)

theorem pow2_natCast (n : ℕ) : pow2 (n : Int) = (2 : ℚ) ^ n := by
  rw [pow2_eq_zpow]
  simp

theorem floorLog2_spec (a : ℚ) (ha : 0 < a) :
    pow2 (floorLog2 a) ≤ a ∧ a < pow2 (floorLog2 a + 1) := by
  have hnum : 0 < a.num := Rat.num_pos.mpr ha
  have hden : 0 < a.den := a.den_pos
  have hnumNat : (a.num.toNat : Int) = a.num := Int.toNat_of_nonneg (le_of_lt hnum)
  have hn1 : 1 ≤ a.num.toNat := by omega
  obtain ⟨hnlo, hnhi⟩ := halvings_spec a.num.toNat a.num.toNat hn1 le_rfl
  obtain ⟨hdlo, hdhi⟩ := halvings_spec a.den a.den hden le_rfl
  set hn := halvings a.num.toNat a.num.toNat with hhn
  set hd := halvings a.den a.den with hhd
  have hnq : (a.num : ℚ) = (a.num.toNat : ℚ) := by
    have h : (a.num : ℚ) = ((a.num.toNat : Int) : ℚ) := by rw [hnumNat]
    rw [h, Int.cast_natCast]
  have haeq : a = (a.num.toNat : ℚ) / (a.den : ℚ) := by
    rw [← hnq]
    exact (Rat.num_div_den a).symm
  have hdenq : (0 : ℚ) < a.den := by exact_mod_cast hden
  have hnloq : (2 : ℚ) ^ hn ≤ (a.num.toNat : ℚ) := by exact_mod_cast hnlo
  have hnhiq : (a.num.toNat : ℚ) < (2 : ℚ) ^ (hn + 1) := by exact_mod_cast hnhi
  have hdloq : (2 : ℚ) ^ hd ≤ (a.den : ℚ) := by exact_mod_cast hdlo
  have hdhiq : (a.den : ℚ) < (2 : ℚ) ^ (hd + 1) := by exact_mod_cast hdhi
  have h2hd : (0 : ℚ) < (2 : ℚ) ^ hd := by positivity
  -- a < 2 ^ (hn - hd + 1)
  have hup : a < pow2 ((hn : Int) - (hd : Int) + 1) := by
    have : pow2 ((hn : Int) - (hd : Int) + 1) = (2 : ℚ) ^ (hn + 1) / (2 : ℚ) ^ hd := by
      rw [pow2_eq_zpow, show ((hn : Int) - (hd : Int) + 1) = ((hn + 1 : ℕ) : Int) - ((hd : ℕ) : Int) by
        push_cast; ring, zpow_sub₀ (by norm_num), zpow_natCast, zpow_natCast]
    rw [this, haeq, div_lt_div_iff₀ hdenq h2hd]
    calc (a.num.toNat : ℚ) * 2 ^ hd < 2 ^ (hn + 1) * 2 ^ hd := by
          exact mul_lt_mul_of_pos_right hnhiq h2hd
      _ ≤ 2 ^ (hn + 1) * a.den := by
          exact mul_le_mul_of_nonneg_left hdloq (by positivity)
  -- 2 ^ (hn - hd - 1) ≤ a
  have hlow : pow2 ((hn : Int) - (hd : Int) - 1) ≤ a := by
    have : pow2 ((hn : Int) - (hd : Int) - 1) = (2 : ℚ) ^ hn / (2 : ℚ) ^ (hd + 1) := by
      rw [pow2_eq_zpow, show ((hn : Int) - (hd : Int) - 1) = ((hn : ℕ) : Int) - ((hd + 1 : ℕ) : Int) by
        push_cast; ring, zpow_sub₀ (by norm_num), zpow_natCast, zpow_natCast]
    rw [this, haeq, div_le_div_iff₀ (by positivity) hdenq]
    calc (2 : ℚ) ^ hn * a.den ≤ 2 ^ hn * 2 ^ (hd + 1) := by
          exact mul_le_mul_of_nonneg_left (le_of_lt hdhiq) (by positivity)
      _ ≤ a.num.toNat * 2 ^ (hd + 1) := by
          exact mul_le_mul_of_nonneg_right hnloq (by positivity)
  unfold floorLog2
  simp only [← hhn, ← hhd]
  by_cases hg : pow2 ((hn : Int) - (hd : Int)) ≤ a
  · rw [if_pos hg]
    exact ⟨hg, hup⟩
  · rw [if_neg hg]
    refine ⟨hlow, ?_⟩
    rw [sub_add_cancel]
    exact lt_of_not_le hg
theorem roundHalfEven_near (x : ℚ) (hx : 0 ≤ x) :
    (roundHalfEven x : ℚ) - 1 / 2 ≤ x ∧ x ≤ (roundHalfEven x : ℚ) + 1 / 2 := by
  have hnum : 0 ≤ x.num := Rat.num_nonneg.mpr hx
  have hden : 0 < x.den := x.den_pos
  have hdenq : (0 : ℚ) < x.den := by exact_mod_cast hden
  have hnumNat : (x.num.toNat : Int) = x.num := Int.toNat_of_nonneg hnum
  have hnq : (x.num : ℚ) = (x.num.toNat : ℚ) := by
    have h : (x.num : ℚ) = ((x.num.toNat : Int) : ℚ) := by rw [hnumNat]
    rw [h, Int.cast_natCast]
  have hxeq : x = (x.num.toNat : ℚ) / (x.den : ℚ) := by
    rw [← hnq]
    exact (Rat.num_div_den x).symm
  have hlo : ((x.num.toNat / x.den : ℕ) : ℚ) ≤ x := by
    have h : ((x.num.toNat / x.den : ℕ) : ℚ) * x.den ≤ (x.num.toNat : ℚ) := by
      exact_mod_cast Nat.div_mul_le_self x.num.toNat x.den
    have h2 := (le_div_iff₀ hdenq).mpr h
    rwa [← hxeq] at h2
  have hhi : x < ((x.num.toNat / x.den : ℕ) : ℚ) + 1 := by
    have h : x.num.toNat < (x.num.toNat / x.den + 1) * x.den := by
      rw [Nat.mul_comm]
      exact Nat.lt_mul_div_succ x.num.toNat hden
    have h1 : (x.num.toNat : ℚ) < (((x.num.toNat / x.den : ℕ) : ℚ) + 1) * x.den := by
      exact_mod_cast h
    have h2 := (div_lt_iff₀ hdenq).mpr h1
    rwa [← hxeq] at h2
  unfold roundHalfEven
  simp only
  split
  · rename_i h
    constructor <;> linarith
  · rename_i h
    split
    · rename_i h'
      push_cast
      constructor <;> linarith
    · rename_i h'
      have heq : x - ((x.num.toNat / x.den : ℕ) : ℚ) = 1 / 2 :=
        le_antisymm (not_lt.mp h') (not_lt.mp h)
      split
      · constructor <;> linarith
      · push_cast
        constructor <;> linarith

theorem roundHalfEven_ge_of_le (x : ℚ) (hx : 0 ≤ x) (n : ℕ) (h : (n : ℚ) ≤ x) :
    n ≤ roundHalfEven x := by
  obtain ⟨-, hhi⟩ := roundHalfEven_near x hx
  have : (n : ℚ) < (roundHalfEven x : ℚ) + 1 := by linarith
  have : n < roundHalfEven x + 1 := by exact_mod_cast this
  omega

theorem roundHalfEven_le_of_le (x : ℚ) (hx : 0 ≤ x) (n : ℕ) (h : x ≤ (n : ℚ)) :
    roundHalfEven x ≤ n := by
  obtain ⟨hlo, -⟩ := roundHalfEven_near x hx
  have : (roundHalfEven x : ℚ) < (n : ℚ) + 1 := by linarith
  have : roundHalfEven x < n + 1 := by exact_mod_cast this
  omega

theorem floorLog2_ge (t : ℚ) (ht : 0 < t) (j : Int) (h : pow2 j ≤ t) : j ≤ floorLog2 t := by
  obtain ⟨-, hhi⟩ := floorLog2_spec t ht
  have : pow2 j < pow2 (floorLog2 t + 1) := lt_of_le_of_lt h hhi
  have := pow2_lt_pow2_iff.mp this
  omega

theorem roundToDouble_normal (t : ℚ) (hlo : pow2 (-1022) ≤ t) (hhi : t ≤ pow2 1023) :
    ∃ r, roundToDouble t = JSNum.fin r ∧
      t * (1 - pow2 (-53)) ≤ r ∧ r ≤ t * (1 + pow2 (-53)) ∧
      (∀ j : Int, pow2 j ≤ t → pow2 j ≤ r) ∧ (∀ j : Int, t ≤ pow2 j → r ≤ pow2 j) := by
  have ht : 0 < t := lt_of_lt_of_le (pow2_pos _) hlo
  obtain ⟨hspec1, hspec2⟩ := floorLog2_spec t ht
  have he : -1022 ≤ floorLog2 t := floorLog2_ge t ht _ hlo
  set e := floorLog2 t with hedef
  have hmax : max e (-1022) = e := max_eq_left he
  have hq : 0 < pow2 (e - 52) := pow2_pos _
  have hquant : pow2 e = (2 : ℚ) ^ 52 * pow2 (e - 52) := by
    have h := pow2_add 52 (e - 52)
    rw [show (52 : Int) + (e - 52) = e by ring] at h
    rw [h, show (52 : Int) = ((52 : ℕ) : Int) by rfl, pow2_natCast]
  have hx0 : 0 ≤ t / pow2 (e - 52) := le_of_lt (div_pos ht hq)
  obtain ⟨hnear1, hnear2⟩ := roundHalfEven_near (t / pow2 (e - 52)) hx0
  set k := roundHalfEven (t / pow2 (e - 52)) with hk
  have hhalf : pow2 (e - 52) * (1 / 2) ≤ t * pow2 (-53) := by
    have h1 : pow2 (e - 52) * (1 / 2) = pow2 e * pow2 (-53) := by
      have h := pow2_add e (-53)
      have h' := pow2_add (e - 53) 1
      rw [show e - 53 + 1 = e - 52 by ring] at h'
      rw [show e + -53 = e - 53 by ring] at h
      rw [h', ← h, show (1 : Int) = ((1 : ℕ) : Int) by rfl, pow2_natCast]
      ring
    rw [h1]
    exact mul_le_mul_of_nonneg_right hspec1 (le_of_lt (pow2_pos _))
  have hr1 : t - pow2 (e - 52) * (1 / 2) ≤ (k : ℚ) * pow2 (e - 52) := by
    have := (div_le_iff₀ hq).mp hnear2
    linarith
  have hr2 : (k : ℚ) * pow2 (e - 52) ≤ t + pow2 (e - 52) * (1 / 2) := by
    have := (le_div_iff₀ hq).mp hnear1
    linarith
  have hup : ∀ j : Int, t ≤ pow2 j → (k : ℚ) * pow2 (e - 52) ≤ pow2 j := by
    intro j hj
    have hej : e ≤ j := by
      have : pow2 e ≤ pow2 j := le_trans hspec1 hj
      by_contra hc
      have hlt : j < e := by omega
      exact absurd (pow2_lt_pow2_iff.mpr hlt) (not_lt.mpr this)
    obtain ⟨n, hn⟩ := Int.eq_ofNat_of_zero_le (show 0 ≤ j - (e - 52) by omega)
    have hpj : pow2 j = (2 : ℚ) ^ n * pow2 (e - 52) := by
      have h := pow2_add (j - (e - 52)) (e - 52)
      rw [show j - (e - 52) + (e - 52) = j by ring] at h
      rw [h, hn, pow2_natCast]
    have hxle : t / pow2 (e - 52) ≤ ((2 ^ n : ℕ) : ℚ) := by
      have hc : ((2 ^ n : ℕ) : ℚ) = (2 : ℚ) ^ n := by push_cast; rfl
      rw [div_le_iff₀ hq, hc, ← hpj]
      exact hj
    have hkle := roundHalfEven_le_of_le _ hx0 (2 ^ n) hxle
    rw [hpj]
    apply mul_le_mul_of_nonneg_right _ (le_of_lt hq)
    exact_mod_cast hkle
  have hdown : ∀ j : Int, pow2 j ≤ t → pow2 j ≤ (k : ℚ) * pow2 (e - 52) := by
    intro j hj
    have hje : j ≤ e := floorLog2_ge t ht j hj
    have hxge : ((2 ^ 52 : ℕ) : ℚ) ≤ t / pow2 (e - 52) := by
      have hc : ((2 ^ 52 : ℕ) : ℚ) = (2 : ℚ) ^ 52 := by norm_num
      rw [le_div_iff₀ hq, hc, ← hquant]
      exact hspec1
    have hkge := roundHalfEven_ge_of_le _ hx0 (2 ^ 52) hxge
    calc pow2 j ≤ pow2 e := pow2_le_pow2 hje
      _ = (2 : ℚ) ^ 52 * pow2 (e - 52) := hquant
      _ ≤ (k : ℚ) * pow2 (e - 52) := by
          apply mul_le_mul_of_nonneg_right _ (le_of_lt hq)
          exact_mod_cast hkge
  have hfin : ¬ pow2 1024 ≤ (k : ℚ) * pow2 (e - 52) := by
    have h1 := hup 1023 hhi
    have h2 : pow2 1023 < pow2 1024 := pow2_lt_pow2_iff.mpr (by norm_num)
    exact not_le.mpr (lt_of_le_of_lt h1 h2)
  refine ⟨(k : ℚ) * pow2 (e - 52), ?_, by linarith, by linarith, hdown, hup⟩
  unfold roundToDouble
  simp only [ne_of_gt ht, if_false, ht, if_true, ← hedef, hmax, ← hk, hfin]

theorem pow2_neg53 : pow2 (-53) = 1 / 9007199254740992 := by
  rw [pow2_eq_zpow]
  norm_num

theorem unit_pow_le_one (k : ℕ) : (1 - pow2 (-53)) ^ k ≤ 1 := by
  apply pow_le_one₀
  · rw [pow2_neg53]; norm_num
  · rw [pow2_neg53]; norm_num

theorem unit_pow_pos (k : ℕ) : 0 < (1 - pow2 (-53)) ^ k := by
  apply pow_pos
  rw [pow2_neg53]; norm_num

theorem one_le_unit_pow (k : ℕ) : 1 ≤ (1 + pow2 (-53)) ^ k := by
  apply one_le_pow₀
  rw [pow2_neg53]; norm_num

theorem unit_pow_le_two (k : ℕ) (hk : k ≤ 2 ^ 41) : (1 + pow2 (-53)) ^ k ≤ 2 := by
  have hU : pow2 (-53) = 1 / 9007199254740992 := pow2_neg53
  have key : ∀ j : ℕ, j ≤ 2 ^ 41 → (1 + pow2 (-53)) ^ j ≤ 1 + 2 * j * pow2 (-53) := by
    intro j
    induction j with
    | zero => intro _; simp
    | succ j ih =>
        intro hj
        have hj' : j ≤ 2 ^ 41 := by omega
        have h1 := ih hj'
        have hjq : (j : ℚ) ≤ 2 ^ 41 := by exact_mod_cast hj'
        have hj0 : (0 : ℚ) ≤ j := Nat.cast_nonneg _
        rw [pow_succ]
        have h2 : (1 + pow2 (-53)) ^ j * (1 + pow2 (-53))
            ≤ (1 + 2 * j * pow2 (-53)) * (1 + pow2 (-53)) := by
          apply mul_le_mul_of_nonneg_right h1
          rw [hU]; norm_num
        refine le_trans h2 ?_
        rw [hU]
        push_cast
        nlinarith
  have h := key k hk
  have hkq : (k : ℚ) ≤ 2 ^ 41 := by exact_mod_cast hk
  rw [hU] at h ⊢
  have : (1 : ℚ) + 2 * k * (1 / 9007199254740992) ≤ 2 := by
    have : (2 : ℚ) * k * (1 / 9007199254740992) ≤ 2 * 2 ^ 41 * (1 / 9007199254740992) := by
      apply mul_le_mul_of_nonneg_right _ (by norm_num)
      linarith
    norm_num at this ⊢
    linarith
  linarith

theorem half_le_unit_pow (k : ℕ) (hk : k ≤ 2 ^ 41) : 1 / 2 ≤ (1 - pow2 (-53)) ^ k := by
  have hU : pow2 (-53) = 1 / 9007199254740992 := pow2_neg53
  have hb := one_add_mul_le_pow (show (-2 : ℚ) ≤ -pow2 (-53) by rw [hU]; norm_num) k
  have hkq : (k : ℚ) ≤ 2 ^ 41 := by exact_mod_cast hk
  have hk0 : (0 : ℚ) ≤ k := Nat.cast_nonneg _
  rw [show (1 : ℚ) + -pow2 (-53) = 1 - pow2 (-53) by ring] at hb
  refine le_trans ?_ hb
  rw [hU]
  have : (k : ℚ) * (1 / 9007199254740992) ≤ 2 ^ 41 * (1 / 9007199254740992) :=
    mul_le_mul_of_nonneg_right hkq (by norm_num)
  norm_num at this ⊢
  linarith

theorem ieee_add_step (s x S : ℚ) (n : ℕ) (hn : n + 1 ≤ 2 ^ 40)
    (hs1 : S * (1 - pow2 (-53)) ^ n ≤ s) (hs2 : s ≤ S * (1 + pow2 (-53)) ^ n)
    (hs3 : s = 0 ∨ pow2 (-500) ≤ s) (hS0 : 0 ≤ S) (hS1 : S ≤ n * pow2 500)
    (hx : x = 0 ∨ (pow2 (-500) ≤ x ∧ x ≤ pow2 500)) :
    ∃ r, roundToDouble (s + x) = JSNum.fin r ∧
      (S + x) * (1 - pow2 (-53)) ^ (n + 1) ≤ r ∧ r ≤ (S + x) * (1 + pow2 (-53)) ^ (n + 1) ∧
      (r = 0 ∨ pow2 (-500) ≤ r) := by
  have hU : pow2 (-53) = 1 / 9007199254740992 := pow2_neg53
  have hP : 0 < pow2 (-500) := pow2_pos _
  have hs0 : 0 ≤ s := by
    rcases hs3 with h | h
    · rw [h]
    · exact le_trans (le_of_lt hP) h
  have hx0 : 0 ≤ x := by
    rcases hx with h | h
    · rw [h]
    · exact le_trans (le_of_lt hP) h.1
  have hxle : x ≤ pow2 500 := by
    rcases hx with h | h
    · rw [h]; exact le_of_lt (pow2_pos _)
    · exact h.2
  have hlow1 := unit_pow_le_one n
  have hlow0 := unit_pow_pos n
  have hup1 := one_le_unit_pow n
  have hup2 := unit_pow_le_two n (by omega)
  have h1U : (0 : ℚ) ≤ 1 - pow2 (-53) := by rw [hU]; norm_num
  have h1U' : (0 : ℚ) ≤ 1 + pow2 (-53) := by rw [hU]; norm_num
  by_cases ht : s + x = 0
  · have hs : s = 0 := by linarith
    have hx' : x = 0 := by linarith
    have hS : S = 0 := by
      rw [hs] at hs1
      have : S * (1 - pow2 (-53)) ^ n ≤ 0 := hs1
      by_contra hne
      have hSpos : 0 < S := lt_of_le_of_ne hS0 (Ne.symm hne)
      have := mul_pos hSpos hlow0
      linarith
    refine ⟨0, ?_, ?_, ?_, Or.inl rfl⟩
    · rw [ht, roundToDouble_zero]
    · rw [hS, hx']; simp
    · rw [hS, hx']; simp
  · have htpos : 0 < s + x := lt_of_le_of_ne (add_nonneg hs0 hx0) (Ne.symm ht)
    have htlo : pow2 (-500) ≤ s + x := by
      rcases hs3 with h | h
      · rcases hx with h' | h'
        · rw [h, h'] at ht; simp at ht
        · linarith [h'.1]
      · linarith
    have hnq : ((n : ℚ) + 1) ≤ pow2 40 := by
      have h40 : pow2 40 = (2 : ℚ) ^ 40 := by
        rw [show (40 : Int) = ((40 : ℕ) : Int) by rfl, pow2_natCast]
      rw [h40]
      exact_mod_cast hn
    have hthi : s + x ≤ pow2 1023 := by
      have h1 : s ≤ S * 2 := le_trans hs2 (mul_le_mul_of_nonneg_left hup2 hS0)
      have h2 : s + x ≤ ((n : ℚ) + 1) * pow2 500 * 2 := by
        have h500 : 0 < pow2 500 := pow2_pos _
        nlinarith
      have h3 : ((n : ℚ) + 1) * pow2 500 * 2 ≤ pow2 40 * pow2 500 * pow2 1 := by
        have h11 : pow2 1 = 2 := by
          rw [show (1 : Int) = ((1 : ℕ) : Int) by rfl, pow2_natCast]; norm_num
        rw [h11]
        have h500 : 0 < pow2 500 := pow2_pos _
        nlinarith
      have h4 : pow2 40 * pow2 500 * pow2 1 = pow2 541 := by
        rw [← pow2_add, ← pow2_add]
        norm_num
      have h5 : pow2 541 ≤ pow2 1023 := pow2_le_pow2 (by norm_num)
      linarith
    obtain ⟨r, hr, hr1, hr2, hr3, -⟩ := roundToDouble_normal (s + x) (by
      exact le_trans (pow2_le_pow2 (by norm_num)) htlo) hthi
    refine ⟨r, hr, ?_, ?_, Or.inr (hr3 _ htlo)⟩
    · have hA : (S + x) * (1 - pow2 (-53)) ^ n ≤ s + x := by
        have : x * (1 - pow2 (-53)) ^ n ≤ x := by
          have := mul_le_mul_of_nonneg_left hlow1 hx0
          linarith
        linarith
      have hB := mul_le_mul_of_nonneg_right hA h1U
      rw [pow_succ]
      calc (S + x) * ((1 - pow2 (-53)) ^ n * (1 - pow2 (-53)))
          = (S + x) * (1 - pow2 (-53)) ^ n * (1 - pow2 (-53)) := by ring
        _ ≤ (s + x) * (1 - pow2 (-53)) := hB
        _ ≤ r := hr1
    · have hA : s + x ≤ (S + x) * (1 + pow2 (-53)) ^ n := by
        have : x ≤ x * (1 + pow2 (-53)) ^ n := by
          have := mul_le_mul_of_nonneg_left hup1 hx0
          linarith
        linarith
      have hB := mul_le_mul_of_nonneg_right hA h1U'
      rw [pow_succ]
      calc r ≤ (s + x) * (1 + pow2 (-53)) := hr2
        _ ≤ (S + x) * (1 + pow2 (-53)) ^ n * (1 + pow2 (-53)) := hB
        _ = (S + x) * ((1 + pow2 (-53)) ^ n * (1 + pow2 (-53))) := by ring

theorem ordinary_sum_bounds (qs : List ℚ)
    (hq : ∀ q ∈ qs, q = 0 ∨ (pow2 (-500) ≤ q ∧ q ≤ pow2 500)) :
    0 ≤ qs.sum ∧ qs.sum ≤ qs.length * pow2 500 := by
  have hP : 0 < pow2 (-500) := pow2_pos _
  constructor
  · apply List.sum_nonneg
    intro q hqm
    rcases hq q hqm with h | h
    · rw [h]
    · exact le_trans (le_of_lt hP) h.1
  · have := List.sum_le_card_nsmul qs (pow2 500) (by
      intro q hqm
      rcases hq q hqm with h | h
      · rw [h]; exact le_of_lt (pow2_pos _)
      · exact h.2)
    rwa [nsmul_eq_mul] at this

theorem ieee_fold_bounds (qs : List ℚ) :
    (∀ q ∈ qs, q = 0 ∨ (pow2 (-500) ≤ q ∧ q ≤ pow2 500)) → qs.length ≤ 2 ^ 40 →
    ∃ s : ℚ, (qs.map JSNum.fin).foldl (fun acc val => IEEE.add acc val) 0 = JSNum.fin s ∧
      qs.sum * (1 - pow2 (-53)) ^ qs.length ≤ s ∧
      s ≤ qs.sum * (1 + pow2 (-53)) ^ qs.length ∧
      (s = 0 ∨ pow2 (-500) ≤ s) := by
  induction qs using List.reverseRecOn with
  | nil =>
      intro _ _
      exact ⟨0, rfl, by simp, by simp, Or.inl rfl⟩
  | append_singleton init x ih =>
      intro hq hn
      have hqi : ∀ q ∈ init, q = 0 ∨ (pow2 (-500) ≤ q ∧ q ≤ pow2 500) :=
        fun q hqm => hq q (List.mem_append_left _ hqm)
      have hlen : (init ++ [x]).length = init.length + 1 := by simp
      rw [hlen] at hn
      obtain ⟨s, hs, hs1, hs2, hs3⟩ := ih hqi (by omega)
      obtain ⟨hS0, hS1⟩ := ordinary_sum_bounds init hqi
      obtain ⟨r, hr, hr1, hr2, hr3⟩ := ieee_add_step s x init.sum init.length hn hs1 hs2 hs3
        hS0 hS1 (hq x (by simp))
      refine ⟨r, ?_, ?_, ?_, hr3⟩
      · rw [List.map_append, List.foldl_append, hs]
        simp only [List.map_cons, List.map_nil, List.foldl_cons, List.foldl_nil, ieee_add_fin]
        exact hr
      · rw [hlen, List.sum_append]
        simpa using hr1
      · rw [hlen, List.sum_append]
        simpa using hr2

theorem ieee_mean_bounds (qs : List ℚ) (hne : qs ≠ [])
    (hq : ∀ q ∈ qs, q = 0 ∨ (pow2 (-500) ≤ q ∧ q ≤ pow2 500)) (hn : qs.length ≤ 2 ^ 40) :
    ∃ a : ℚ,
      IEEE.div ((qs.map JSNum.fin).foldl (fun acc val => IEEE.add acc val) 0)
        (JSNum.fin qs.length) = JSNum.fin a ∧
      qs.sum / qs.length * (1 - pow2 (-53)) ^ (qs.length + 1) ≤ a ∧
      a ≤ qs.sum / qs.length * (1 + pow2 (-53)) ^ (qs.length + 1) ∧
      (a = 0 ∨ pow2 (-540) ≤ a) ∧ a ≤ pow2 501 ∧
      (a = 0 ↔ ∀ q ∈ qs, q = 0) := by
  have hU : pow2 (-53) = 1 / 9007199254740992 := pow2_neg53
  have h1U : (0 : ℚ) ≤ 1 - pow2 (-53) := by rw [hU]; norm_num
  have h1U' : (0 : ℚ) ≤ 1 + pow2 (-53) := by rw [hU]; norm_num
  have hlen : qs.length ≠ 0 := fun h0 => hne (List.length_eq_zero.mp h0)
  have hlen1 : 1 ≤ qs.length := Nat.pos_of_ne_zero hlen
  have hnpos : (0 : ℚ) < qs.length := by exact_mod_cast hlen1
  have hnne : ((qs.length : ℕ) : ℚ) ≠ 0 := ne_of_gt hnpos
  have hn1 : (1 : ℚ) ≤ qs.length := by exact_mod_cast hlen1
  have hnq : (qs.length : ℚ) ≤ pow2 40 := by
    have h40 : pow2 40 = (2 : ℚ) ^ 40 := by
      rw [show (40 : Int) = ((40 : ℕ) : Int) by rfl, pow2_natCast]
    rw [h40]
    exact_mod_cast hn
  obtain ⟨hS0, hS1⟩ := ordinary_sum_bounds qs hq
  obtain ⟨s, hs, hs1, hs2, hs3⟩ := ieee_fold_bounds qs hq hn
  have hP : 0 < pow2 (-500) := pow2_pos _
  have hs0 : 0 ≤ s := by
    rcases hs3 with h | h
    · rw [h]
    · exact le_trans (le_of_lt hP) h
  have hlow0 := unit_pow_pos qs.length
  have hup2 := unit_pow_le_two qs.length (by omega)
  have hup2' := unit_pow_le_two (qs.length + 1) (by omega)
  have hmean_le : qs.sum / qs.length ≤ pow2 500 := by
    rw [div_le_iff₀ hnpos]
    linarith [mul_comm (pow2 500) (qs.length : ℚ)]
  have hmean0 : 0 ≤ qs.sum / qs.length := div_nonneg hS0 (le_of_lt hnpos)
  have hzero_iff : s = 0 ↔ ∀ q ∈ qs, q = 0 := by
    constructor
    · intro h0
      rw [h0] at hs1
      have hsum : qs.sum = 0 := by
        by_contra hne'
        have hpos : 0 < qs.sum := lt_of_le_of_ne hS0 (Ne.symm hne')
        have := mul_pos hpos hlow0
        linarith
      intro q hqm
      exact List.all_zero_of_le_zero_le_of_sum_eq_zero (by
        intro x hx
        rcases hq x hx with h | h
        · rw [h]
        · exact le_trans (le_of_lt hP) h.1) hsum hqm
    · intro hall
      have hsum : qs.sum = 0 := List.sum_eq_zero hall
      rw [hsum, zero_mul] at hs2
      linarith
  rw [hs, ieee_div_fin _ _ hnne]
  by_cases hs00 : s = 0
  · refine ⟨0, ?_, ?_, ?_, Or.inl rfl, le_of_lt (pow2_pos _), ?_⟩
    · rw [hs00, zero_div, roundToDouble_zero]
    · have hsum : qs.sum = 0 := List.sum_eq_zero (hzero_iff.mp hs00)
      rw [hsum]; simp
    · exact mul_nonneg hmean0 (pow_nonneg h1U' _)
    · exact ⟨fun _ => hzero_iff.mp hs00, fun _ => rfl⟩
  · have hsP : pow2 (-500) ≤ s := by
      rcases hs3 with h | h
      · exact absurd h hs00
      · exact h
    have htlo : pow2 (-540) ≤ s / qs.length := by
      rw [le_div_iff₀ hnpos]
      have h1 : pow2 (-540) * pow2 40 = pow2 (-500) := by
        rw [← pow2_add]; norm_num
      have h2 : 0 < pow2 (-540) := pow2_pos _
      nlinarith
    have hthi : s / qs.length ≤ pow2 1023 := by
      have h1 : s / qs.length ≤ s := div_le_self hs0 hn1
      have h2 : s ≤ qs.sum * 2 := le_trans hs2 (mul_le_mul_of_nonneg_left hup2 hS0)
      have h3 : qs.sum * 2 ≤ pow2 40 * pow2 500 * pow2 1 := by
        have h11 : pow2 1 = 2 := by
          rw [show (1 : Int) = ((1 : ℕ) : Int) by rfl, pow2_natCast]; norm_num
        rw [h11]
        have h500 : 0 < pow2 500 := pow2_pos _
        nlinarith
      have h4 : pow2 40 * pow2 500 * pow2 1 = pow2 541 := by
        rw [← pow2_add, ← pow2_add]
        norm_num
      have h5 : pow2 541 ≤ pow2 1023 := pow2_le_pow2 (by norm_num)
      linarith
    obtain ⟨a, ha, ha1, ha2, ha3, -⟩ := roundToDouble_normal (s / qs.length)
      (le_trans (pow2_le_pow2 (by norm_num)) htlo) hthi
    have hapos : 0 < a := lt_of_lt_of_le (pow2_pos _) (ha3 _ htlo)
    have hlower : qs.sum / qs.length * (1 - pow2 (-53)) ^ (qs.length + 1) ≤ a := by
      have hA : qs.sum / qs.length * (1 - pow2 (-53)) ^ qs.length ≤ s / qs.length := by
        rw [div_mul_eq_mul_div]
        exact div_le_div_of_nonneg_right hs1 (le_of_lt hnpos)
      have hB := mul_le_mul_of_nonneg_right hA h1U
      rw [pow_succ]
      calc qs.sum / qs.length * ((1 - pow2 (-53)) ^ qs.length * (1 - pow2 (-53)))
          = qs.sum / qs.length * (1 - pow2 (-53)) ^ qs.length * (1 - pow2 (-53)) := by ring
        _ ≤ s / qs.length * (1 - pow2 (-53)) := hB
        _ ≤ a := ha1
    have hupper : a ≤ qs.sum / qs.length * (1 + pow2 (-53)) ^ (qs.length + 1) := by
      have hA : s / qs.length ≤ qs.sum / qs.length * (1 + pow2 (-53)) ^ qs.length := by
        rw [div_mul_eq_mul_div]
        exact div_le_div_of_nonneg_right hs2 (le_of_lt hnpos)
      have hB := mul_le_mul_of_nonneg_right hA h1U'
      rw [pow_succ]
      calc a ≤ s / qs.length * (1 + pow2 (-53)) := ha2
        _ ≤ qs.sum / qs.length * (1 + pow2 (-53)) ^ qs.length * (1 + pow2 (-53)) := hB
        _ = qs.sum / qs.length * ((1 + pow2 (-53)) ^ qs.length * (1 + pow2 (-53))) := by ring
    refine ⟨a, ha, hlower, hupper, Or.inr (ha3 _ htlo), ?_, ?_⟩
    · have h1 : a ≤ pow2 500 * 2 := by
        calc a ≤ qs.sum / qs.length * (1 + pow2 (-53)) ^ (qs.length + 1) := hupper
          _ ≤ pow2 500 * 2 := mul_le_mul hmean_le hup2' (pow_nonneg h1U' _)
              (le_of_lt (pow2_pos _))
      have h2 : pow2 500 * 2 = pow2 501 := by
        have h11 : pow2 1 = 2 := by
          rw [show (1 : Int) = ((1 : ℕ) : Int) by rfl, pow2_natCast]; norm_num
        rw [← h11, ← pow2_add]
        norm_num
      linarith
    · constructor
      · intro h0
        rw [h0] at hapos
        exact absurd hapos (lt_irrefl _)
      · intro hall
        exact absurd (hzero_iff.mpr hall) hs00

theorem exists_ordinary_list (l : List JSNum) (h : ∀ v ∈ l, v.isOrdinaryVolume = true) :
    ∃ qs : List ℚ, l = qs.map JSNum.fin ∧
      ∀ q ∈ qs, q = 0 ∨ (pow2 (-500) ≤ q ∧ q ≤ pow2 500) := by
  induction l with
  | nil => exact ⟨[], rfl, fun _ hq => by cases hq⟩
  | cons v rest ih =>
      obtain ⟨qs, hqs, hnn⟩ := ih (fun x hx => h x (List.mem_cons_of_mem _ hx))
      have hv := h v (List.mem_cons_self _ _)
      cases v with
      | fin q =>
          have hq : q = 0 ∨ (pow2 (-500) ≤ q ∧ q ≤ pow2 500) := by
            simpa [JSNum.isOrdinaryVolume] using hv
          refine ⟨q :: qs, by rw [hqs]; rfl, ?_⟩
          intro x hx
          rcases List.mem_cons.mp hx with rfl | hx
          · exact hq
          · exact hnn x hx
      | nan => simp [JSNum.isOrdinaryVolume] at hv
      | negInf => simp [JSNum.isOrdinaryVolume] at hv
      | posInf => simp [JSNum.isOrdinaryVolume] at hv

theorem checkSymbol_ieee_ordinary_run (m : Monitor) (symbol : String) (r : Responses)
    (report : CheckReport) (hsize : 1 ≤ m.historySize) (hmax : m.historySize ≤ 2 ^ 40)
    (hinv : (historyLength m symbol : Int) ≤ m.historySize)
    (hprior : ∀ v ∈ (m.volumeHistory symbol).getD [], v.isOrdinaryVolume = true)
    (hrun : (IEEE.checkSymbol m symbol r).1 = .checked report)
    (hcur : report.currentVolume.isOrdinaryVolume = true) :
    ∃ (qs : List ℚ) (c a : ℚ), report.currentVolume = JSNum.fin c ∧ c ∈ qs ∧
      (∀ q ∈ qs, q = 0 ∨ (pow2 (-500) ≤ q ∧ q ≤ pow2 500)) ∧ qs ≠ [] ∧
      qs.length ≤ 2 ^ 40 ∧ (qs.length : Int) ≤ m.historySize ∧
      (IEEE.checkSymbol m symbol r).2.volumeHistory symbol = some (qs.map JSNum.fin) ∧
      report.avgHistoricalVolume = JSNum.fin a ∧
      qs.sum / qs.length * (1 - pow2 (-53)) ^ (qs.length + 1) ≤ a ∧
      a ≤ qs.sum / qs.length * (1 + pow2 (-53)) ^ (qs.length + 1) ∧
      (a = 0 ∨ pow2 (-540) ≤ a) ∧ a ≤ pow2 501 ∧ (a = 0 ↔ ∀ q ∈ qs, q = 0) ∧
      report.verdict
        = IEEE.anomalyTest (IEEE.checkSymbol m symbol r).2 symbol (JSNum.fin c)
            (JSNum.fin a) r.sendFails := by
  obtain ⟨hm, havg, hv⟩ := checkSymbol_ieee_checked hrun
  obtain ⟨kept, hkept, hne, hlast, hmem⟩ :=
    addVolumeToHistory_kept m symbol report.currentVolume hsize
  have hall : ∀ v ∈ kept, v.isOrdinaryVolume = true := by
    intro v hvk
    rcases hmem v hvk with rfl | hp
    · exact hcur
    · exact hprior v hp
  obtain ⟨qs, hqs, hord⟩ := exists_ordinary_list kept hall
  have hqne : qs ≠ [] := by
    intro h0; rw [h0] at hqs; exact hne hqs
  have hcmem : report.currentVolume ∈ kept := List.mem_of_getLast?_eq_some hlast
  rw [hqs] at hcmem
  obtain ⟨c, hcq, hc⟩ := List.mem_map.mp hcmem
  have hhist : (IEEE.checkSymbol m symbol r).2.volumeHistory symbol
      = some (qs.map JSNum.fin) := by
    rw [hm, hkept, hqs]
  have hlenInt : (qs.length : Int) ≤ m.historySize := by
    have h := historyLength_addVolumeToHistory_le m symbol symbol report.currentVolume hsize hinv
    rw [← hm] at h
    simpa [historyLength, hhist] using h
  have hlen : qs.length ≤ 2 ^ 40 := by
    have : (qs.length : Int) ≤ 2 ^ 40 := le_trans hlenInt hmax
    exact_mod_cast this
  obtain ⟨a, ha, ha1, ha2, ha3, ha4, ha5⟩ := ieee_mean_bounds qs hqne hord hlen
  have hne' : qs.map JSNum.fin ≠ [] := fun h0 => hqne (List.map_eq_nil_iff.mp h0)
  have havg' : report.avgHistoricalVolume = JSNum.fin a := by
    rw [ieee_calculateAverageVolume_nonempty _ symbol _ hhist hne', List.length_map, ha] at havg
    exact (Except.ok.inj havg).symm
  refine ⟨qs, c, a, hc.symm, hcq, hord, hqne, hlen, hlenInt, hhist, havg', ha1, ha2, ha3, ha4,
    ha5, ?_⟩
  rw [hv, havg', ← hc]

theorem anomalyTest_ieee_pos (m1 : Monitor) (s : String) (c a : ℚ) (f : Bool) (ha : 0 < a) :
    (IEEE.anomalyTest m1 s (JSNum.fin c) (JSNum.fin a) f).multiplier?
      = some (roundToDouble (c / a)) ∧
    (IEEE.anomalyTest m1 s (JSNum.fin c) (JSNum.fin a) f).isAnomaly
      = (roundToDouble (c / a)).ge m1.volumeMultiplier := by
  have hgt : (JSNum.fin a).gt 0 = true := by
    simp [JSNum.gt, JSNum.ofNat_eq_fin, ha]
  unfold IEEE.anomalyTest
  rw [if_pos hgt, ieee_div_fin _ _ (ne_of_gt ha)]
  by_cases hge : (roundToDouble (c / a)).ge m1.volumeMultiplier = true
  · simp only [hge, if_true, Verdict.multiplier?, Verdict.isAnomaly, and_self]
  · simp only [hge, Bool.false_eq_true, if_false, Verdict.multiplier?, Verdict.isAnomaly,
      true_and]

theorem multiplierCeiling_mono {n k : ℕ} (h : n ≤ k) :
    multiplierCeiling n ≤ multiplierCeiling k := by
  unfold multiplierCeiling unitRoundoff
  have hU : pow2 (-53) = 1 / 9007199254740992 := pow2_neg53
  have h1U' : (0 : ℚ) ≤ 1 + pow2 (-53) := by rw [hU]; norm_num
  have hb0 : (0 : ℚ) < 1 - pow2 (-53) := by rw [hU]; norm_num
  have hb1 : (1 : ℚ) - pow2 (-53) ≤ 1 := by rw [hU]; norm_num
  have hpow : (1 - pow2 (-53)) ^ (k + 1) ≤ (1 - pow2 (-53)) ^ (n + 1) :=
    pow_le_pow_of_le_one (le_of_lt hb0) hb1 (by omega)
  have hnk : (n : ℚ) * (1 + pow2 (-53)) ≤ k * (1 + pow2 (-53)) := by
    apply mul_le_mul_of_nonneg_right _ h1U'
    exact_mod_cast h
  exact div_le_div₀ (mul_nonneg (Nat.cast_nonneg _) h1U') hnk (unit_pow_pos _) hpow

theorem ieee_ratio_bound (qs : List ℚ) (c a : ℚ) (hne : qs ≠ [])
    (hq : ∀ q ∈ qs, q = 0 ∨ (pow2 (-500) ≤ q ∧ q ≤ pow2 500)) (hn : qs.length ≤ 2 ^ 40)
    (hc : c ∈ qs) (ha1 : qs.sum / qs.length * (1 - pow2 (-53)) ^ (qs.length + 1) ≤ a)
    (ha4 : a ≤ pow2 501) (hapos : 0 < a) :
    ∃ k : ℚ, roundToDouble (c / a) = JSNum.fin k ∧ 0 ≤ k ∧
      k ≤ multiplierCeiling qs.length := by
  have hU : pow2 (-53) = 1 / 9007199254740992 := pow2_neg53
  have h1U : (0 : ℚ) ≤ 1 - pow2 (-53) := by rw [hU]; norm_num
  have h1U' : (0 : ℚ) ≤ 1 + pow2 (-53) := by rw [hU]; norm_num
  have hP : 0 < pow2 (-500) := pow2_pos _
  have hlen : qs.length ≠ 0 := fun h0 => hne (List.length_eq_zero.mp h0)
  have hlen1 : 1 ≤ qs.length := Nat.pos_of_ne_zero hlen
  have hnpos : (0 : ℚ) < qs.length := by exact_mod_cast hlen1
  have hnn : ∀ q ∈ qs, 0 ≤ q := by
    intro x hx
    rcases hq x hx with h | h
    · rw [h]
    · exact le_trans (le_of_lt hP) h.1
  have hcsum : c ≤ qs.sum := List.single_le_sum hnn c hc
  have hpowpos := unit_pow_pos (qs.length + 1)
  have hceil0 : 0 ≤ multiplierCeiling qs.length := by
    unfold multiplierCeiling unitRoundoff
    exact div_nonneg (mul_nonneg (le_of_lt hnpos) h1U') (le_of_lt hpowpos)
  rcases hq c hc with hc0 | ⟨hclo, hchi⟩
  · refine ⟨0, ?_, le_rfl, hceil0⟩
    rw [hc0, zero_div, roundToDouble_zero]
  · have hcpos : 0 < c := lt_of_lt_of_le hP hclo
    -- c * (1 - u)^(n+1) ≤ a * n
    have hkey : c * (1 - pow2 (-53)) ^ (qs.length + 1) ≤ a * qs.length := by
      have h1 : c / qs.length * (1 - pow2 (-53)) ^ (qs.length + 1)
          ≤ qs.sum / qs.length * (1 - pow2 (-53)) ^ (qs.length + 1) := by
        apply mul_le_mul_of_nonneg_right _ (le_of_lt hpowpos)
        exact div_le_div_of_nonneg_right hcsum (le_of_lt hnpos)
      have h2 := le_trans h1 ha1
      have h3 := mul_le_mul_of_nonneg_right h2 (le_of_lt hnpos)
      have h4 : c / qs.length * (1 - pow2 (-53)) ^ (qs.length + 1) * qs.length
          = c * (1 - pow2 (-53)) ^ (qs.length + 1) := by
        field_simp
      rw [h4] at h3
      exact h3
    have hhalf := half_le_unit_pow (qs.length + 1) (by omega)
    have htlo : pow2 (-1022) ≤ c / a := by
      rw [le_div_iff₀ hapos]
      have h1 : pow2 (-1022) * a ≤ pow2 (-1022) * pow2 501 :=
        mul_le_mul_of_nonneg_left ha4 (le_of_lt (pow2_pos _))
      have h2 : pow2 (-1022) * pow2 501 = pow2 (-521) := by
        rw [← pow2_add]; norm_num
      have h3 : pow2 (-521) ≤ pow2 (-500) := pow2_le_pow2 (by norm_num)
      linarith
    have hthi : c / a ≤ pow2 1023 := by
      rw [div_le_iff₀ hapos]
      have h1 : c * (1 / 2) ≤ a * qs.length :=
        le_trans (mul_le_mul_of_nonneg_left hhalf (le_of_lt hcpos)) hkey
      have hnq : (qs.length : ℚ) ≤ pow2 40 := by
        have h40 : pow2 40 = (2 : ℚ) ^ 40 := by
          rw [show (40 : Int) = ((40 : ℕ) : Int) by rfl, pow2_natCast]
        rw [h40]
        exact_mod_cast hn
      have h2 : a * qs.length ≤ a * pow2 40 :=
        mul_le_mul_of_nonneg_left hnq (le_of_lt hapos)
      have h3 : pow2 41 ≤ pow2 1023 := pow2_le_pow2 (by norm_num)
      have h4 : pow2 41 = pow2 40 * 2 := by
        have h11 : pow2 1 = 2 := by
          rw [show (1 : Int) = ((1 : ℕ) : Int) by rfl, pow2_natCast]; norm_num
        rw [← h11, ← pow2_add]; norm_num
      have h5 : c ≤ pow2 41 * a := by
        rw [h4]; linarith
      calc c ≤ pow2 41 * a := h5
        _ ≤ pow2 1023 * a := mul_le_mul_of_nonneg_right h3 (le_of_lt hapos)
    obtain ⟨k, hk, -, hk2, -, -⟩ := roundToDouble_normal (c / a) htlo hthi
    have hk0 : 0 ≤ k := by
      obtain ⟨k', hk', hk1', -, -, -⟩ := roundToDouble_normal (c / a) htlo hthi
      rw [hk] at hk'
      have : k = k' := JSNum.fin.inj hk'
      rw [this]
      refine le_trans ?_ hk1'
      exact mul_nonneg (le_of_lt (div_pos hcpos hapos)) h1U
    refine ⟨k, hk, hk0, ?_⟩
    unfold multiplierCeiling unitRoundoff
    rw [le_div_iff₀ hpowpos]
    have h1 : c / a * (1 - pow2 (-53)) ^ (qs.length + 1) ≤ qs.length := by
      rw [div_mul_eq_mul_div, div_le_iff₀ hapos]
      linarith [mul_comm a (qs.length : ℚ)]
    calc k * (1 - pow2 (-53)) ^ (qs.length + 1)
        ≤ c / a * (1 + pow2 (-53)) * (1 - pow2 (-53)) ^ (qs.length + 1) :=
          mul_le_mul_of_nonneg_right hk2 (le_of_lt hpowpos)
      _ = c / a * (1 - pow2 (-53)) ^ (qs.length + 1) * (1 + pow2 (-53)) := by ring
      _ ≤ qs.length * (1 + pow2 (-53)) := mul_le_mul_of_nonneg_right h1 h1U'

theorem checkSymbol_ieee_multiplier_bound (m : Monitor) (symbol : String) (r : Responses)
    (report : CheckReport) (hsize : 1 ≤ m.historySize) (hmax : m.historySize ≤ 2 ^ 40)
    (hinv : (historyLength m symbol : Int) ≤ m.historySize)
    (hprior : ∀ v ∈ (m.volumeHistory symbol).getD [], v.isOrdinaryVolume = true)
    (hrun : (IEEE.checkSymbol m symbol r).1 = .checked report)
    (hcur : report.currentVolume.isOrdinaryVolume = true) :
    (∀ k, report.verdict.multiplier? = some k →
      ∃ q : ℚ, k = JSNum.fin q ∧ 0 ≤ q ∧
        q ≤ multiplierCeiling (historyLength (IEEE.checkSymbol m symbol r).2 symbol) ∧
        q ≤ multiplierCeiling m.historySize.toNat) ∧
    (∀ T : ℚ, m.volumeMultiplier = JSNum.fin T → multiplierCeiling m.historySize.toNat < T →
      report.verdict.isAnomaly = false) := by
  obtain ⟨qs, c, a, hc, hcq, hord, hqne, hlen, hlenInt, hhist, havg, ha1, ha2, ha3, ha4, ha5,
    hv⟩ := checkSymbol_ieee_ordinary_run m symbol r report hsize hmax hinv hprior hrun hcur
  have hlenEq : historyLength (IEEE.checkSymbol m symbol r).2 symbol = qs.length := by
    simp [historyLength, hhist]
  have hmult : (IEEE.checkSymbol m symbol r).2.volumeMultiplier = m.volumeMultiplier := by
    rw [(checkSymbol_ieee_checked hrun).1, addVolumeToHistory_volumeMultiplier]
  have hlenNat : qs.length ≤ m.historySize.toNat := by
    have : ((qs.length : ℕ) : Int) ≤ m.historySize := hlenInt
    omega
  have hmono := multiplierCeiling_mono hlenNat
  rw [hlenEq, hv]
  by_cases hpos : 0 < a
  · obtain ⟨h1, h2⟩ := anomalyTest_ieee_pos (IEEE.checkSymbol m symbol r).2 symbol c a
      r.sendFails hpos
    obtain ⟨k, hk, hk0, hkle⟩ := ieee_ratio_bound qs c a hqne hord hlen hcq ha1 ha4 hpos
    constructor
    · intro k' hk'
      rw [h1, hk] at hk'
      exact ⟨k, (Option.some.inj hk').symm, hk0, hkle, le_trans hkle hmono⟩
    · intro T hT hlt
      rw [h2, hk, hmult, hT]
      have : k < T := lt_of_le_of_lt (le_trans hkle hmono) hlt
      simp [JSNum.ge, this]
  · have hgt : (JSNum.fin a).gt 0 = false := by
      simp [JSNum.gt, JSNum.ofNat_eq_fin, hpos]
    rw [anomalyTest_ieee_notPos _ symbol _ _ r.sendFails hgt]
    constructor
    · intro k hk
      simp [Verdict.multiplier?] at hk
    · intro _ _ _
      rfl

theorem checkSymbol_ieee_accumulating_iff (m : Monitor) (symbol : String) (r : Responses)
    (report : CheckReport) (hsize : 1 ≤ m.historySize) (hmax : m.historySize ≤ 2 ^ 40)
    (hinv : (historyLength m symbol : Int) ≤ m.historySize)
    (hprior : ∀ v ∈ (m.volumeHistory symbol).getD [], v.isOrdinaryVolume = true)
    (hrun : (IEEE.checkSymbol m symbol r).1 = .checked report)
    (hcur : report.currentVolume.isOrdinaryVolume = true) :
    (report.verdict
        = .accumulating (historyLength (IEEE.checkSymbol m symbol r).2 symbol)
            m.historySize ↔
      ∀ v ∈ ((IEEE.checkSymbol m symbol r).2.volumeHistory symbol).getD [], v = 0) ∧
    (report.verdict.multiplier? = none ↔
      ∀ v ∈ ((IEEE.checkSymbol m symbol r).2.volumeHistory symbol).getD [], v = 0) ∧
    (∀ c : ℚ, report.currentVolume = JSNum.fin c → 0 < c →
      ∃ k, report.verdict.multiplier? = some k) := by
  obtain ⟨qs, c, a, hc, hcq, hord, hqne, hlen, hlenInt, hhist, havg, ha1, ha2, ha3, ha4, ha5,
    hv⟩ := checkSymbol_ieee_ordinary_run m symbol r report hsize hmax hinv hprior hrun hcur
  have hsz : (IEEE.checkSymbol m symbol r).2.historySize = m.historySize := by
    rw [(checkSymbol_ieee_checked hrun).1, addVolumeToHistory_historySize]
  have hzero : (∀ v ∈ ((IEEE.checkSymbol m symbol r).2.volumeHistory symbol).getD [], v = 0)
      ↔ ∀ q ∈ qs, q = 0 := by
    rw [hhist, Option.getD_some]
    constructor
    · intro h q hq
      have := h (JSNum.fin q) (List.mem_map_of_mem _ hq)
      rw [JSNum.ofNat_eq_fin] at this
      simpa using JSNum.fin.inj this
    · intro h v hvm
      obtain ⟨q, hq, rfl⟩ := List.mem_map.mp hvm
      rw [h q hq, JSNum.ofNat_eq_fin]
      simp
  have hlenEq : historyLength (IEEE.checkSymbol m symbol r).2 symbol
      = (((IEEE.checkSymbol m symbol r).2.volumeHistory symbol).getD []).length := rfl
  by_cases ha0 : a = 0
  · have hz : ∀ q ∈ qs, q = 0 := ha5.mp ha0
    have hgt : (JSNum.fin a).gt 0 = false := by
      simp [JSNum.gt, JSNum.ofNat_eq_fin, ha0]
    have hacc := anomalyTest_ieee_notPos (IEEE.checkSymbol m symbol r).2 symbol (JSNum.fin c)
      (JSNum.fin a) r.sendFails hgt
    rw [← hv, hsz, ← hlenEq] at hacc
    refine ⟨⟨fun _ => hzero.mpr hz, fun _ => hacc⟩, ?_, ?_⟩
    · rw [hacc]
      exact ⟨fun _ => hzero.mpr hz, fun _ => rfl⟩
    · intro c' hc' hpos'
      rw [hc] at hc'
      have : c = c' := JSNum.fin.inj hc'
      rw [← this, hz c hcq] at hpos'
      exact absurd hpos' (lt_irrefl _)
  · have hnz : ¬ ∀ q ∈ qs, q = 0 := fun h => ha0 (ha5.mpr h)
    have hpos : 0 < a := by
      rcases ha3 with h | h
      · exact absurd h ha0
      · exact lt_of_lt_of_le (pow2_pos _) h
    obtain ⟨h1, -⟩ := anomalyTest_ieee_pos (IEEE.checkSymbol m symbol r).2 symbol c a
      r.sendFails hpos
    rw [← hv] at h1
    refine ⟨?_, ?_, ?_⟩
    · rw [hzero]
      constructor
      · intro hacc
        rw [hacc] at h1
        simp [Verdict.multiplier?] at h1
      · intro h; exact absurd h hnz
    · rw [hzero, h1]
      constructor
      · intro h; cases h
      · intro h; exact absurd h hnz
    · intro _ _ _
      exact ⟨_, h1⟩

theorem ieee_average_rounded_bounds (m : Monitor) (symbol : String) (qs : List ℚ)
    (hne : qs ≠ []) (h : m.volumeHistory symbol = some (qs.map JSNum.fin))
    (hord : ∀ q ∈ qs, q = 0 ∨ (pow2 (-500) ≤ q ∧ q ≤ pow2 500))
    (hlen : qs.length ≤ 2 ^ 40) :
    ∃ a : ℚ, IEEE.calculateAverageVolume m symbol = .ok (JSNum.fin a) ∧
      (∀ lo hi : ℚ, (∀ q ∈ qs, lo ≤ q) → (∀ q ∈ qs, q ≤ hi) →
        lo * (1 - unitRoundoff) ^ (qs.length + 1) ≤ a ∧
        a ≤ hi * (1 + unitRoundoff) ^ (qs.length + 1)) ∧
      (∀ v : ℚ, (∀ q ∈ qs, q = v) →
        v * (1 - unitRoundoff) ^ (qs.length + 1) ≤ a ∧
        a ≤ v * (1 + unitRoundoff) ^ (qs.length + 1)) := by
  have hU : pow2 (-53) = 1 / 9007199254740992 := pow2_neg53
  have h1U' : (0 : ℚ) ≤ 1 + pow2 (-53) := by rw [hU]; norm_num
  obtain ⟨a, ha, ha1, ha2, -, -, -⟩ := ieee_mean_bounds qs hne hord hlen
  have hne' : qs.map JSNum.fin ≠ [] := fun h0 => hne (List.map_eq_nil_iff.mp h0)
  have hcalc : IEEE.calculateAverageVolume m symbol = .ok (JSNum.fin a) := by
    rw [ieee_calculateAverageVolume_nonempty m symbol _ h hne', List.length_map, ha]
  have hbounds : ∀ lo hi : ℚ, (∀ q ∈ qs, lo ≤ q) → (∀ q ∈ qs, q ≤ hi) →
      lo * (1 - unitRoundoff) ^ (qs.length + 1) ≤ a ∧
      a ≤ hi * (1 + unitRoundoff) ^ (qs.length + 1) := by
    intro lo hi hlo hhi
    obtain ⟨hm1, hm2⟩ := mean_bounds qs hne lo hi hlo hhi
    unfold unitRoundoff
    constructor
    · exact le_trans (mul_le_mul_of_nonneg_right hm1 (le_of_lt (unit_pow_pos _))) ha1
    · exact le_trans ha2 (mul_le_mul_of_nonneg_right hm2 (pow_nonneg h1U' _))
  refine ⟨a, hcalc, hbounds, ?_⟩
  intro v hv
  exact hbounds v v (fun q hq => (hv q hq).ge) (fun q hq => (hv q hq).le)

/-- C25 as the code has it.  For every non-empty history of finite samples the mean that
`calculateAverageVolume` computes, `sum / n`, lies in exact arithmetic between the minimum
and the maximum of the stored samples (inclusive), is non-negative when all samples are
and is the common value when all samples are equal.  In binary64 arithmetic the method
returns that quotient with every addition and the division rounded; the rounded result is
still non-negative when all samples are non-negative, and it is the sample itself when the
history holds a single binary64 sample.  For at most `2 ^ 40` samples that are `0` or
between `2 ^ -500` and `2 ^ 500` the rounded result lies between the minimum and the
maximum up to the relative error of the `n + 1` roundings: it is at least
`min * (1 - 2 ^ -53) ^ (n + 1)` and at most `max * (1 + 2 ^ -53) ^ (n + 1)`, and within
these factors of the common value when all samples are equal. -/
theorem average_bounds_up_to_rounding :
    (∀ (m : Monitor) (symbol : String) (qs : List ℚ), qs ≠ [] →
      m.volumeHistory symbol = some (qs.map JSNum.fin) →
      calculateAverageVolume m symbol = .ok (JSNum.fin (qs.sum / qs.length)) ∧
      (∃ lo ∈ qs, ∃ hi ∈ qs, (∀ q ∈ qs, lo ≤ q ∧ q ≤ hi) ∧
        lo ≤ qs.sum / qs.length ∧ qs.sum / qs.length ≤ hi) ∧
      (∀ lo hi : ℚ, (∀ q ∈ qs, lo ≤ q) → (∀ q ∈ qs, q ≤ hi) →
        lo ≤ qs.sum / qs.length ∧ qs.sum / qs.length ≤ hi) ∧
      ((∀ q ∈ qs, 0 ≤ q) → 0 ≤ qs.sum / qs.length) ∧
      (∀ v : ℚ, (∀ q ∈ qs, q = v) → qs.sum / qs.length = v)) ∧
    (∀ (m : Monitor) (symbol : String) (qs : List ℚ), qs ≠ [] →
      m.volumeHistory symbol = some (qs.map JSNum.fin) →
      IEEE.calculateAverageVolume m symbol
        = .ok (IEEE.div ((qs.map JSNum.fin).foldl (fun acc val => IEEE.add acc val) 0)
            (JSNum.fin qs.length)) ∧
      ((∀ q ∈ qs, 0 ≤ q) →
        ∃ v, IEEE.calculateAverageVolume m symbol = .ok v ∧ v.ge 0 = true)) ∧
    (∀ (m : Monitor) (symbol : String) (c : ℚ),
      m.volumeHistory symbol = some [JSNum.fin c] → roundToDouble c = JSNum.fin c →
      IEEE.calculateAverageVolume m symbol = .ok (JSNum.fin c)) ∧
    (∀ (m : Monitor) (symbol : String) (qs : List ℚ), qs ≠ [] →
      m.volumeHistory symbol = some (qs.map JSNum.fin) →
      (∀ q ∈ qs, q = 0 ∨ (pow2 (-500) ≤ q ∧ q ≤ pow2 500)) → qs.length ≤ 2 ^ 40 →
      ∃ a : ℚ, IEEE.calculateAverageVolume m symbol = .ok (JSNum.fin a) ∧
        (∀ lo hi : ℚ, (∀ q ∈ qs, lo ≤ q) → (∀ q ∈ qs, q ≤ hi) →
          lo * (1 - unitRoundoff) ^ (qs.length + 1) ≤ a ∧
          a ≤ hi * (1 + unitRoundoff) ^ (qs.length + 1)) ∧
        (∀ v : ℚ, (∀ q ∈ qs, q = v) →
          v * (1 - unitRoundoff) ^ (qs.length + 1) ≤ a ∧
          a ≤ v * (1 + unitRoundoff) ^ (qs.length + 1))) := by
  refine ⟨?_, ?_, ?_, ieee_average_rounded_bounds⟩
  · intro m symbol qs hne h
    obtain ⟨a, ha, h1, h2, h3, h4⟩ := exact_mean_bounds m symbol qs hne h
    have hcalc := calculateAverageVolume_fin m symbol qs hne h
    have haq : a = qs.sum / qs.length := by
      rw [hcalc] at ha
      exact (JSNum.fin.inj (Except.ok.inj ha)).symm
    subst haq
    exact ⟨hcalc, h1, h2, h3, h4⟩
  · intro m symbol qs hne h
    have hne' : qs.map JSNum.fin ≠ [] := by
      intro h0
      exact hne (List.map_eq_nil_iff.mp h0)
    have hcalc := ieee_calculateAverageVolume_nonempty m symbol _ h hne'
    rw [List.length_map] at hcalc
    refine ⟨hcalc, ?_⟩
    intro hnn
    refine ⟨_, hcalc, ?_⟩
    have hlen : qs.length ≠ 0 := fun h0 => hne (List.length_eq_zero.mp h0)
    apply ieee_div_count_nonneg _ _ hlen
    apply ieee_foldl_nonneg
    · intro v hv
      obtain ⟨q, hq, rfl⟩ := List.mem_map.mp hv
      simpa [JSNum.ge, JSNum.ofNat_eq_fin] using hnn q hq
    · simp [JSNum.ge, JSNum.ofNat_eq_fin]
  · intro m symbol c h hc
    exact ieee_average_single m symbol c h hc

/-- Witness for C25 as the code has it: the history `[100, 100, 500]` has an exact mean
between 100 and 500; three samples `0.1` have a non-negative rounded mean, which is `0.1`
up to four roundings; a single sample `0.1` is its own rounded mean. -/
theorem average_bounds_up_to_rounding_witness :
    ((100 : ℚ) ≤ ([100, 100, 500] : List ℚ).sum / ([100, 100, 500] : List ℚ).length ∧
      ([100, 100, 500] : List ℚ).sum / ([100, 100, 500] : List ℚ).length ≤ 500) ∧
    (∃ v, IEEE.calculateAverageVolume
        (monitorWith "BTCUSDT"
          [JSNum.fin doubleTenth, JSNum.fin doubleTenth, JSNum.fin doubleTenth] 24 2)
        "BTCUSDT" = .ok v ∧ v.ge 0 = true) ∧
    IEEE.calculateAverageVolume (monitorWith "BTCUSDT" [JSNum.fin doubleTenth] 24 2) "BTCUSDT"
      = .ok (JSNum.fin doubleTenth) ∧
    (∃ a : ℚ, IEEE.calculateAverageVolume
        (monitorWith "BTCUSDT"
          [JSNum.fin doubleTenth, JSNum.fin doubleTenth, JSNum.fin doubleTenth] 24 2)
        "BTCUSDT" = .ok (JSNum.fin a) ∧
      doubleTenth * (1 - unitRoundoff) ^ 4 ≤ a ∧ a ≤ doubleTenth * (1 + unitRoundoff) ^ 4) :=
  ⟨(average_bounds_up_to_rounding.1 (monitorWith "BTCUSDT" [100, 100, 500] 3 2) "BTCUSDT"
      [100, 100, 500] (by decide) (by decide!)).2.2.1 100 500 (by decide!) (by decide!),
   (average_bounds_up_to_rounding.2.1
      (monitorWith "BTCUSDT"
        [JSNum.fin doubleTenth, JSNum.fin doubleTenth, JSNum.fin doubleTenth] 24 2)
      "BTCUSDT" [doubleTenth, doubleTenth, doubleTenth] (by decide) (by decide!)).2
      (by decide!),
   average_bounds_up_to_rounding.2.2.1 (monitorWith "BTCUSDT" [JSNum.fin doubleTenth] 24 2)
      "BTCUSDT" doubleTenth (by decide!) (by decide!),
   (average_bounds_up_to_rounding.2.2.2
      (monitorWith "BTCUSDT"
        [JSNum.fin doubleTenth, JSNum.fin doubleTenth, JSNum.fin doubleTenth] 24 2)
      "BTCUSDT" [doubleTenth, doubleTenth, doubleTenth] (by decide) (by decide!) (by decide!)
      (by norm_num)).imp (fun _ h => ⟨h.1, h.2.2 doubleTenth (by decide!)⟩)⟩

/-- Counterexample to C25 as stated: `0.1` is read as the binary64 value `doubleTenth`, and
for the history `[0.1, 0.1, 0.1]` the method returns the next binary64 value,
`0.10000000000000002`: more than the maximum of the samples and not their common value. -/
theorem average_bounds_up_to_rounding_counterexample :
    IEEE.parseFloat (.str "0.1") = JSNum.fin doubleTenth ∧
    IEEE.calculateAverageVolume
        (monitorWith "BTCUSDT"
          [JSNum.fin doubleTenth, JSNum.fin doubleTenth, JSNum.fin doubleTenth] 24 2)
        "BTCUSDT" = .ok (JSNum.fin doubleTenthNext) ∧
    doubleTenth < doubleTenthNext ∧
    (JSNum.fin doubleTenth).ge (JSNum.fin doubleTenthNext) = false := by
  refine ⟨by decide!, by decide!, by decide!, by decide!⟩

/-- C21 as the code has it.  Bound on the detectable multiplier.  In exact arithmetic, for
finite non-negative volumes and `historySize ≥ 1`, the quotient `checkSymbol` computes is
at most the number of samples in the history after the push; with the history within its
bound before the call that number is at most `historySize`, and no anomaly is reported when
`volumeMultiplier > historySize`, nor on a first sample when `volumeMultiplier > 1`.  In
binary64 arithmetic the first sample is treated exactly: the average is the current volume
itself, the multiplier of a positive volume is 1, and no anomaly is reported when
`volumeMultiplier > 1`.  In binary64 arithmetic, for volumes that are `0` or between
`2 ^ -500` and `2 ^ 500` and `1 ≤ historySize ≤ 2 ^ 40` with the history within its bound
before the call, the multiplier is at most `multiplierCeiling n` for the `n` samples after
the push, hence at most `multiplierCeiling historySize`, and no anomaly is reported when
`volumeMultiplier` is greater than that. -/
theorem multiplier_bound_up_to_rounding :
    (∀ (m : Monitor) (symbol : String) (r : Responses) (report : CheckReport),
      1 ≤ m.historySize →
      (∀ v ∈ (m.volumeHistory symbol).getD [], v.isNonNegReal = true) →
      (checkSymbol m symbol r).1 = .checked report →
      report.currentVolume.isNonNegReal = true →
      (∀ k, report.verdict.multiplier? = some k →
        ∃ q : ℚ, k = JSNum.fin q ∧ q ≤ historyLength (checkSymbol m symbol r).2 symbol) ∧
      ((historyLength m symbol : Int) ≤ m.historySize →
        (historyLength (checkSymbol m symbol r).2 symbol : Int) ≤ m.historySize ∧
        (∀ k, report.verdict.multiplier? = some k →
          ∃ q : ℚ, k = JSNum.fin q ∧ q ≤ m.historySize) ∧
        (m.volumeMultiplier.gt (JSNum.fin m.historySize) = true →
          report.verdict.isAnomaly = false)) ∧
      (historyLength m symbol = 0 → m.volumeMultiplier.gt 1 = true →
        report.verdict.isAnomaly = false)) ∧
    (∀ (m : Monitor) (symbol : String) (r : Responses) (report : CheckReport) (c : ℚ),
      1 ≤ m.historySize → historyLength m symbol = 0 →
      (IEEE.checkSymbol m symbol r).1 = .checked report →
      report.currentVolume = JSNum.fin c → roundToDouble c = JSNum.fin c →
      (IEEE.checkSymbol m symbol r).2.volumeHistory symbol = some [JSNum.fin c] ∧
      report.avgHistoricalVolume = JSNum.fin c ∧
      (0 < c → report.verdict.multiplier? = some 1) ∧
      (m.volumeMultiplier.gt 1 = true → report.verdict.isAnomaly = false)) ∧
    (∀ (m : Monitor) (symbol : String) (r : Responses) (report : CheckReport),
      1 ≤ m.historySize → m.historySize ≤ 2 ^ 40 →
      (historyLength m symbol : Int) ≤ m.historySize →
      (∀ v ∈ (m.volumeHistory symbol).getD [], v.isOrdinaryVolume = true) →
      (IEEE.checkSymbol m symbol r).1 = .checked report →
      report.currentVolume.isOrdinaryVolume = true →
      (∀ k, report.verdict.multiplier? = some k →
        ∃ q : ℚ, k = JSNum.fin q ∧ 0 ≤ q ∧
          q ≤ multiplierCeiling (historyLength (IEEE.checkSymbol m symbol r).2 symbol) ∧
          q ≤ multiplierCeiling m.historySize.toNat) ∧
      (∀ T : ℚ, m.volumeMultiplier = JSNum.fin T →
        multiplierCeiling m.historySize.toNat < T → report.verdict.isAnomaly = false)) :=
  ⟨exact_multiplier_bound, checkSymbol_ieee_first_sample, checkSymbol_ieee_multiplier_bound⟩

/-- Witness for C21 as the code has it: in exact arithmetic the history `[0, 0]`, size 24 and
the current volume 500 give the multiplier 3, the number of samples after the push; in
binary64 arithmetic a first sample `0.1` is stored as it is and raises no anomaly at the
threshold 2, and the multiplier `49.00000000000001` of 48 zeros followed by 1 is within the
ceiling for 49 samples. -/
theorem multiplier_bound_up_to_rounding_witness :
    (∃ q : ℚ, JSNum.fin 3 = JSNum.fin q ∧
      q ≤ historyLength (checkSymbol (monitorWith "BTCUSDT" [0, 0] 24 2) "BTCUSDT"
        (spotResponses ["100", "500"])).2 "BTCUSDT") ∧
    ((IEEE.checkSymbol (monitorWith "BTCUSDT" [] 24 2) "BTCUSDT"
        (spotResponses ["100", "0.1"])).2.volumeHistory "BTCUSDT"
        = some [JSNum.fin doubleTenth] ∧
      Verdict.isAnomaly (.normal 1) = false) ∧
    (∃ q : ℚ, JSNum.fin doubleAfter49 = JSNum.fin q ∧ 0 ≤ q ∧
      q ≤ multiplierCeiling (historyLength (IEEE.checkSymbol
        (monitorWith "BTCUSDT" (List.replicate 48 0) 49 (JSNum.fin doubleAfter49)) "BTCUSDT"
        (spotResponses ["1", "1"])).2 "BTCUSDT") ∧
      q ≤ multiplierCeiling
        (monitorWith "BTCUSDT" (List.replicate 48 0) 49
          (JSNum.fin doubleAfter49)).historySize.toNat) :=
  ⟨(multiplier_bound_up_to_rounding.1 (monitorWith "BTCUSDT" [0, 0] 24 2) "BTCUSDT"
      (spotResponses ["100", "500"])
      { volume24h := 0, currentVolume := 500, avgPreviousVolume := 100,
        avgHistoricalVolume := JSNum.fin (500 / 3),
        verdict := .anomaly
          { currentVolume := 500, avgVolume := JSNum.fin (500 / 3), multiplier := JSNum.fin 3 }
          .noBot }
      (by decide) (by decide!) (by decide!) (by decide!)).1 (JSNum.fin 3) rfl,
   (multiplier_bound_up_to_rounding.2.1 (monitorWith "BTCUSDT" [] 24 2) "BTCUSDT"
      (spotResponses ["100", "0.1"])
      { volume24h := 0, currentVolume := JSNum.fin doubleTenth, avgPreviousVolume := 100,
        avgHistoricalVolume := JSNum.fin doubleTenth, verdict := .normal 1 }
      doubleTenth (by decide) (by decide) (by decide!) rfl (by decide!)).imp id
      (fun h => h.2.2 (by decide!)),
   (multiplier_bound_up_to_rounding.2.2
      (monitorWith "BTCUSDT" (List.replicate 48 0) 49 (JSNum.fin doubleAfter49)) "BTCUSDT"
      (spotResponses ["1", "1"])
      { volume24h := 0, currentVolume := 1, avgPreviousVolume := 1,
        avgHistoricalVolume := JSNum.fin doubleFortyNinth,
        verdict := .anomaly
          { currentVolume := 1, avgVolume := JSNum.fin doubleFortyNinth,
            multiplier := JSNum.fin doubleAfter49 } .noBot }
      (by decide) (by decide!) (by decide!) (by decide!) (by decide!) (by decide!)).1
      (JSNum.fin doubleAfter49) rfl⟩

/-- Counterexample to C21 as stated: with `historySize` 49, a history of 48 zeros and the
current volume 1, the history after the push has 49 samples, the average is the binary64
value nearest to `1 / 49` and the multiplier is `49.00000000000001`: more than the number
of samples and than `historySize`.  The threshold in this run is that same value, greater
than `historySize`, and the anomaly branch is taken. -/
theorem multiplier_bound_up_to_rounding_counterexample :
    (IEEE.checkSymbol
        (monitorWith "BTCUSDT" (List.replicate 48 0) 49 (JSNum.fin doubleAfter49)) "BTCUSDT"
        (spotResponses ["1", "1"])).1
      = .checked
          { volume24h := 0
            currentVolume := 1
            avgPreviousVolume := 1
            avgHistoricalVolume := JSNum.fin doubleFortyNinth
            verdict := .anomaly
              { currentVolume := 1, avgVolume := JSNum.fin doubleFortyNinth,
                multiplier := JSNum.fin doubleAfter49 } .noBot } ∧
    historyLength (IEEE.checkSymbol
        (monitorWith "BTCUSDT" (List.replicate 48 0) 49 (JSNum.fin doubleAfter49)) "BTCUSDT"
        (spotResponses ["1", "1"])).2 "BTCUSDT" = 49 ∧
    (monitorWith "BTCUSDT" (List.replicate 48 0) 49 (JSNum.fin doubleAfter49)).historySize = 49 ∧
    (monitorWith "BTCUSDT" (List.replicate 48 0) 49 (JSNum.fin doubleAfter49)).volumeMultiplier
      = JSNum.fin doubleAfter49 ∧
    (49 : ℚ) < doubleAfter49 := by
  refine ⟨by decide!, by decide!, by decide, by decide!, by decide!⟩

/-- C22 as the code has it.  For `historySize ≥ 1`, `checkSymbol` with data available takes
the accumulation branch whenever every value in the history after the push is 0 (the
current volume is then 0): this holds in exact and in binary64 arithmetic.  In exact
arithmetic, for finite non-negative volumes, it takes that branch only then, and a
multiplier is computed whenever the current volume is positive, however few samples the
history holds.  The same equivalence holds in binary64 arithmetic for volumes that are `0`
or between `2 ^ -500` and `2 ^ 500`, with `historySize ≤ 2 ^ 40` and the history within
its bound before the call: the average of such volumes cannot underflow. -/
theorem accumulating_when_all_zero :
    (∀ (m : Monitor) (symbol : String) (r : Responses) (report : CheckReport),
      1 ≤ m.historySize →
      (∀ v ∈ (m.volumeHistory symbol).getD [], v.isNonNegReal = true) →
      (checkSymbol m symbol r).1 = .checked report →
      report.currentVolume.isNonNegReal = true →
      (report.verdict
          = .accumulating (historyLength (checkSymbol m symbol r).2 symbol) m.historySize ↔
        ∀ v ∈ ((checkSymbol m symbol r).2.volumeHistory symbol).getD [], v = 0) ∧
      (report.verdict.multiplier? = none ↔
        ∀ v ∈ ((checkSymbol m symbol r).2.volumeHistory symbol).getD [], v = 0) ∧
      ((∀ v ∈ ((checkSymbol m symbol r).2.volumeHistory symbol).getD [], v = 0) →
        report.currentVolume = 0) ∧
      (∀ c : ℚ, report.currentVolume = JSNum.fin c → 0 < c →
        ∃ k, report.verdict.multiplier? = some k)) ∧
    (∀ (m : Monitor) (symbol : String) (r : Responses) (report : CheckReport),
      1 ≤ m.historySize →
      (IEEE.checkSymbol m symbol r).1 = .checked report →
      (∀ v ∈ ((IEEE.checkSymbol m symbol r).2.volumeHistory symbol).getD [], v = 0) →
      report.verdict
        = .accumulating (historyLength (IEEE.checkSymbol m symbol r).2 symbol)
            m.historySize ∧
      report.verdict.multiplier? = none ∧
      report.currentVolume = 0 ∧
      report.avgHistoricalVolume = 0) ∧
    (∀ (m : Monitor) (symbol : String) (r : Responses) (report : CheckReport),
      1 ≤ m.historySize → m.historySize ≤ 2 ^ 40 →
      (historyLength m symbol : Int) ≤ m.historySize →
      (∀ v ∈ (m.volumeHistory symbol).getD [], v.isOrdinaryVolume = true) →
      (IEEE.checkSymbol m symbol r).1 = .checked report →
      report.currentVolume.isOrdinaryVolume = true →
      (report.verdict
          = .accumulating (historyLength (IEEE.checkSymbol m symbol r).2 symbol)
              m.historySize ↔
        ∀ v ∈ ((IEEE.checkSymbol m symbol r).2.volumeHistory symbol).getD [], v = 0) ∧
      (report.verdict.multiplier? = none ↔
        ∀ v ∈ ((IEEE.checkSymbol m symbol r).2.volumeHistory symbol).getD [], v = 0) ∧
      (∀ c : ℚ, report.currentVolume = JSNum.fin c → 0 < c →
        ∃ k, report.verdict.multiplier? = some k)) :=
  ⟨exact_accumulating_iff, checkSymbol_ieee_all_zero, checkSymbol_ieee_accumulating_iff⟩

/-- Witness for C22 as the code has it: a history of zeros and the current volume 0 end in
the accumulation branch, in exact and in binary64 arithmetic; in binary64 arithmetic the
history `[0, 0]` and the current volume `0.1` give a multiplier. -/
theorem accumulating_when_all_zero_witness :
    (Verdict.accumulating 3 24
      = .accumulating (historyLength (checkSymbol (monitorWith "BTCUSDT" [0, 0] 24 2) "BTCUSDT"
          (spotResponses ["100", "0"])).2 "BTCUSDT") 24) ∧
    (Verdict.accumulating 3 24
      = .accumulating (historyLength (IEEE.checkSymbol (monitorWith "BTCUSDT" [0, 0] 24 2)
          "BTCUSDT" (spotResponses ["100", "0"])).2 "BTCUSDT") 24) ∧
    (∃ k, Verdict.multiplier?
        (.anomaly
          { currentVolume := JSNum.fin doubleTenth
            avgVolume := JSNum.fin (4803839602528529 / 144115188075855872)
            multiplier := 3 } .noBot) = some k) :=
  ⟨((accumulating_when_all_zero.1 (monitorWith "BTCUSDT" [0, 0] 24 2) "BTCUSDT"
      (spotResponses ["100", "0"])
      { volume24h := 0, currentVolume := 0, avgPreviousVolume := 100,
        avgHistoricalVolume := 0, verdict := .accumulating 3 24 }
      (by decide) (by decide!) (by decide!) (by decide!)).1).mpr (by decide!),
   (accumulating_when_all_zero.2.1 (monitorWith "BTCUSDT" [0, 0] 24 2) "BTCUSDT"
      (spotResponses ["100", "0"])
      { volume24h := 0, currentVolume := 0, avgPreviousVolume := 100,
        avgHistoricalVolume := 0, verdict := .accumulating 3 24 }
      (by decide) (by decide!) (by decide!)).1,
   (accumulating_when_all_zero.2.2 (monitorWith "BTCUSDT" [0, 0] 24 2) "BTCUSDT"
      (spotResponses ["100", "0.1"])
      { volume24h := 0, currentVolume := JSNum.fin doubleTenth, avgPreviousVolume := 100,
        avgHistoricalVolume := JSNum.fin (4803839602528529 / 144115188075855872),
        verdict := .anomaly
          { currentVolume := JSNum.fin doubleTenth
            avgVolume := JSNum.fin (4803839602528529 / 144115188075855872)
            multiplier := 3 } .noBot }
      (by decide) (by decide!) (by decide!) (by decide!) (by decide!) (by decide!)).2.2
      doubleTenth rfl (by decide!)⟩

/-- Counterexample to C22 as stated: with the history `[0]` and a last candle of `5e-324`,
the least positive binary64 value, the history after the push is `[0, 5e-324]`, its sum
is `5e-324` and the average `5e-324 / 2` is rounded to 0.  The accumulation branch is
taken although the current volume is positive and not every value of the history is 0,
and no multiplier is computed. -/
theorem accumulating_when_all_zero_counterexample :
    (IEEE.checkSymbol (monitorWith "BTCUSDT" [0] 24 2) "BTCUSDT"
        (spotResponses ["1", "5e-324"])).1
      = .checked
          { volume24h := 0
            currentVolume := JSNum.fin doubleMinPositive
            avgPreviousVolume := 1
            avgHistoricalVolume := 0
            verdict := .accumulating 2 24 } ∧
    (IEEE.checkSymbol (monitorWith "BTCUSDT" [0] 24 2) "BTCUSDT"
        (spotResponses ["1", "5e-324"])).2.volumeHistory "BTCUSDT"
      = some [0, JSNum.fin doubleMinPositive] ∧
    0 < doubleMinPositive ∧
    (JSNum.fin doubleMinPositive).gt 0 = true := by
  refine ⟨by decide!, by decide!, by decide!, by decide!⟩

end Smert
